import Mathlib

/-! Force-feedback engine of `drivers/hid/hid-ftecff.c`

A shallow embedding of the effect table, the periodic recomputation
(`ftecff_timer`), the slot encoder (`ftecff_update_slot`) and the two entry
points `ftecff_upload_effect` and `ftecff_play_effect`, followed by theorems
about them.

Conventions of the embedding

* Signed C integers are `Int`, values of unsigned C types are non-negative
  `Int`s (bytes of a command and bit-twiddled quantities are `Nat`).  Every
  conversion that can change a value is written out with `to_u16`, `to_s32`,
  `to_u32`, `to_ulong`, `to_long`.
* `long` is 32 bits wide on the ARM target of this kernel tree and 64 bits on
  the PC the driver was written for; the width is the parameter `Abi`.
* C division and remainder truncate toward zero: `Int.tdiv`, `Int.tmod`.
  Unsigned division is `/` on non-negative values.  A division by zero, which
  C leaves undefined, evaluates to Lean's `0`.
* `fixp_sin32` of `linux/fixp-arith.h` is not part of the sources; it is a
  parameter of every function that reaches it.
* The spin locks, the hrtimer and the HID transport are outside the model: an
  operation is one atomic step, and a tick returns the commands it hands to
  `ftecff_send_cmd`.
-/

namespace Ftecff

/-! ## Machine integers -/

/-- Data model of the C compiler: `ilp32` has a 32-bit `long`, `lp64` a 64-bit one. -/
inductive Abi where
  | ilp32
  | lp64
  deriving DecidableEq, Repr

/-- The number of values of `unsigned long`, that is `2 ^ BITS_PER_LONG`. -/
def Abi.ulong_modulus : Abi → Int
  | .ilp32 => 4294967296
  | .lp64 => 18446744073709551616

/-- The value `LONG_MAX + 1`. -/
def Abi.long_half : Abi → Int
  | .ilp32 => 2147483648
  | .lp64 => 9223372036854775808

/-- Conversion to `unsigned short` (`u16`). -/
def to_u16 (x : Int) : Int := x % 65536

/-- Conversion to `unsigned int` (`u32`). -/
def to_u32 (x : Int) : Int := x % 4294967296

/-- Conversion to `int` (`s32`), two's complement. -/
def to_s32 (x : Int) : Int := (x + 2147483648) % 4294967296 - 2147483648

/-- Conversion to `unsigned long`. -/
def to_ulong (abi : Abi) (x : Int) : Int := x % abi.ulong_modulus

/-- Conversion to `long`, two's complement. -/
def to_long (abi : Abi) (x : Int) : Int :=
  (x + abi.long_half) % abi.ulong_modulus - abi.long_half

/-! ## Constants of `uapi/linux/input.h` and of the driver -/

def FF_PERIODIC : Nat := 0x51
def FF_CONSTANT : Nat := 0x52
def FF_SPRING : Nat := 0x53
def FF_FRICTION : Nat := 0x54
def FF_DAMPER : Nat := 0x55
def FF_RAMP : Nat := 0x57
def FF_SQUARE : Nat := 0x58
def FF_TRIANGLE : Nat := 0x59
def FF_SINE : Nat := 0x5a
def FF_SAW_UP : Nat := 0x5b
def FF_SAW_DOWN : Nat := 0x5c

/-- Modelled from the spec: `FTECFF_MAX_EFFECTS` is declared in `hid-ftec.h`, which is
not among the sources; the spec gives the capacity of the effect table as 16. -/
abbrev FTECFF_MAX_EFFECTS : Nat := 16

/-- The value of `EINVAL`. -/
def EINVAL : Int := 22

/-- The module-level `static int spring_level = 100`, never written by the driver. -/
def spring_level : Int := 100

/-- The module-level `static int damper_level = 100`, never written by the driver. -/
def damper_level : Int := 100

/-- The module-level `static int friction_level = 100`, never written by the driver. -/
def friction_level : Int := 100

/-! ## Data model -/

/-- The `struct ff_envelope` of the input layer: four `__u16` fields. -/
structure ff_envelope where
  attack_length : Int
  attack_level : Int
  fade_length : Int
  fade_level : Int
  deriving DecidableEq, Repr

/-- The `struct ff_replay` of the input layer: two `__u16` fields, in milliseconds. -/
structure ff_replay where
  length : Int
  delay : Int
  deriving DecidableEq, Repr

/-- The `struct ff_constant_effect`: `__s16 level` and an envelope. -/
structure ff_constant_effect where
  level : Int
  envelope : ff_envelope
  deriving DecidableEq, Repr

/-- The `struct ff_ramp_effect`: two `__s16` levels and an envelope. -/
structure ff_ramp_effect where
  start_level : Int
  end_level : Int
  envelope : ff_envelope
  deriving DecidableEq, Repr

/-- The `struct ff_condition_effect`: saturations and deadband are `__u16`, coefficients
and center are `__s16`. -/
structure ff_condition_effect where
  right_saturation : Int
  left_saturation : Int
  right_coeff : Int
  left_coeff : Int
  deadband : Int
  center : Int
  deriving DecidableEq, Repr

/-- The `struct ff_periodic_effect` without the custom-waveform fields, which the driver
never reads: `waveform`, `period`, `phase` are `__u16`, `magnitude`, `offset` are `__s16`. -/
structure ff_periodic_effect where
  waveform : Nat
  period : Int
  magnitude : Int
  offset : Int
  phase : Int
  envelope : ff_envelope
  deriving DecidableEq, Repr

/-- The union `u` of `struct ff_effect`, kept as one record with a field per member.
Every read in the driver goes through the member that matches the expression in the
source (`u.constant`, `u.ramp`, `u.periodic`, `u.condition[0]`), so the members are never
compared with one another. -/
structure ff_effect_u where
  constant : ff_constant_effect
  ramp : ff_ramp_effect
  periodic : ff_periodic_effect
  condition : ff_condition_effect
  deriving DecidableEq, Repr

/-- The `struct ff_effect` without `trigger`, which the driver never reads.  `type` and
`direction` are `__u16`.  `id` is the index into the effect table; the input core hands
the driver ids in `[0, FTECFF_MAX_EFFECTS)` only, which is the type of the field here. -/
structure ff_effect where
  type : Nat
  id : Fin FTECFF_MAX_EFFECTS
  direction : Int
  replay : ff_replay
  u : ff_effect_u
  deriving DecidableEq, Repr

/-- The bits `FF_EFFECT_STARTED` (0), `FF_EFFECT_ALLSET` (1), `FF_EFFECT_PLAYING` (2)
and `FF_EFFECT_UPDATING` (3) of `state->flags`; no other bit is ever set. -/
structure effect_flags where
  started : Bool
  allset : Bool
  playing : Bool
  updating : Bool
  deriving DecidableEq, Repr

/-- The value of `state->envelope`: `NULL` or the address of the envelope of one member of
`state->effect.u`. -/
inductive envelope_ptr where
  | null
  | constant
  | ramp
  | periodic
  deriving DecidableEq, Repr

/-- Modelled from the spec: `struct ftecff_effect_state` is declared in `hid-ftec.h`,
which is not among the sources.  The fields are the ones the source file uses, typed as
the spec's data model and the source's own uses require: the time stamps and
`time_playing` are `unsigned long` (milliseconds; `time_diff` and `time_after_eq`
type-check their arguments as `unsigned long`, and `ftecff_update_state` keeps the twin
of `time_playing` in a local `unsigned long phase_time`), `phase`, `phase_adj` and the
repeat counter `count` are `unsigned int`, `direction_gain` and `slope` are `int`. -/
structure ftecff_effect_state where
  effect : ff_effect
  envelope : envelope_ptr
  start_at : Int
  play_at : Int
  stop_at : Int
  flags : effect_flags
  time_playing : Int
  updated_at : Int
  phase : Int
  phase_adj : Int
  count : Int
  direction_gain : Int
  slope : Int
  deriving DecidableEq, Repr

/-- Modelled from the spec: `struct ftecff_effect_parameters` is declared in `hid-ftec.h`,
which is not among the sources.  The fields are the spec's aggregate parameters; all are
`int` except `clip`, which the source compares with an `(unsigned)` operand. -/
structure ftecff_effect_parameters where
  level : Int
  d1 : Int
  d2 : Int
  k1 : Int
  k2 : Int
  clip : Int
  deriving DecidableEq, Repr

/-- The seven bytes `current_cmd[0..6]` of a slot. -/
structure slot_cmd where
  b0 : Nat
  b1 : Nat
  b2 : Nat
  b3 : Nat
  b4 : Nat
  b5 : Nat
  b6 : Nat
  deriving DecidableEq, Repr

/-- Modelled from the spec: `struct ftecff_slot` is declared in `hid-ftec.h`, which is
not among the sources.  The fields are the spec's slot: an `id`, the seven command bytes,
the dirty flag `is_updated` (only ever assigned 0 or 1) and the category `effect_type`. -/
structure ftecff_slot where
  id : Nat
  current_cmd : slot_cmd
  is_updated : Bool
  effect_type : Nat
  deriving DecidableEq, Repr

/-- Modelled from the spec: `struct ftec_drv_data` is declared in `hid-ftec.h`, which is
not among the sources.  Only the part the engine works on is kept: the effect table, the
four slots and the counter `effects_used`.  The counter is a C `int` that moves by one per
operation; it is kept as an unbounded `Int`. -/
structure ftec_drv_data where
  states : Fin FTECFF_MAX_EFFECTS → ftecff_effect_state
  slots : Fin 4 → ftecff_slot
  effects_used : Int

/-- The all-zero envelope. -/
def ff_envelope.zero : ff_envelope := ⟨0, 0, 0, 0⟩

/-- The all-zero effect, as `memset` leaves it. -/
def ff_effect.zero : ff_effect :=
  { type := 0, id := 0, direction := 0, replay := ⟨0, 0⟩,
    u := { constant := ⟨0, ff_envelope.zero⟩, ramp := ⟨0, 0, ff_envelope.zero⟩,
           periodic := ⟨0, 0, 0, 0, 0, ff_envelope.zero⟩, condition := ⟨0, 0, 0, 0, 0, 0⟩ } }

/-- The flags value 0, which is also what `STOP_EFFECT` stores. -/
def effect_flags.zero : effect_flags := ⟨false, false, false, false⟩

/-- The all-zero table entry, as `memset` leaves it. -/
def ftecff_effect_state.zero : ftecff_effect_state :=
  { effect := ff_effect.zero, envelope := envelope_ptr.null, start_at := 0, play_at := 0,
    stop_at := 0, flags := effect_flags.zero, time_playing := 0, updated_at := 0, phase := 0,
    phase_adj := 0, count := 0, direction_gain := 0, slope := 0 }

/-- The all-zero parameter set, as `memset` leaves it. -/
def ftecff_effect_parameters.zero : ftecff_effect_parameters := ⟨0, 0, 0, 0, 0, 0⟩

/-- The all-zero command. -/
def slot_cmd.zero : slot_cmd := ⟨0, 0, 0, 0, 0, 0, 0⟩

/-- The all-zero slot, as `memset` leaves it. -/
def ftecff_slot.zero : ftecff_slot :=
  { id := 0, current_cmd := slot_cmd.zero, is_updated := false, effect_type := 0 }

/-- An `__u16` value. -/
def is_u16 (x : Int) : Prop := 0 ≤ x ∧ x < 65536

/-- An `__s16` value. -/
def is_s16 (x : Int) : Prop := -32768 ≤ x ∧ x < 32768

instance (x : Int) : Decidable (is_u16 x) := by unfold is_u16; infer_instance

instance (x : Int) : Decidable (is_s16 x) := by unfold is_s16; infer_instance

/-- An envelope whose fields are in the range of their C type. -/
def ff_envelope.wf (e : ff_envelope) : Prop :=
  is_u16 e.attack_length ∧ is_u16 e.attack_level ∧ is_u16 e.fade_length ∧ is_u16 e.fade_level

instance (e : ff_envelope) : Decidable e.wf := by unfold ff_envelope.wf; infer_instance

/-- An effect whose fields are in the range of their C type: what a caller of
`ftecff_upload_effect` can pass. -/
def ff_effect.wf (e : ff_effect) : Prop :=
  e.type < 65536 ∧ is_u16 e.direction ∧ is_u16 e.replay.length ∧ is_u16 e.replay.delay ∧
  is_s16 e.u.constant.level ∧ e.u.constant.envelope.wf ∧
  is_s16 e.u.ramp.start_level ∧ is_s16 e.u.ramp.end_level ∧ e.u.ramp.envelope.wf ∧
  e.u.periodic.waveform < 65536 ∧ is_u16 e.u.periodic.period ∧
  is_s16 e.u.periodic.magnitude ∧ is_s16 e.u.periodic.offset ∧ is_u16 e.u.periodic.phase ∧
  e.u.periodic.envelope.wf ∧
  is_u16 e.u.condition.right_saturation ∧ is_u16 e.u.condition.left_saturation ∧
  is_s16 e.u.condition.right_coeff ∧ is_s16 e.u.condition.left_coeff ∧
  is_u16 e.u.condition.deadband ∧ is_s16 e.u.condition.center

instance (e : ff_effect) : Decidable e.wf := by unfold ff_effect.wf; infer_instance

/-- A value of `unsigned long`: what `JIFFIES2MS(jiffies)` can be. -/
def is_ulong (abi : Abi) (x : Int) : Prop := 0 ≤ x ∧ x < abi.ulong_modulus

/-- A value of `int`. -/
def is_int (x : Int) : Prop := -2147483648 ≤ x ∧ x < 2147483648

instance (abi : Abi) (x : Int) : Decidable (is_ulong abi x) := by unfold is_ulong; infer_instance

instance (x : Int) : Decidable (is_int x) := by unfold is_int; infer_instance

/-! ## Time and sine helpers -/

/-- The macro `time_after_eq(a, b)` of `linux/jiffies.h`: `(long)((a) - (b)) >= 0`. -/
def time_after_eq (abi : Abi) (a b : Int) : Bool := decide (0 ≤ to_long abi (a - b))

/-- The macro `time_before(a, b)` of `linux/jiffies.h`, that is `time_after(b, a)`:
`(long)((a) - (b)) < 0`. -/
def time_before (abi : Abi) (a b : Int) : Bool := decide (to_long abi (a - b) < 0)

/-- The macro `time_diff(a, b)` of the driver: `(a) - (long)(b)`, an `unsigned long`. -/
def time_diff (abi : Abi) (a b : Int) : Int := to_ulong abi (a - b)

/-- The macro `fixp_sin16(v)` as the driver redefines it:
`((v % 360) > 180) ? -(fixp_sin32((v % 360) - 180) >> 16) : fixp_sin32(v) >> 16`.
The argument of `fixp_sin32` is an `int`, its result is an `s32`, and `>>` on the result
is an arithmetic shift. -/
def fixp_sin16 (fixp_sin32 : Int → Int) (v : Int) : Int :=
  if Int.tmod v 360 > 180 then
    -(to_s32 (fixp_sin32 (to_s32 (Int.tmod v 360 - 180))) >>> (16 : Nat))
  else
    to_s32 (fixp_sin32 (to_s32 v)) >>> (16 : Nat)

/-- The function `ftecff_effect_envelope`: the envelope of the member selected by the type. -/
def ftecff_effect_envelope (effect : ff_effect) : envelope_ptr :=
  if effect.type = FF_CONSTANT then envelope_ptr.constant
  else if effect.type = FF_RAMP then envelope_ptr.ramp
  else if effect.type = FF_PERIODIC then envelope_ptr.periodic
  else envelope_ptr.null

/-- The envelope that `state->envelope` points to.  Reading through `NULL` has no
defined value in C; it reads as the zero envelope here. -/
def ftecff_effect_state.env (state : ftecff_effect_state) : ff_envelope :=
  match state.envelope with
  | .constant => state.effect.u.constant.envelope
  | .ramp => state.effect.u.ramp.envelope
  | .periodic => state.effect.u.periodic.envelope
  | .null => ff_envelope.zero

/-! ## `ftecff_update_state` -/

/-- The value stored in `state->direction_gain`: `fixp_sin16(effect->direction * 360 / 0x10000)`. -/
def direction_gain_of (fixp_sin32 : Int → Int) (effect : ff_effect) : Int :=
  fixp_sin16 fixp_sin32 (Int.tdiv (effect.direction * 360) 0x10000)

/-- First block of `ftecff_update_state`: `if (!__test_and_set_bit(FF_EFFECT_ALLSET, ...))`. -/
def update_state_allset (abi : Abi) (fixp_sin32 : Int → Int) (state : ftecff_effect_state) :
    ftecff_effect_state :=
  let effect := state.effect
  if state.flags.allset then state
  else
    let state := { state with flags := { state.flags with allset := true } }
    let state := { state with play_at := to_ulong abi (state.start_at + effect.replay.delay) }
    let state := if state.flags.updating then state else { state with updated_at := state.play_at }
    let state := { state with direction_gain := direction_gain_of fixp_sin32 effect }
    let state :=
      if effect.type = FF_PERIODIC then
        { state with phase_adj := to_u32 (Int.tdiv (effect.u.periodic.phase * 360) effect.u.periodic.period) }
      else state
    if effect.replay.length ≠ 0 then
      { state with stop_at := to_ulong abi (state.play_at + effect.replay.length) }
    else state

/-- Second block of `ftecff_update_state`: `if (__test_and_clear_bit(FF_EFFECT_UPDATING, ...))`. -/
def update_state_updating (abi : Abi) (fixp_sin32 : Int → Int) (state : ftecff_effect_state) :
    ftecff_effect_state :=
  let effect := state.effect
  if state.flags.updating then
    let state := { state with flags := { state.flags with updating := false } }
    let state := { state with flags := { state.flags with playing := false } }
    let state := { state with play_at := to_ulong abi (state.start_at + effect.replay.delay) }
    let state := { state with direction_gain := direction_gain_of fixp_sin32 effect }
    let state :=
      if effect.replay.length ≠ 0 then
        { state with stop_at := to_ulong abi (state.play_at + effect.replay.length) }
      else state
    if effect.type = FF_PERIODIC then { state with phase_adj := state.phase } else state
  else state

/-- Third block of `ftecff_update_state`: the envelope pointer and the ramp slope,
`((end_level - start_level) << 16) / (length - attack_length - fade_length)` in `int`. -/
def update_state_slope (state : ftecff_effect_state) : ftecff_effect_state :=
  let effect := state.effect
  let state := { state with envelope := ftecff_effect_envelope effect }
  let state := { state with slope := 0 }
  if effect.type = FF_RAMP ∧ effect.replay.length ≠ 0 then
    let shifted := to_s32 ((effect.u.ramp.end_level - effect.u.ramp.start_level) * 65536)
    let divisor := effect.replay.length - state.env.attack_length - state.env.fade_length
    { state with slope := to_s32 (Int.tdiv shifted divisor) }
  else state

/-- Fourth block of `ftecff_update_state`: the transition to Playing. -/
def update_state_playing (abi : Abi) (state : ftecff_effect_state) (now : Int) :
    ftecff_effect_state :=
  if !state.flags.playing && time_after_eq abi now state.play_at &&
      (decide (state.effect.replay.length = 0) || time_before abi now state.stop_at) then
    { state with flags := { state.flags with playing := true } }
  else state

/-- Fifth block of `ftecff_update_state`: elapsed time and phase of a Playing effect.
`phase_time % period` and the following `* 360 / period` are `unsigned long` operations;
the two stores to `state->phase` convert to `unsigned int`. -/
def update_state_time (abi : Abi) (state : ftecff_effect_state) (now : Int) :
    ftecff_effect_state :=
  let effect := state.effect
  if state.flags.playing then
    let state := { state with time_playing := time_diff abi now state.play_at }
    if effect.type = FF_PERIODIC then
      let phase_time := time_diff abi now state.updated_at
      let scaled := to_ulong abi ((phase_time % effect.u.periodic.period) * 360)
      let state := { state with phase := to_u32 (scaled / effect.u.periodic.period) }
      { state with phase := to_u32 (state.phase + state.phase_adj % 360) }
    else state
  else state

/-- The function `ftecff_update_state`. -/
def ftecff_update_state (abi : Abi) (fixp_sin32 : Int → Int) (state : ftecff_effect_state)
    (now : Int) : ftecff_effect_state :=
  update_state_time abi
    (update_state_playing abi
      (update_state_slope (update_state_updating abi fixp_sin32
        (update_state_allset abi fixp_sin32 state))) now) now

/-! ## Envelope and waveform mathematics -/

/-- The local `level` of `ftecff_calculate_constant` after envelope shaping, before the
final `return`.  In the attack branch `d * state->time_playing / attack_length` is an
`unsigned long` computation (`d` is `long`, `time_playing` is `unsigned long`), and so is
the sum it enters; the store to `int level` truncates.  In the fade branch `d` and `t`
are both `long`. -/
def constant_shaped_level (abi : Abi) (state : ftecff_effect_state) : Int :=
  let level := state.effect.u.constant.level
  if state.time_playing < state.env.attack_length then
    let level_sign : Int := if level < 0 then -1 else 1
    let d := level - level_sign * state.env.attack_level
    to_s32 (to_ulong abi (to_ulong abi (level_sign * state.env.attack_level) +
      to_ulong abi (to_ulong abi d * state.time_playing) / state.env.attack_length))
  else if state.effect.replay.length ≠ 0 then
    let t := to_long abi (state.time_playing - state.effect.replay.length + state.env.fade_length)
    if t > 0 then
      let level_sign : Int := if level < 0 then -1 else 1
      let d := level - level_sign * state.env.fade_level
      to_s32 (to_long abi (level - Int.tdiv (to_long abi (d * t)) state.env.fade_length))
    else level
  else level

/-- The function `ftecff_calculate_constant`: `direction_gain * level / 0x7fff` in `int`. -/
def ftecff_calculate_constant (abi : Abi) (state : ftecff_effect_state) : Int :=
  Int.tdiv (to_s32 (state.direction_gain * constant_shaped_level abi state)) 0x7fff

/-- The local `magnitude` of `ftecff_calculate_periodic` after envelope shaping; the
arithmetic is that of `constant_shaped_level`. -/
def periodic_shaped_magnitude (abi : Abi) (state : ftecff_effect_state) : Int :=
  let magnitude := state.effect.u.periodic.magnitude
  let magnitude_sign : Int := if magnitude < 0 then -1 else 1
  if state.time_playing < state.env.attack_length then
    let d := magnitude - magnitude_sign * state.env.attack_level
    to_s32 (to_ulong abi (to_ulong abi (magnitude_sign * state.env.attack_level) +
      to_ulong abi (to_ulong abi d * state.time_playing) / state.env.attack_length))
  else if state.effect.replay.length ≠ 0 then
    let t := to_long abi (state.time_playing - state.effect.replay.length + state.env.fade_length)
    if t > 0 then
      let d := magnitude - magnitude_sign * state.env.fade_level
      to_s32 (to_long abi (magnitude - Int.tdiv (to_long abi (d * t)) state.env.fade_length))
    else magnitude
  else magnitude

/-- The kernel macro `abs(x)` at an `unsigned int` or `int` argument: the argument is
converted to `int` and negated when negative. -/
def abs_int (x : Int) : Int := to_s32 (if to_s32 x < 0 then -to_s32 x else to_s32 x)

/-- The value `state->phase * magnitude * 2 / 360`: `phase` is `unsigned int`, so the
products and the division are `unsigned int` operations. -/
def phase_ramp (phase magnitude : Int) : Int :=
  to_u32 (to_u32 (phase * to_u32 magnitude) * 2) / 360

/-- The term that the `switch (periodic->waveform)` of `ftecff_calculate_periodic` adds to
`level`; 0 when no case matches. -/
def waveform_term (fixp_sin32 : Int → Int) (waveform : Nat) (phase magnitude : Int) : Int :=
  if waveform = FF_SINE then
    Int.tdiv (to_s32 (fixp_sin16 fixp_sin32 phase * magnitude)) 0x7fff
  else if waveform = FF_SQUARE then
    to_s32 ((if phase < 180 then 1 else -1) * magnitude)
  else if waveform = FF_TRIANGLE then
    to_s32 (abs_int (to_u32 (phase_ramp phase magnitude - magnitude)) * 2 - magnitude)
  else if waveform = FF_SAW_UP then
    to_u32 (phase_ramp phase magnitude - magnitude)
  else if waveform = FF_SAW_DOWN then
    to_u32 (magnitude - phase_ramp phase magnitude)
  else 0

/-- The function `ftecff_calculate_periodic`. -/
def ftecff_calculate_periodic (abi : Abi) (fixp_sin32 : Int → Int)
    (state : ftecff_effect_state) : Int :=
  let periodic := state.effect.u.periodic
  let level := to_s32 (periodic.offset +
    waveform_term fixp_sin32 periodic.waveform state.phase (periodic_shaped_magnitude abi state))
  Int.tdiv (to_s32 (state.direction_gain * level)) 0x7fff

/-- The value of `max(a, b)`. -/
def cmax (a b : Int) : Int := if a > b then a else b

/-- The function `ftecff_calculate_spring`, on `state->effect.u.condition[0]`. -/
def ftecff_calculate_spring (state : ftecff_effect_state)
    (parameters : ftecff_effect_parameters) : ftecff_effect_parameters :=
  let condition := state.effect.u.condition
  let d1 := condition.center - Int.tdiv condition.deadband 2
  let d2 := condition.center + Int.tdiv condition.deadband 2
  let parameters := if d1 < parameters.d1 then { parameters with d1 := d1 } else parameters
  let parameters := if d2 > parameters.d2 then { parameters with d2 := d2 } else parameters
  let parameters := { parameters with k1 := parameters.k1 + condition.left_coeff }
  let parameters := { parameters with k2 := parameters.k2 + condition.right_coeff }
  { parameters with
    clip := cmax parameters.clip (cmax condition.left_saturation condition.right_saturation) }

/-- The function `ftecff_calculate_resistance`, on `state->effect.u.condition[0]`. -/
def ftecff_calculate_resistance (state : ftecff_effect_state)
    (parameters : ftecff_effect_parameters) : ftecff_effect_parameters :=
  let condition := state.effect.u.condition
  let parameters := { parameters with k1 := parameters.k1 + condition.left_coeff }
  let parameters := { parameters with k2 := parameters.k2 + condition.right_coeff }
  { parameters with
    clip := cmax parameters.clip (cmax condition.left_saturation condition.right_saturation) }

/-! ## Slot encoder -/

/-- The macro `CLAMP_VALUE_U16(x)`: `(unsigned short)((x) > 0xffff ? 0xffff : (x))`. -/
def CLAMP_VALUE_U16 (x : Int) : Nat := (to_u16 (if x > 0xffff then 0xffff else x)).toNat

/-- The macro `CLAMP_VALUE_S16(x)`:
`(unsigned short)((x) <= -0x8000 ? -0x8000 : ((x) > 0x7fff ? 0x7fff : (x)))`. -/
def CLAMP_VALUE_S16 (x : Int) : Nat :=
  (to_u16 (if x ≤ -0x8000 then -0x8000 else (if x > 0x7fff then 0x7fff else x))).toNat

/-- The macro `TRANSLATE_FORCE(x)`: `(CLAMP_VALUE_S16(x) + 0x8000) >> 8`. -/
def TRANSLATE_FORCE (x : Int) : Nat := (CLAMP_VALUE_S16 x + 0x8000) >>> 8

/-- The macro `SCALE_VALUE_U16(x, bits)`: `CLAMP_VALUE_U16(x) >> (16 - bits)`. -/
def SCALE_VALUE_U16 (x : Int) (bits : Nat) : Nat := CLAMP_VALUE_U16 x >>> (16 - bits)

/-- The macro `SCALE_COEFF(x, bits)`: `SCALE_VALUE_U16(abs(x) * 2, bits)`, in `int`. -/
def SCALE_COEFF (x : Int) (bits : Nat) : Nat := SCALE_VALUE_U16 (to_s32 (abs_int x * 2)) bits

/-- The `switch (slot->effect_type)` of `ftecff_update_slot`: the bytes it stores into a
command whose bytes 2 to 6 are zero.  Every store converts to `u8`. -/
def encode_parameters (effect_type : Nat) (parameters : ftecff_effect_parameters)
    (cmd : slot_cmd) : slot_cmd :=
  if effect_type = FF_CONSTANT then
    { cmd with b2 := TRANSLATE_FORCE parameters.level % 256 }
  else if effect_type = FF_SPRING then
    let d1 := SCALE_VALUE_U16 (to_u16 (to_s32 (parameters.d1 + 0x8000))) 11
    let d2 := SCALE_VALUE_U16 (to_u16 (to_s32 (parameters.d2 + 0x8000))) 11
    { cmd with
      b2 := (d1 >>> 3) % 256
      b3 := (d2 >>> 3) % 256
      b4 := ((SCALE_COEFF parameters.k2 4 <<< 4) + SCALE_COEFF parameters.k1 4) % 256
      b6 := SCALE_VALUE_U16 parameters.clip 8 % 256 }
  else if effect_type = FF_DAMPER then
    { cmd with
      b2 := SCALE_COEFF parameters.k1 4 % 256
      b4 := SCALE_COEFF parameters.k2 4 % 256
      b6 := SCALE_VALUE_U16 parameters.clip 8 % 256 }
  else cmd

/-- The function `ftecff_update_slot`.  The closing loop that compares `original_cmd[i]`
with `slot->current_cmd[i]` for `i = 0..6` is the comparison of the two commands. -/
def ftecff_update_slot (slot : ftecff_slot) (parameters : ftecff_effect_parameters) :
    ftecff_slot :=
  let original_cmd := slot.current_cmd
  let cmd : slot_cmd :=
    { original_cmd with b0 := ((slot.id <<< 4) ||| 0x1) % 256,
                        b2 := 0, b3 := 0, b4 := 0, b5 := 0, b6 := 0 }
  if (slot.effect_type = FF_CONSTANT ∧ parameters.level = 0) ∨
      (slot.effect_type ≠ FF_CONSTANT ∧ parameters.clip = 0) then
    let cmd := { cmd with b0 := cmd.b0 ||| 0x2 }
    if original_cmd.b0 ≠ cmd.b0 then { slot with current_cmd := cmd, is_updated := true }
    else { slot with current_cmd := cmd }
  else
    let cmd := encode_parameters slot.effect_type parameters cmd
    if original_cmd ≠ cmd then { slot with current_cmd := cmd, is_updated := true }
    else { slot with current_cmd := cmd }

/-! ## The tick: `ftecff_timer` -/

/-- The variables of the effect walk of `ftecff_timer`: the table, `effects_used`, the
local `count` and the local array `parameters[4]`. -/
structure timer_walk_state where
  states : Fin FTECFF_MAX_EFFECTS → ftecff_effect_state
  effects_used : Int
  count : Int
  parameters : Fin 4 → ftecff_effect_parameters

/-- The `switch (state->effect.type)` of the walk: the contribution of a Playing effect. -/
def timer_accumulate (abi : Abi) (fixp_sin32 : Int → Int) (state : ftecff_effect_state)
    (parameters : Fin 4 → ftecff_effect_parameters) : Fin 4 → ftecff_effect_parameters :=
  if state.effect.type = FF_CONSTANT then
    Function.update parameters 0
      { parameters 0 with level := (parameters 0).level + ftecff_calculate_constant abi state }
  else if state.effect.type = FF_SPRING then
    Function.update parameters 1 (ftecff_calculate_spring state (parameters 1))
  else if state.effect.type = FF_DAMPER then
    Function.update parameters 2 (ftecff_calculate_resistance state (parameters 2))
  else if state.effect.type = FF_PERIODIC then
    Function.update parameters 0
      { parameters 0 with
        level := (parameters 0).level + ftecff_calculate_periodic abi fixp_sin32 state }
  else parameters

/-- The tail of one iteration of the walk, from `ftecff_update_state(state, now)` on. -/
def timer_run_effect (abi : Abi) (fixp_sin32 : Int → Int) (now : Int) (ws : timer_walk_state)
    (effect_id : Fin FTECFF_MAX_EFFECTS) (state : ftecff_effect_state) : timer_walk_state :=
  let state := ftecff_update_state abi fixp_sin32 state now
  let ws := { ws with states := Function.update ws.states effect_id state }
  if state.flags.playing then
    { ws with parameters := timer_accumulate abi fixp_sin32 state ws.parameters }
  else ws

/-- The expiry block of the walk, `if (test_bit(FF_EFFECT_ALLSET, &state->flags)) { ... }`,
on a Started entry: the entry after the block, and whether the `continue` that follows
`drv_data->effects_used--` is taken.  `--state->count` is an `unsigned int` decrement. -/
def timer_expire (abi : Abi) (now : Int) (state : ftecff_effect_state) :
    ftecff_effect_state × Bool :=
  if state.flags.allset && decide (state.effect.replay.length ≠ 0) &&
      time_after_eq abi now state.stop_at then
    let state := { state with flags := effect_flags.zero }
    let state := { state with count := to_u32 (state.count - 1) }
    if state.count = 0 then (state, true)
    else
      let state := { state with flags := { state.flags with started := true } }
      ({ state with start_at := state.stop_at }, false)
  else (state, false)

/-- One iteration of the walk of `ftecff_timer`, after the test `if (!count) break;`. -/
def timer_visit (abi : Abi) (fixp_sin32 : Int → Int) (now : Int) (ws : timer_walk_state)
    (effect_id : Fin FTECFF_MAX_EFFECTS) : timer_walk_state :=
  let state := ws.states effect_id
  if state.flags.started then
    let ws := { ws with count := ws.count - 1 }
    let r := timer_expire abi now state
    if r.2 then
      { ws with states := Function.update ws.states effect_id r.1,
                effects_used := ws.effects_used - 1 }
    else timer_run_effect abi fixp_sin32 now ws effect_id r.1
  else ws

/-- The loop `for (effect_id = 0; effect_id < FTECFF_MAX_EFFECTS; effect_id++)` of
`ftecff_timer` over the ids still to visit; `if (!count) break;` ends it. -/
def timer_walk (abi : Abi) (fixp_sin32 : Int → Int) (now : Int) :
    List (Fin FTECFF_MAX_EFFECTS) → timer_walk_state → timer_walk_state
  | [], ws => ws
  | effect_id :: rest, ws =>
    if ws.count = 0 then ws
    else timer_walk abi fixp_sin32 now rest (timer_visit abi fixp_sin32 now ws effect_id)

/-- The value of `(long)x * gain / 0xffff` for an `int` or `unsigned int` `x` and the
`unsigned int gain`.  With a 32-bit `long` both operands of the product are converted to
`unsigned long`; with a 64-bit `long` the product and the division are signed. -/
def long_times_gain (abi : Abi) (x gain : Int) : Int :=
  match abi with
  | .ilp32 => to_ulong .ilp32 (to_ulong .ilp32 (to_long .ilp32 x) * gain) / 0xffff
  | .lp64 => Int.tdiv (to_long .lp64 (to_long .lp64 x * gain)) 0xffff

/-- The value of `(long)x * level / 100` for the `unsigned int x` and an `int level`. -/
def long_times_level (abi : Abi) (x level : Int) : Int :=
  Int.tdiv (to_long abi (to_long abi x * level)) 100

/-- The gain stage of `ftecff_timer`, between the walk and the slot loop, with
`gain = 0xffff`. -/
def timer_scale (abi : Abi) (parameters : Fin 4 → ftecff_effect_parameters) :
    Fin 4 → ftecff_effect_parameters :=
  let gain : Int := 0xffff
  let p0 := { parameters 0 with level := to_s32 (long_times_gain abi (parameters 0).level gain) }
  let p1 := { parameters 1 with clip := to_u32 (long_times_level abi (parameters 1).clip spring_level) }
  let p2 := { parameters 2 with clip := to_u32 (long_times_level abi (parameters 2).clip damper_level) }
  let p3 := { parameters 3 with clip := to_u32 (long_times_level abi (parameters 3).clip friction_level) }
  let scale := fun (p : ftecff_effect_parameters) =>
    { p with k1 := to_s32 (long_times_gain abi p.k1 gain),
             k2 := to_s32 (long_times_gain abi p.k2 gain),
             clip := to_u32 (long_times_gain abi p.clip gain) }
  fun i => if i = 0 then p0 else if i = 1 then scale p1 else if i = 2 then scale p2 else scale p3

/-- The closing loop of `ftecff_timer` over the slots still to visit: re-encode, hand a
dirty command to `ftecff_send_cmd`, clear the dirty flag.  The second component lists the
commands sent, each with the index of its slot, in the order of sending. -/
def timer_slots (parameters : Fin 4 → ftecff_effect_parameters) :
    List (Fin 4) → (Fin 4 → ftecff_slot) → (Fin 4 → ftecff_slot) × List (Fin 4 × slot_cmd)
  | [], slots => (slots, [])
  | i :: rest, slots =>
    let slot := ftecff_update_slot (slots i) (parameters i)
    if slot.is_updated then
      let r := timer_slots parameters rest (Function.update slots i { slot with is_updated := false })
      (r.1, (i, slot.current_cmd) :: r.2)
    else timer_slots parameters rest (Function.update slots i slot)

/-- The aggregates of a tick as the walk leaves them, before the gain stage. -/
def timer_aggregate (abi : Abi) (fixp_sin32 : Int → Int) (drv : ftec_drv_data) (now : Int) :
    timer_walk_state :=
  timer_walk abi fixp_sin32 now (List.finRange FTECFF_MAX_EFFECTS)
    { states := drv.states, effects_used := drv.effects_used, count := drv.effects_used,
      parameters := fun _ => ftecff_effect_parameters.zero }

/-- The function `ftecff_timer` at `now = JIFFIES2MS(jiffies)`: the engine after the tick
and the commands sent. -/
def ftecff_timer (abi : Abi) (fixp_sin32 : Int → Int) (drv : ftec_drv_data) (now : Int) :
    ftec_drv_data × List (Fin 4 × slot_cmd) :=
  let ws := timer_aggregate abi fixp_sin32 drv now
  let r := timer_slots (timer_scale abi ws.parameters) (List.finRange 4) drv.slots
  ({ states := ws.states, slots := r.1, effects_used := ws.effects_used }, r.2)

/-! ## Initialisation, upload and play -/

/-- The slots as `ftecff_init_slots` sets them up before its loop. -/
def init_slot (i : Fin 4) : ftecff_slot :=
  { ftecff_slot.zero with
    effect_type := if i = 0 then FF_CONSTANT else if i = 1 then FF_SPRING
                   else if i = 2 then FF_DAMPER else FF_FRICTION,
    current_cmd := { slot_cmd.zero with
                     b1 := if i = 0 then 0x08 else if i = 1 then 0x0b
                           else if i = 2 then 0x0c else 0x0 } }

/-- The loop of `ftecff_init_slots` over the slots still to visit: every command is sent,
dirty or not. -/
def init_slots_loop : List (Fin 4) → (Fin 4 → ftecff_slot) →
    (Fin 4 → ftecff_slot) × List (Fin 4 × slot_cmd)
  | [], slots => (slots, [])
  | i :: rest, slots =>
    let slot := ftecff_update_slot { slots i with id := i.val } ftecff_effect_parameters.zero
    let r := init_slots_loop rest (Function.update slots i { slot with is_updated := false })
    (r.1, (i, slot.current_cmd) :: r.2)

/-- The function `ftecff_init_slots`, after `drv_data->effects_used = 0` of `ftecff_init`. -/
def ftecff_init_slots : ftec_drv_data × List (Fin 4 × slot_cmd) :=
  let r := init_slots_loop (List.finRange 4) init_slot
  ({ states := fun _ => ftecff_effect_state.zero, slots := r.1, effects_used := 0 }, r.2)

/-- The function `ftecff_upload_effect` at `now = JIFFIES2MS(jiffies)`: the return value
and the engine after the call. -/
def ftecff_upload_effect (drv : ftec_drv_data) (effect : ff_effect) (now : Int) :
    Int × ftec_drv_data :=
  if effect.type = FF_PERIODIC ∧ effect.u.periodic.period = 0 then (-EINVAL, drv)
  else
    let state := drv.states effect.id
    if state.flags.started = true ∧ effect.type ≠ state.effect.type then (-EINVAL, drv)
    else
      let state := { state with effect := effect }
      let state :=
        if state.flags.started then
          { state with flags := { state.flags with updating := true }, updated_at := now }
        else state
      (0, { drv with states := Function.update drv.states effect.id state })

/-- The function `ftecff_play_effect` at `now = JIFFIES2MS(jiffies)`; it always returns 0.
The store `state->count = value` converts to `unsigned int`. -/
def ftecff_play_effect (drv : ftec_drv_data) (effect_id : Fin FTECFF_MAX_EFFECTS)
    (value : Int) (now : Int) : ftec_drv_data :=
  let state := drv.states effect_id
  if value > 0 then
    let started := state.flags.started
    let state := if started then { state with flags := effect_flags.zero } else state
    let effects_used := if started then drv.effects_used else drv.effects_used + 1
    let state := { state with flags := { state.flags with started := true } }
    let state := { state with start_at := now }
    let state := { state with count := to_u32 value }
    { drv with states := Function.update drv.states effect_id state, effects_used := effects_used }
  else if state.flags.started then
    { drv with states := Function.update drv.states effect_id { state with flags := effect_flags.zero },
               effects_used := drv.effects_used - 1 }
  else drv

/-- The engine states that initialisation followed by any sequence of uploads, plays and
ticks can produce, with arguments in the range of their C types. -/
inductive Reachable (abi : Abi) (fixp_sin32 : Int → Int) : ftec_drv_data → Prop
  | init : Reachable abi fixp_sin32 ftecff_init_slots.1
  | upload (drv : ftec_drv_data) (effect : ff_effect) (now : Int) :
      Reachable abi fixp_sin32 drv → effect.wf → is_ulong abi now →
      Reachable abi fixp_sin32 (ftecff_upload_effect drv effect now).2
  | play (drv : ftec_drv_data) (effect_id : Fin FTECFF_MAX_EFFECTS) (value : Int) (now : Int) :
      Reachable abi fixp_sin32 drv → is_int value → is_ulong abi now →
      Reachable abi fixp_sin32 (ftecff_play_effect drv effect_id value now)
  | tick (drv : ftec_drv_data) (now : Int) :
      Reachable abi fixp_sin32 drv → is_ulong abi now →
      Reachable abi fixp_sin32 (ftecff_timer abi fixp_sin32 drv now).1

/-- The number of table entries whose Started flag is set. -/
def started_count (states : Fin FTECFF_MAX_EFFECTS → ftecff_effect_state) : Nat :=
  (Finset.univ.filter (fun i => (states i).flags.started = true)).card

/-! ## Formulas of the specification -/

/-- The saturating clamp of the specification, `clamp_s16`, onto `[-0x8000, 0x7fff]`. -/
def spec_clamp_s16 (x : Int) : Int :=
  if x < -0x8000 then -0x8000 else if x > 0x7fff then 0x7fff else x

/-- The quantisation of the specification: `translate_force(x) = (clamp_s16(x) + 0x8000) >> 8`. -/
def spec_translate_force (x : Int) : Int := (spec_clamp_s16 x + 0x8000) >>> (8 : Nat)

/-- The condition under which `ftecff_update_slot` disables a slot: zero `level` for the
Constant slot, zero `clip` for any other. -/
def slot_disabled (slot : ftecff_slot) (parameters : ftecff_effect_parameters) : Prop :=
  (slot.effect_type = FF_CONSTANT ∧ parameters.level = 0) ∨
  (slot.effect_type ≠ FF_CONSTANT ∧ parameters.clip = 0)

instance (slot : ftecff_slot) (parameters : ftecff_effect_parameters) :
    Decidable (slot_disabled slot parameters) := by unfold slot_disabled; infer_instance

/-- What holds of slot `i` between two operations: it carries its index as id, its dirty
flag is clear, and a command with the disabled byte 0 has bytes 2 to 6 zero. -/
def slot_inv (i : Fin 4) (slot : ftecff_slot) : Prop :=
  slot.id = i.val ∧ slot.is_updated = false ∧
    (slot.current_cmd.b0 = (i.val <<< 4) ||| 0x3 →
      slot.current_cmd.b2 = 0 ∧ slot.current_cmd.b3 = 0 ∧ slot.current_cmd.b4 = 0 ∧
        slot.current_cmd.b5 = 0 ∧ slot.current_cmd.b6 = 0)

instance (i : Fin 4) (slot : ftecff_slot) : Decidable (slot_inv i slot) := by
  unfold slot_inv; infer_instance

/-! ## Concrete effects used as test points -/

/-- A Playing Constant effect of level -1000 with a 5 ms attack from level 0, full
direction gain, `time_playing` milliseconds into its attack. -/
def attack_example (time_playing : Int) : ftecff_effect_state :=
  { ftecff_effect_state.zero with
    effect := { ff_effect.zero with
                type := FF_CONSTANT, direction := 0x4000,
                u := { ff_effect.zero.u with constant := ⟨-1000, ⟨5, 0, 0, 0⟩⟩ } },
    envelope := envelope_ptr.constant,
    flags := ⟨true, true, true, false⟩,
    time_playing := time_playing,
    direction_gain := 0x7fff }

/-- A Constant effect of level 100 and length 1000 ms that fades over its last 10 ms to
the envelope level 200, at `time_playing == length`. -/
def fade_example_constant : ftecff_effect_state :=
  { ftecff_effect_state.zero with
    effect := { ff_effect.zero with
                type := FF_CONSTANT, direction := 0x4000, replay := ⟨1000, 0⟩,
                u := { ff_effect.zero.u with constant := ⟨100, ⟨0, 0, 10, 200⟩⟩ } },
    envelope := envelope_ptr.constant,
    flags := ⟨true, true, true, false⟩,
    time_playing := 1000,
    direction_gain := 0x7fff }

/-- A Periodic square effect of magnitude 100 and length 1000 ms that fades over its last
10 ms to the envelope level 200, at `time_playing == length`. -/
def fade_example_periodic : ftecff_effect_state :=
  { ftecff_effect_state.zero with
    effect := { ff_effect.zero with
                type := FF_PERIODIC, direction := 0x4000, replay := ⟨1000, 0⟩,
                u := { ff_effect.zero.u with
                       periodic := ⟨FF_SQUARE, 100, 100, 0, 0, ⟨0, 0, 10, 200⟩⟩ } },
    envelope := envelope_ptr.periodic,
    flags := ⟨true, true, true, false⟩,
    time_playing := 1000,
    direction_gain := 0x7fff }

/-! ## Auxiliary notions for the walk of a tick -/

/-- The table entry that the walk leaves where it visited the Started entry `e`: stopped
by the expiry block, or re-armed and recomputed, or just recomputed. -/
def timer_entry (abi : Abi) (fixp_sin32 : Int → Int) (now : Int) (e : ftecff_effect_state) :
    ftecff_effect_state :=
  if (timer_expire abi now e).2 then (timer_expire abi now e).1
  else ftecff_update_state abi fixp_sin32 (timer_expire abi now e).1 now

/-- The number of ids of `l` whose entry is Started. -/
def started_in (l : List (Fin FTECFF_MAX_EFFECTS))
    (states : Fin FTECFF_MAX_EFFECTS → ftecff_effect_state) : Nat :=
  l.countP (fun k => (states k).flags.started)

/-- The walk of `ftecff_timer` without the early exit `if (!count) break;`: every id of
the list is visited. -/
def timer_walk_full (abi : Abi) (fixp_sin32 : Int → Int) (now : Int)
    (l : List (Fin FTECFF_MAX_EFFECTS)) (ws : timer_walk_state) : timer_walk_state :=
  l.foldl (timer_visit abi fixp_sin32 now) ws

/-- What a visited entry adds to `parameters[0].level`: the value of a Started entry that
the visit leaves Playing, when its type is `FF_CONSTANT` or `FF_PERIODIC`. -/
def level_contribution (abi : Abi) (fixp_sin32 : Int → Int) (now : Int)
    (e : ftecff_effect_state) : Int :=
  if e.flags.started = true ∧ (timer_entry abi fixp_sin32 now e).flags.playing = true then
    if (timer_entry abi fixp_sin32 now e).effect.type = FF_CONSTANT then
      ftecff_calculate_constant abi (timer_entry abi fixp_sin32 now e)
    else if (timer_entry abi fixp_sin32 now e).effect.type = FF_PERIODIC then
      ftecff_calculate_periodic abi fixp_sin32 (timer_entry abi fixp_sin32 now e)
    else 0
  else 0

/-- What holds of every table entry between two operations: the stored effect is in the
range of its C types; an entry that is not Started has no flag set; a Playing entry is
AllSet; an AllSet entry that is not Updating caches the direction gain of its effect and,
when its length is bounded, has `stop_at == play_at + length`. -/
def entry_inv (abi : Abi) (fixp_sin32 : Int → Int) (e : ftecff_effect_state) : Prop :=
  e.effect.wf ∧
  (e.flags.started = false → e.flags = effect_flags.zero) ∧
  (e.flags.playing = true → e.flags.allset = true) ∧
  (e.flags.allset = true → e.flags.updating = false →
    e.direction_gain = direction_gain_of fixp_sin32 e.effect) ∧
  (e.flags.allset = true → e.flags.updating = false → e.effect.replay.length ≠ 0 →
    e.stop_at = to_ulong abi (e.play_at + e.effect.replay.length))

/-- A Constant effect without envelope, of unbounded length and no delay. -/
def constant_effect (id : Fin FTECFF_MAX_EFFECTS) (level direction : Int) : ff_effect :=
  { ff_effect.zero with
    type := FF_CONSTANT, id := id, direction := direction,
    u := { ff_effect.zero.u with constant := ⟨level, ff_envelope.zero⟩ } }

/-- The engine after initialisation, the upload of two Constant effects of level 1000 with
ids 0 and 1 and the given directions, and `play(0, 1)`, `play(1, 1)`, all at time 0. -/
def two_constants_example (direction_a direction_b : Int) : ftec_drv_data :=
  ftecff_play_effect
    (ftecff_play_effect
      (ftecff_upload_effect
        (ftecff_upload_effect ftecff_init_slots.1 (constant_effect 0 1000 direction_a) 0).2
        (constant_effect 1 1000 direction_b) 0).2
      0 1 0)
    1 1 0

/-- A stand-in for `fixp_sin32` that returns the peak of the sine table, `0x7fffffff`, the
value of `fixp_sin32(90)`, at every argument. -/
def fixp_sin32_peak : Int → Int := fun _ => 0x7fffffff

/-- The command last handed to the transport for each slot, after the sends of `sent` in
order, when `last` held these commands before. -/
def last_sent (last : Fin 4 → slot_cmd) : List (Fin 4 × slot_cmd) → Fin 4 → slot_cmd
  | [] => last
  | s :: rest => last_sent (Function.update last s.1 s.2) rest

/-- The reachable engine states together with the command last handed to the transport for
each slot. -/
inductive ReachableSent (abi : Abi) (fixp_sin32 : Int → Int) :
    ftec_drv_data → (Fin 4 → slot_cmd) → Prop
  | init : ReachableSent abi fixp_sin32 ftecff_init_slots.1
      (last_sent (fun _ => slot_cmd.zero) ftecff_init_slots.2)
  | upload (drv : ftec_drv_data) (last : Fin 4 → slot_cmd) (effect : ff_effect) (now : Int) :
      ReachableSent abi fixp_sin32 drv last → effect.wf → is_ulong abi now →
      ReachableSent abi fixp_sin32 (ftecff_upload_effect drv effect now).2 last
  | play (drv : ftec_drv_data) (last : Fin 4 → slot_cmd)
      (effect_id : Fin FTECFF_MAX_EFFECTS) (value : Int) (now : Int) :
      ReachableSent abi fixp_sin32 drv last → is_int value → is_ulong abi now →
      ReachableSent abi fixp_sin32 (ftecff_play_effect drv effect_id value now) last
  | tick (drv : ftec_drv_data) (last : Fin 4 → slot_cmd) (now : Int) :
      ReachableSent abi fixp_sin32 drv last → is_ulong abi now →
      ReachableSent abi fixp_sin32 (ftecff_timer abi fixp_sin32 drv now).1
        (last_sent last (ftecff_timer abi fixp_sin32 drv now).2)

/-- Two table entries that agree in every field except possibly `direction_gain`. -/
def same_but_gain (s t : ftecff_effect_state) : Prop :=
  t = { s with direction_gain := t.direction_gain }

/-- The engine after initialisation, the upload of the effect of `attack_example` (Constant,
level -1000, 5 ms attack from level 0, direction `0x4000`, unbounded) with id 0, and
`play(0, 1)`, all at time 0. -/
def attack_engine : ftec_drv_data :=
  ftecff_play_effect
    (ftecff_upload_effect ftecff_init_slots.1 (attack_example 0).effect 0).2 0 1 0

/-- The kind of an effect in the data model of the specification: its type and, for a
Periodic effect, its waveform. -/
def spec_kind (effect : ff_effect) : Nat × Option Nat :=
  (effect.type, if effect.type = FF_PERIODIC then some effect.u.periodic.waveform else none)

/-- A Periodic effect with id 0, magnitude 1000, no offset, no envelope, unbounded length,
no delay and direction `0x4000`. -/
def periodic_effect (waveform : Nat) (period phase : Int) : ff_effect :=
  { ff_effect.zero with
    type := FF_PERIODIC, direction := 0x4000,
    u := { ff_effect.zero.u with
           periodic := ⟨waveform, period, 1000, 0, phase, ff_envelope.zero⟩ } }

/-- The engine after initialisation, the upload of a sine effect of period 1000 with id 0
and `play(0, 1)`, all at time 0. -/
def sine_engine : ftec_drv_data :=
  ftecff_play_effect
    (ftecff_upload_effect ftecff_init_slots.1 (periodic_effect FF_SINE 1000 0) 0).2 0 1 0

/-- The engine after initialisation, the upload of a Constant effect of level `0x4000` and
direction `0x4000` with id 0, `play(0, 1)` and one tick, all at time 0. -/
def constant_playing_engine (abi : Abi) : ftec_drv_data :=
  (ftecff_timer abi fixp_sin32_peak
    (ftecff_play_effect
      (ftecff_upload_effect ftecff_init_slots.1 (constant_effect 0 0x4000 0x4000) 0).2 0 1 0)
    0).1

/-- The coefficient scaling of the specification:
`scale_coeff(x, bits) = min(2 * |x|, 0xffff) >> (16 - bits)`. -/
def spec_scale_coeff (x : Int) (bits : Nat) : Nat := (min (2 * |x|) 0xffff).toNat >>> (16 - bits)

/-- The value scaling of the specification:
`scale_value(x, bits) = min(x, 0xffff) >> (16 - bits)`. -/
def spec_scale_value (x : Int) (bits : Nat) : Nat := (min x 0xffff).toNat >>> (16 - bits)

/-- The deadband byte of the specification: `(((d + 0x8000) mod 2^16) >> 5) >> 3`. -/
def spec_deadband_byte (d : Int) : Nat := ((((d + 0x8000) % 65536).toNat) >>> 5) >>> 3

/-- An aggregate with the given coefficients, clip `0xffff` and everything else zero. -/
def coefficient_aggregate (k1 k2 : Int) : ftecff_effect_parameters :=
  { ftecff_effect_parameters.zero with k1 := k1, k2 := k2, clip := 0xffff }

/-- The engine after initialisation, the upload of `effect` and `play(effect.id, 1)`, all
at time 0. -/
def started_engine (effect : ff_effect) : ftec_drv_data :=
  ftecff_play_effect (ftecff_upload_effect ftecff_init_slots.1 effect 0).2 effect.id 1 0

/-- The engine after the ticks at the times of the list, in order. -/
def run_ticks (abi : Abi) (fixp_sin32 : Int → Int) (drv : ftec_drv_data) :
    List Int → ftec_drv_data
  | [] => drv
  | t :: rest => run_ticks abi fixp_sin32 (ftecff_timer abi fixp_sin32 drv t).1 rest

/-- An engine in which effect 0, holding `effect`, was played at `start_at` and has not
begun to play, no other effect is Started, and slot 0 is as initialisation left it. -/
def armed (abi : Abi) (fixp_sin32 : Int → Int) (effect : ff_effect) (start_at : Int)
    (drv : ftec_drv_data) : Prop :=
  Reachable abi fixp_sin32 drv ∧ drv.slots 0 = ftecff_init_slots.1.slots 0 ∧
  (∀ k, k ≠ 0 → (drv.states k).flags.started = false) ∧
  (drv.states 0).effect = effect ∧ (drv.states 0).flags.started = true ∧
  (drv.states 0).flags.playing = false ∧ (drv.states 0).flags.updating = false ∧
  (drv.states 0).start_at = start_at ∧
  ((drv.states 0).flags.allset = true →
    (drv.states 0).play_at = to_ulong abi (start_at + effect.replay.delay))

/-- Both coefficients of every aggregate lie in `[-bound, bound]`. -/
def coefficients_within (bound : Int) (parameters : Fin 4 → ftecff_effect_parameters) : Prop :=
  ∀ i, -bound ≤ (parameters i).k1 ∧ (parameters i).k1 ≤ bound ∧
    -bound ≤ (parameters i).k2 ∧ (parameters i).k2 ≤ bound

/-- The repeat counter of a Started entry is a positive `unsigned int`. -/
def count_inv (e : ftecff_effect_state) : Prop :=
  e.flags.started = true → 1 ≤ e.count ∧ e.count < 4294967296

/-- A Constant effect of level `0x4000` and direction `0x4000` with id 0, a length of 10 ms
and no delay, played `count` times at time 0 on the initialised engine and ticked at
time 0. -/
def bounded_playing_engine (count : Int) : ftec_drv_data :=
  (ftecff_timer Abi.ilp32 fixp_sin32_peak
    (ftecff_play_effect
      (ftecff_upload_effect ftecff_init_slots.1
        { constant_effect 0 0x4000 0x4000 with replay := ⟨10, 0⟩ } 0).2 0 count 0) 0).1

/-- The test under which `ftecff_calculate_constant` and `ftecff_calculate_periodic`
evaluate the division by `attack_length`: `state->time_playing < attack_length`. -/
def attack_division (state : ftecff_effect_state) : Prop :=
  state.time_playing < state.env.attack_length

/-- The tests under which `ftecff_calculate_constant` and `ftecff_calculate_periodic`
evaluate the division by `fade_length`: the attack test fails, the length is not 0 and
`t = time_playing - length + fade_length`, as a `long`, is positive. -/
def fade_division (abi : Abi) (state : ftecff_effect_state) : Prop :=
  ¬ state.time_playing < state.env.attack_length ∧ state.effect.replay.length ≠ 0 ∧
    to_long abi (state.time_playing - state.effect.replay.length + state.env.fade_length) > 0

instance (state : ftecff_effect_state) : Decidable (attack_division state) := by
  unfold attack_division; infer_instance

instance (abi : Abi) (state : ftecff_effect_state) : Decidable (fade_division abi state) := by
  unfold fade_division; infer_instance

/-- The engine after a Constant effect of level `0x4000` and length 1000 ms with id 0 was
uploaded and played at 42949660 ms, a tick ran at 42949670 ms, and the next tick ran at
7 ms.  These are the values of `JIFFIES2MS(jiffies)`, that is `jiffies * 1000 / HZ`, at
`jiffies` 4294966, 4294967 and 4294968 with a 32-bit `unsigned long` and `HZ` equal to
100: the product wraps at the third. -/
def clock_wrap_engine : ftec_drv_data :=
  (ftecff_timer Abi.ilp32 fixp_sin32_peak
    (ftecff_timer Abi.ilp32 fixp_sin32_peak
      (ftecff_play_effect
        (ftecff_upload_effect ftecff_init_slots.1
          { constant_effect 0 0x4000 0x4000 with replay := ⟨1000, 0⟩ } 42949660).2
        0 1 42949660)
      42949670).1
    7).1

/-- The waveform of the specification for Square, Triangle, Sawtooth-up and Sawtooth-down:
`+m` if `p < 180` else `-m`; `|p*m*2/360 - m| * 2 - m`; `p*m*2/360 - m`; `m - p*m*2/360`;
with the truncating division of C.  It is 0 for every other waveform code. -/
def spec_waveform (waveform : Nat) (p m : Int) : Int :=
  if waveform = FF_SQUARE then (if p < 180 then m else -m)
  else if waveform = FF_TRIANGLE then |Int.tdiv (p * m * 2) 360 - m| * 2 - m
  else if waveform = FF_SAW_UP then Int.tdiv (p * m * 2) 360 - m
  else if waveform = FF_SAW_DOWN then m - Int.tdiv (p * m * 2) 360
  else 0

/-- The value of the specification for a Periodic effect:
`g * (o + w(p, m)) / 0x7fff` with the truncating division of C. -/
def spec_periodic_value (waveform : Nat) (p m o g : Int) : Int :=
  Int.tdiv (g * (o + spec_waveform waveform p m)) 0x7fff

/-- A Playing Periodic effect without envelope, of unbounded length, with offset 0 and
direction gain `0x7fff`, at the given phase. -/
def periodic_example (waveform : Nat) (magnitude phase : Int) : ftecff_effect_state :=
  { ftecff_effect_state.zero with
    effect := { ff_effect.zero with
                type := FF_PERIODIC, direction := 0x4000,
                u := { ff_effect.zero.u with
                       periodic := ⟨waveform, 360, magnitude, 0, 0, ff_envelope.zero⟩ } },
    envelope := envelope_ptr.periodic,
    flags := ⟨true, true, true, false⟩,
    phase := phase,
    direction_gain := 0x7fff }

/-- The Periodic Sine effect of the scenario: id 0, period 360, magnitude `0x7fff`, phase 0,
offset 0, no envelope, unbounded, direction `0x4000`. -/
def sine_scenario_effect : ff_effect :=
  { ff_effect.zero with
    type := FF_PERIODIC, direction := 0x4000,
    u := { ff_effect.zero.u with
           periodic := ⟨FF_SINE, 360, 0x7fff, 0, 0, ff_envelope.zero⟩ } }

/-- What the visit of a tick to the entry `e` does to the aggregates: the contribution of
`e` as the visit leaves it, when `e` is Started and the visit leaves it Playing. -/
def visit_parameters (abi : Abi) (fixp_sin32 : Int → Int) (now : Int)
    (e : ftecff_effect_state) (parameters : Fin 4 → ftecff_effect_parameters) :
    Fin 4 → ftecff_effect_parameters :=
  if e.flags.started = true ∧ (timer_entry abi fixp_sin32 now e).flags.playing = true then
    timer_accumulate abi fixp_sin32 (timer_entry abi fixp_sin32 now e) parameters
  else parameters

/-- The ids of the effects of type `type` that the tick at `now` leaves Playing. -/
def tick_playing (abi : Abi) (fixp_sin32 : Int → Int) (drv : ftec_drv_data) (now : Int)
    (type : Nat) : Finset (Fin FTECFF_MAX_EFFECTS) :=
  Finset.univ.filter (fun k =>
    ((ftecff_timer abi fixp_sin32 drv now).1.states k).flags.playing = true ∧
      (drv.states k).effect.type = type)

/-- The saturation of a condition effect: `max(left_saturation, right_saturation)`. -/
def saturation (e : ftecff_effect_state) : Int :=
  cmax e.effect.u.condition.left_saturation e.effect.u.condition.right_saturation

/-- A Spring or Damper effect (by `type`) with the given id and coefficients, saturations
`0x4000` and `0x6000`, center 0 and deadband 0, unbounded and without delay. -/
def condition_effect (type : Nat) (id : Fin FTECFF_MAX_EFFECTS) (left_coeff right_coeff : Int) :
    ff_effect :=
  { ff_effect.zero with
    type := type, id := id,
    u := { ff_effect.zero.u with
           condition := ⟨0x6000, 0x4000, right_coeff, left_coeff, 0, 0⟩ } }

/-- The engine after two Spring effects with ids 0 and 1 were uploaded and played at
time 0 on the initialised engine. -/
def two_springs_engine : ftec_drv_data :=
  ftecff_play_effect
    (ftecff_upload_effect
      (started_engine (condition_effect FF_SPRING 0 100 200)) (condition_effect FF_SPRING 1 30 40) 0).2
    1 1 0

/-- The entry `e` is Started, the visit of the tick at `now` leaves it Playing, and its
effect has type `type`. -/
def contributes (abi : Abi) (fixp_sin32 : Int → Int) (now : Int) (type : Nat)
    (e : ftecff_effect_state) : Prop :=
  e.flags.started = true ∧ (timer_entry abi fixp_sin32 now e).flags.playing = true ∧
    e.effect.type = type

instance (abi : Abi) (fixp_sin32 : Int → Int) (now : Int) (type : Nat)
    (e : ftecff_effect_state) : Decidable (contributes abi fixp_sin32 now type e) := by
  unfold contributes; infer_instance

/-- The aggregate index and the effect type of the two condition categories: Spring with
aggregate 1, Damper with aggregate 2. -/
def condition_category (i : Fin 4) (type : Nat) : Prop :=
  (i = 1 ∧ type = FF_SPRING) ∨ (i = 2 ∧ type = FF_DAMPER)

/-- The aggregate with index `i` that the walk of the tick at `now` leaves is the fold of
the effects of type `type` that the tick leaves Playing: `k1` and `k2` are the sums of their
left and right coefficients, and `clip` is the largest of their saturations, 0 when there
is none. -/
def aggregate_is_fold (abi : Abi) (fixp_sin32 : Int → Int) (drv : ftec_drv_data) (now : Int)
    (i : Fin 4) (type : Nat) : Prop :=
  ((timer_aggregate abi fixp_sin32 drv now).parameters i).k1 =
    ∑ k in tick_playing abi fixp_sin32 drv now type,
      (drv.states k).effect.u.condition.left_coeff ∧
  ((timer_aggregate abi fixp_sin32 drv now).parameters i).k2 =
    ∑ k in tick_playing abi fixp_sin32 drv now type,
      (drv.states k).effect.u.condition.right_coeff ∧
  (∀ k, k ∈ tick_playing abi fixp_sin32 drv now type →
    saturation (drv.states k) ≤ ((timer_aggregate abi fixp_sin32 drv now).parameters i).clip) ∧
  (((timer_aggregate abi fixp_sin32 drv now).parameters i).clip = 0 ∨
    ∃ k, k ∈ tick_playing abi fixp_sin32 drv now type ∧
      ((timer_aggregate abi fixp_sin32 drv now).parameters i).clip = saturation (drv.states k))

/-- A Spring effect with id 0, the given center and deadband, saturations `0x4000` and
`0x6000`, coefficients 100 and 200, unbounded and without delay. -/
def offset_spring (center deadband : Int) : ff_effect :=
  { ff_effect.zero with
    type := FF_SPRING,
    u := { ff_effect.zero.u with
           condition := ⟨0x6000, 0x4000, 200, 100, deadband, center⟩ } }

/-! # Theorems -/

/-! ## The counter `effects_used` -/

theorem started_count_update (f : Fin FTECFF_MAX_EFFECTS → ftecff_effect_state)
    (i : Fin FTECFF_MAX_EFFECTS) (v : ftecff_effect_state) :
    started_count (Function.update f i v) + (if (f i).flags.started = true then 1 else 0) =
      started_count f + (if v.flags.started = true then 1 else 0) := by
  unfold started_count
  rw [Finset.card_filter, Finset.card_filter]
  rw [← Finset.add_sum_erase Finset.univ
        (fun j => if (Function.update f i v j).flags.started = true then 1 else 0)
        (Finset.mem_univ i),
      ← Finset.add_sum_erase Finset.univ
        (fun j => if (f j).flags.started = true then 1 else 0) (Finset.mem_univ i)]
  have hrest : ∑ x ∈ Finset.univ.erase i,
        (if (Function.update f i v x).flags.started = true then 1 else 0) =
      ∑ x ∈ Finset.univ.erase i, (if (f x).flags.started = true then 1 else 0) := by
    apply Finset.sum_congr rfl
    intro x hx
    rw [Function.update_noteq (Finset.ne_of_mem_erase hx)]
  rw [hrest]
  simp only [Function.update_same]
  omega

theorem update_state_allset_started (abi : Abi) (fixp_sin32 : Int → Int)
    (state : ftecff_effect_state) :
    (update_state_allset abi fixp_sin32 state).flags.started = state.flags.started := by
  unfold update_state_allset
  simp only []
  split_ifs <;> rfl

theorem update_state_updating_started (abi : Abi) (fixp_sin32 : Int → Int)
    (state : ftecff_effect_state) :
    (update_state_updating abi fixp_sin32 state).flags.started = state.flags.started := by
  unfold update_state_updating
  simp only []
  split_ifs <;> rfl

theorem update_state_slope_started (state : ftecff_effect_state) :
    (update_state_slope state).flags.started = state.flags.started := by
  unfold update_state_slope
  simp only []
  split_ifs <;> rfl

theorem update_state_playing_started (abi : Abi) (state : ftecff_effect_state) (now : Int) :
    (update_state_playing abi state now).flags.started = state.flags.started := by
  unfold update_state_playing
  split_ifs <;> rfl

theorem update_state_time_started (abi : Abi) (state : ftecff_effect_state) (now : Int) :
    (update_state_time abi state now).flags.started = state.flags.started := by
  unfold update_state_time
  simp only []
  split_ifs <;> rfl

theorem update_state_started (abi : Abi) (fixp_sin32 : Int → Int) (state : ftecff_effect_state)
    (now : Int) :
    (ftecff_update_state abi fixp_sin32 state now).flags.started = state.flags.started := by
  unfold ftecff_update_state
  rw [update_state_time_started, update_state_playing_started, update_state_slope_started,
    update_state_updating_started, update_state_allset_started]

theorem timer_run_effect_balance (abi : Abi) (fixp_sin32 : Int → Int) (now : Int)
    (ws : timer_walk_state) (effect_id : Fin FTECFF_MAX_EFFECTS) (state : ftecff_effect_state)
    (h : state.flags.started = true) (h0 : (ws.states effect_id).flags.started = true) :
    (timer_run_effect abi fixp_sin32 now ws effect_id state).effects_used -
        started_count (timer_run_effect abi fixp_sin32 now ws effect_id state).states =
      ws.effects_used - started_count ws.states := by
  have hu := update_state_started abi fixp_sin32 state now
  have hc := started_count_update ws.states effect_id (ftecff_update_state abi fixp_sin32 state now)
  rw [hu, h, h0] at hc
  simp only [if_true] at hc
  unfold timer_run_effect
  simp only []
  split_ifs <;> simp only [] <;> omega

theorem timer_expire_started (abi : Abi) (now : Int) (state : ftecff_effect_state)
    (h : state.flags.started = true) :
    (timer_expire abi now state).1.flags.started = !(timer_expire abi now state).2 := by
  unfold timer_expire
  simp only []
  split_ifs <;> simp [effect_flags.zero, h]

theorem timer_visit_balance (abi : Abi) (fixp_sin32 : Int → Int) (now : Int)
    (ws : timer_walk_state) (effect_id : Fin FTECFF_MAX_EFFECTS) :
    (timer_visit abi fixp_sin32 now ws effect_id).effects_used -
        started_count (timer_visit abi fixp_sin32 now ws effect_id).states =
      ws.effects_used - started_count ws.states := by
  unfold timer_visit
  simp only []
  by_cases hs : (ws.states effect_id).flags.started = true
  · rw [if_pos hs]
    have he := timer_expire_started abi now (ws.states effect_id) hs
    split_ifs with h1
    · have hc := started_count_update ws.states effect_id (timer_expire abi now (ws.states effect_id)).1
      rw [he, h1, hs] at hc
      simp only [Bool.not_true, if_true] at hc
      simp at hc
      simp only []
      omega
    · have hf : (timer_expire abi now (ws.states effect_id)).2 = false := by simpa using h1
      rw [hf] at he
      exact timer_run_effect_balance abi fixp_sin32 now _ effect_id _ (by simpa using he) hs
  · rw [if_neg hs]

theorem timer_walk_balance (abi : Abi) (fixp_sin32 : Int → Int) (now : Int)
    (ids : List (Fin FTECFF_MAX_EFFECTS)) (ws : timer_walk_state) :
    (timer_walk abi fixp_sin32 now ids ws).effects_used -
        started_count (timer_walk abi fixp_sin32 now ids ws).states =
      ws.effects_used - started_count ws.states := by
  induction ids generalizing ws with
  | nil => rfl
  | cons effect_id rest ih =>
    unfold timer_walk
    split_ifs
    · rfl
    · rw [ih, timer_visit_balance]

theorem timer_balance (abi : Abi) (fixp_sin32 : Int → Int) (drv : ftec_drv_data) (now : Int) :
    (ftecff_timer abi fixp_sin32 drv now).1.effects_used -
        started_count (ftecff_timer abi fixp_sin32 drv now).1.states =
      drv.effects_used - started_count drv.states := by
  unfold ftecff_timer timer_aggregate
  simp only []
  rw [timer_walk_balance]

theorem started_count_update_of_eq (f : Fin FTECFF_MAX_EFFECTS → ftecff_effect_state)
    (i : Fin FTECFF_MAX_EFFECTS) (v : ftecff_effect_state)
    (h : v.flags.started = (f i).flags.started) :
    started_count (Function.update f i v) = started_count f := by
  have hc := started_count_update f i v
  rw [h] at hc
  omega

theorem upload_balance (drv : ftec_drv_data) (effect : ff_effect) (now : Int) :
    (ftecff_upload_effect drv effect now).2.effects_used -
        started_count (ftecff_upload_effect drv effect now).2.states =
      drv.effects_used - started_count drv.states := by
  unfold ftecff_upload_effect
  simp only []
  split_ifs with h1 h2 h3
  · rfl
  · rfl
  · simp only []
    rw [started_count_update_of_eq]
    rfl
  · simp only []
    rw [started_count_update_of_eq]
    rfl

theorem play_balance (drv : ftec_drv_data) (effect_id : Fin FTECFF_MAX_EFFECTS)
    (value : Int) (now : Int) :
    (ftecff_play_effect drv effect_id value now).effects_used -
        started_count (ftecff_play_effect drv effect_id value now).states =
      drv.effects_used - started_count drv.states := by
  unfold ftecff_play_effect
  simp only []
  split_ifs with h1 h2 h3
  · simp only []
    rw [started_count_update_of_eq]
    rw [h2]
  · have hc := started_count_update drv.states effect_id
      { drv.states effect_id with
        flags := { (drv.states effect_id).flags with started := true },
        start_at := now, count := to_u32 value }
    simp only [h2, if_true] at hc
    simp at hc
    simp only []
    omega
  · have hc := started_count_update drv.states effect_id
      { drv.states effect_id with flags := effect_flags.zero }
    simp only [h3, if_true, effect_flags.zero] at hc
    simp at hc
    simp only [effect_flags.zero]
    omega
  · rfl

theorem init_balance :
    ftecff_init_slots.1.effects_used - started_count ftecff_init_slots.1.states = 0 := by
  unfold ftecff_init_slots started_count
  simp [ftecff_effect_state.zero, effect_flags.zero]

theorem reachable_effects_used (abi : Abi) (fixp_sin32 : Int → Int)
    (drv : ftec_drv_data) (h : Reachable abi fixp_sin32 drv) :
    drv.effects_used = started_count drv.states := by
  have key : drv.effects_used - started_count drv.states = 0 := by
    induction h with
    | init => exact init_balance
    | upload drv effect now _ _ _ ih => rw [upload_balance]; exact ih
    | play drv effect_id value now _ _ _ ih => rw [play_balance]; exact ih
    | tick drv now _ _ ih => rw [timer_balance]; exact ih
  omega

/-- C1: in every engine state reachable from initialisation by uploads, plays and ticks,
`effects_used` equals the number of table entries whose Started flag is set. -/
theorem effects_used_eq_started_count (abi : Abi) (fixp_sin32 : Int → Int)
    (drv : ftec_drv_data) (h : Reachable abi fixp_sin32 drv) :
    drv.effects_used = started_count drv.states :=
  reachable_effects_used abi fixp_sin32 drv h

/-- Witness of C1: the state after `play(0, 1)` on the initialised engine. -/
theorem effects_used_eq_started_count_witness :
    Reachable Abi.ilp32 (fun _ => 0) (ftecff_play_effect ftecff_init_slots.1 0 1 0) ∧
      (ftecff_play_effect ftecff_init_slots.1 0 1 0).effects_used =
        started_count (ftecff_play_effect ftecff_init_slots.1 0 1 0).states :=
  ⟨Reachable.play _ 0 1 0 Reachable.init (by decide) (by decide),
   effects_used_eq_started_count Abi.ilp32 (fun _ => 0) _
     (Reachable.play _ 0 1 0 Reachable.init (by decide) (by decide))⟩

/-! ## `ftecff_upload_effect` -/

/-- C2: an upload fails, with `-EINVAL`, exactly when the effect is periodic with period 0
or the stored entry is Started and the uploaded type differs from the stored one; it
returns 0 otherwise; and a failed upload leaves the whole engine as it was. -/
theorem upload_effect_error_iff (drv : ftec_drv_data) (effect : ff_effect) (now : Int) :
    ((ftecff_upload_effect drv effect now).1 = -EINVAL ↔
      ((effect.type = FF_PERIODIC ∧ effect.u.periodic.period = 0) ∨
        ((drv.states effect.id).flags.started = true ∧
          effect.type ≠ (drv.states effect.id).effect.type))) ∧
    ((ftecff_upload_effect drv effect now).1 = 0 ↔
      ¬ ((effect.type = FF_PERIODIC ∧ effect.u.periodic.period = 0) ∨
        ((drv.states effect.id).flags.started = true ∧
          effect.type ≠ (drv.states effect.id).effect.type))) ∧
    ((ftecff_upload_effect drv effect now).1 ≠ 0 →
      (ftecff_upload_effect drv effect now).2 = drv) := by
  unfold ftecff_upload_effect
  simp only []
  by_cases h1 : effect.type = FF_PERIODIC ∧ effect.u.periodic.period = 0
  · rw [if_pos h1]
    simp [h1, EINVAL]
  · rw [if_neg h1]
    by_cases h2 : (drv.states effect.id).flags.started = true ∧
        effect.type ≠ (drv.states effect.id).effect.type
    · rw [if_pos h2]
      simp [h2, EINVAL]
    · rw [if_neg h2]
      simp [h1, h2, EINVAL]

/-! ## The slot encoder -/

theorem encode_parameters_b0 (effect_type : Nat) (parameters : ftecff_effect_parameters)
    (cmd : slot_cmd) : (encode_parameters effect_type parameters cmd).b0 = cmd.b0 := by
  unfold encode_parameters
  split_ifs <;> rfl

theorem encode_parameters_b1 (effect_type : Nat) (parameters : ftecff_effect_parameters)
    (cmd : slot_cmd) : (encode_parameters effect_type parameters cmd).b1 = cmd.b1 := by
  unfold encode_parameters
  split_ifs <;> rfl

theorem slot_select_byte (id : Nat) (h : id < 16) :
    ((id <<< 4) ||| 0x1) % 256 = (id <<< 4) ||| 0x1 ∧
      (((id <<< 4) ||| 0x1) % 256) ||| 0x2 = (id <<< 4) ||| 0x3 := by
  interval_cases id <;> decide

theorem update_slot_cmd (slot : ftecff_slot) (parameters : ftecff_effect_parameters) :
    (ftecff_update_slot slot parameters).current_cmd =
      if slot_disabled slot parameters then
        { slot.current_cmd with b0 := (((slot.id <<< 4) ||| 0x1) % 256) ||| 0x2,
                                b2 := 0, b3 := 0, b4 := 0, b5 := 0, b6 := 0 }
      else
        encode_parameters slot.effect_type parameters
          { slot.current_cmd with b0 := ((slot.id <<< 4) ||| 0x1) % 256,
                                  b2 := 0, b3 := 0, b4 := 0, b5 := 0, b6 := 0 } := by
  unfold ftecff_update_slot slot_disabled
  simp only []
  split_ifs <;> rfl

theorem update_slot_id (slot : ftecff_slot) (parameters : ftecff_effect_parameters) :
    (ftecff_update_slot slot parameters).id = slot.id ∧
      (ftecff_update_slot slot parameters).effect_type = slot.effect_type := by
  unfold ftecff_update_slot
  simp only []
  split_ifs <;> exact ⟨rfl, rfl⟩

/-- C4 as stated fails: on the Constant slot as initialisation leaves it, a zero level
gives the disabled encoding with byte 1 equal to `0x08`, not zero. -/
theorem update_slot_disabled_byte1_counterexample :
    slot_disabled (ftecff_init_slots.1.slots 0) ftecff_effect_parameters.zero ∧
      (ftecff_update_slot (ftecff_init_slots.1.slots 0)
        ftecff_effect_parameters.zero).current_cmd.b1 = 0x08 := by
  decide

/-- C4, amended: for a slot id below 16, byte 0 is `(id << 4) | 0x1` when the category has
non-zero effective magnitude; with zero effective magnitude byte 0 is `(id << 4) | 0x3` and
bytes 2 to 6 are zero; byte 1 is left as it was in both cases. -/
theorem update_slot_byte0 (slot : ftecff_slot) (parameters : ftecff_effect_parameters)
    (hid : slot.id < 16) :
    (¬ slot_disabled slot parameters →
      (ftecff_update_slot slot parameters).current_cmd.b0 = (slot.id <<< 4) ||| 0x1) ∧
    (slot_disabled slot parameters →
      (ftecff_update_slot slot parameters).current_cmd.b0 = (slot.id <<< 4) ||| 0x3 ∧
      (ftecff_update_slot slot parameters).current_cmd.b2 = 0 ∧
      (ftecff_update_slot slot parameters).current_cmd.b3 = 0 ∧
      (ftecff_update_slot slot parameters).current_cmd.b4 = 0 ∧
      (ftecff_update_slot slot parameters).current_cmd.b5 = 0 ∧
      (ftecff_update_slot slot parameters).current_cmd.b6 = 0) ∧
    (ftecff_update_slot slot parameters).current_cmd.b1 = slot.current_cmd.b1 := by
  have hb := slot_select_byte slot.id hid
  rw [update_slot_cmd]
  refine ⟨fun hd => ?_, fun hd => ?_, ?_⟩
  · rw [if_neg hd, encode_parameters_b0]
    exact hb.1
  · rw [if_pos hd]
    exact ⟨hb.2, rfl, rfl, rfl, rfl, rfl⟩
  · split_ifs
    · rfl
    · rw [encode_parameters_b1]

/-- Witness of C4, amended: the Constant slot as initialisation leaves it, with a zero
parameter set. -/
theorem update_slot_byte0_witness :
    (ftecff_init_slots.1.slots 0).id < 16 ∧
    (ftecff_update_slot (ftecff_init_slots.1.slots 0)
        ftecff_effect_parameters.zero).current_cmd.b1 =
      (ftecff_init_slots.1.slots 0).current_cmd.b1 :=
  ⟨by decide,
   (update_slot_byte0 (ftecff_init_slots.1.slots 0) ftecff_effect_parameters.zero
      (by decide)).2.2⟩

theorem translate_force_low_byte (x : Int) :
    ((TRANSLATE_FORCE x % 256 : Nat) : Int) = spec_translate_force x := by
  unfold TRANSLATE_FORCE CLAMP_VALUE_S16 spec_translate_force spec_clamp_s16 to_u16
  rw [Nat.shiftRight_eq_div_pow, Int.shiftRight_eq_div_pow]
  norm_num
  split_ifs <;> omega

/-- C5: on the Constant slot with a non-zero aggregate level, byte 2 is
`(clamp_s16(level) + 0x8000) >> 8`; a level of `0x7fff` or more gives `0xff`, a level of
`-0x8000` or less gives `0x00`, and a negative level gives a byte below `0x80`. -/
theorem update_slot_constant_byte2 (slot : ftecff_slot) (parameters : ftecff_effect_parameters)
    (htype : slot.effect_type = FF_CONSTANT) (hlevel : parameters.level ≠ 0) :
    ((ftecff_update_slot slot parameters).current_cmd.b2 : Int) =
        spec_translate_force parameters.level ∧
      (0x7fff ≤ parameters.level → (ftecff_update_slot slot parameters).current_cmd.b2 = 0xff) ∧
      (parameters.level ≤ -0x8000 → (ftecff_update_slot slot parameters).current_cmd.b2 = 0x00) ∧
      (parameters.level < 0 → (ftecff_update_slot slot parameters).current_cmd.b2 < 0x80) := by
  have hd : ¬ slot_disabled slot parameters := by
    unfold slot_disabled
    rintro (⟨_, h⟩ | ⟨h, _⟩)
    · exact hlevel h
    · exact h htype
  have hb : (ftecff_update_slot slot parameters).current_cmd.b2 =
      TRANSLATE_FORCE parameters.level % 256 := by
    rw [update_slot_cmd, if_neg hd, htype]
    unfold encode_parameters
    rw [if_pos rfl]
  have hs := translate_force_low_byte parameters.level
  rw [hb]
  refine ⟨hs, fun h => ?_, fun h => ?_, fun h => ?_⟩
  all_goals
    have hv : spec_translate_force parameters.level =
        (spec_clamp_s16 parameters.level + 0x8000) / 256 := by
      unfold spec_translate_force
      rw [Int.shiftRight_eq_div_pow]
      norm_num
    unfold spec_clamp_s16 at hv
    split_ifs at hv <;> omega

/-- Witness of C5: the initialised Constant slot with level `0x4000`, which encodes to
`0xC0`. -/
theorem update_slot_constant_byte2_witness :
    ((ftecff_update_slot (ftecff_init_slots.1.slots 0)
        { ftecff_effect_parameters.zero with level := 0x4000 }).current_cmd.b2 : Int) =
      spec_translate_force 0x4000 :=
  (update_slot_constant_byte2 (ftecff_init_slots.1.slots 0)
    { ftecff_effect_parameters.zero with level := 0x4000 } (by decide) (by decide)).1

/-- C6 as stated fails: the macro yields `0x17f` at `-1`, above 255, because
`CLAMP_VALUE_S16` casts the clamped value to `unsigned short` before `0x8000` is added. -/
theorem translate_force_exceeds_byte_counterexample :
    TRANSLATE_FORCE (-1) = 0x17f ∧ ¬ (TRANSLATE_FORCE (-1) ≤ 255) := by
  decide

/-- C6, amended: for every `x` the macro value lies in `[0x80, 0x17f]`, above 255 exactly
when `x` is negative; its low byte, which is what the store to `current_cmd[2]` keeps, is
`(clamp_s16(x) + 0x8000) >> 8` and lies in `[0, 255]`; and `TRANSLATE_FORCE(0) = 0x80`. -/
theorem translate_force_range (x : Int) :
    0x80 ≤ TRANSLATE_FORCE x ∧ TRANSLATE_FORCE x ≤ 0x17f ∧
      (255 < TRANSLATE_FORCE x ↔ x < 0) ∧
      ((TRANSLATE_FORCE x % 256 : Nat) : Int) = spec_translate_force x ∧
      TRANSLATE_FORCE x % 256 ≤ 255 ∧
      TRANSLATE_FORCE 0 = 0x80 := by
  refine ⟨?_, ?_, ?_, translate_force_low_byte x, by omega, by decide⟩
  all_goals
    unfold TRANSLATE_FORCE CLAMP_VALUE_S16 to_u16
    rw [Nat.shiftRight_eq_div_pow]
    norm_num
    split_ifs <;> omega

theorem update_slot_fixed (s s1 : ftecff_slot) (parameters : ftecff_effect_parameters)
    (hid : s1.id = s.id) (ht : s1.effect_type = s.effect_type)
    (hc : s1.current_cmd = (ftecff_update_slot s parameters).current_cmd) :
    (ftecff_update_slot s1 parameters).current_cmd = s1.current_cmd := by
  have hdis : slot_disabled s1 parameters ↔ slot_disabled s parameters := by
    unfold slot_disabled
    rw [ht]
  rw [update_slot_cmd, hc, update_slot_cmd, hid, ht]
  by_cases hd : slot_disabled s parameters
  · rw [if_pos (hdis.2 hd), if_pos hd]
  · rw [if_neg (fun h => hd (hdis.1 h)), if_neg hd]
    simp only [encode_parameters_b1]

theorem update_slot_clean (s1 : ftecff_slot) (parameters : ftecff_effect_parameters)
    (hu : s1.is_updated = false)
    (hc : (ftecff_update_slot s1 parameters).current_cmd = s1.current_cmd) :
    (ftecff_update_slot s1 parameters).is_updated = false := by
  unfold ftecff_update_slot at hc ⊢
  simp only [] at hc ⊢
  split_ifs at hc ⊢ with h3 h4 h5
  · exact absurd (congrArg slot_cmd.b0 hc).symm h4
  · exact hu
  · exact absurd hc.symm h5
  · exact hu

/-- C10: re-encoding a slot with the parameters it was just encoded with, after its dirty
flag has been cleared, leaves the command bytes and the cleared dirty flag as they are, and
the slot loop of a tick then sends nothing for that slot. -/
theorem update_slot_idempotent (slot : ftecff_slot) (parameters : ftecff_effect_parameters)
    (i : Fin 4) :
    (ftecff_update_slot { ftecff_update_slot slot parameters with is_updated := false }
        parameters).current_cmd = (ftecff_update_slot slot parameters).current_cmd ∧
      (ftecff_update_slot { ftecff_update_slot slot parameters with is_updated := false }
        parameters).is_updated = false ∧
      (timer_slots (fun _ => parameters) [i]
        (fun _ => { ftecff_update_slot slot parameters with is_updated := false })).2 = [] := by
  have hid := update_slot_id slot parameters
  have hcmd := update_slot_fixed slot
    { ftecff_update_slot slot parameters with is_updated := false } parameters hid.1 hid.2 rfl
  have hflag := update_slot_clean
    { ftecff_update_slot slot parameters with is_updated := false } parameters rfl hcmd
  refine ⟨hcmd, hflag, ?_⟩
  unfold timer_slots
  simp only [hflag]
  rfl

/-! ## Transmission of changed slots -/

theorem slot_cmd_ext (a b : slot_cmd) (h0 : a.b0 = b.b0) (h1 : a.b1 = b.b1) (h2 : a.b2 = b.b2)
    (h3 : a.b3 = b.b3) (h4 : a.b4 = b.b4) (h5 : a.b5 = b.b5) (h6 : a.b6 = b.b6) : a = b := by
  cases a; cases b; simp_all

theorem slot_bytes_of_index (i : Fin 4) :
    ((i.val <<< 4) ||| 0x1) % 256 = (i.val <<< 4) ||| 0x1 ∧
      (((i.val <<< 4) ||| 0x1) % 256) ||| 0x2 = (i.val <<< 4) ||| 0x3 ∧
      (i.val <<< 4) ||| 0x1 ≠ (i.val <<< 4) ||| 0x3 := by
  revert i; decide

theorem update_slot_inv (i : Fin 4) (slot : ftecff_slot) (parameters : ftecff_effect_parameters)
    (h : slot_inv i slot) :
    slot_inv i { ftecff_update_slot slot parameters with is_updated := false } := by
  obtain ⟨hid, _, _⟩ := h
  have hb := slot_bytes_of_index i
  refine ⟨(update_slot_id slot parameters).1.trans hid, rfl, ?_⟩
  show (ftecff_update_slot slot parameters).current_cmd.b0 = _ →
    (ftecff_update_slot slot parameters).current_cmd.b2 = 0 ∧
    (ftecff_update_slot slot parameters).current_cmd.b3 = 0 ∧
    (ftecff_update_slot slot parameters).current_cmd.b4 = 0 ∧
    (ftecff_update_slot slot parameters).current_cmd.b5 = 0 ∧
    (ftecff_update_slot slot parameters).current_cmd.b6 = 0
  rw [update_slot_cmd, hid]
  split_ifs
  · intro _
    exact ⟨rfl, rfl, rfl, rfl, rfl⟩
  · rw [encode_parameters_b0]
    intro h0
    exact absurd (hb.1.symm.trans h0) hb.2.2

theorem update_slot_dirty_iff (i : Fin 4) (slot : ftecff_slot)
    (parameters : ftecff_effect_parameters) (h : slot_inv i slot) :
    (ftecff_update_slot slot parameters).is_updated = true ↔
      (ftecff_update_slot slot parameters).current_cmd ≠ slot.current_cmd := by
  obtain ⟨hid, hu, hz⟩ := h
  have hb := slot_bytes_of_index i
  unfold ftecff_update_slot
  simp only []
  split_ifs with h1 h2 h3
  · simp only [true_iff]
    intro he
    exact h2 (congrArg slot_cmd.b0 he).symm
  · simp only [hu, Bool.false_eq_true, false_iff, not_not]
    have h0 : slot.current_cmd.b0 = (i.val <<< 4) ||| 0x3 := by
      have h2' := not_not.1 h2
      rw [h2', hid]
      exact hb.2.1
    obtain ⟨z2, z3, z4, z5, z6⟩ := hz h0
    have h2' := not_not.1 h2
    exact slot_cmd_ext _ _ h2'.symm rfl z2.symm z3.symm z4.symm z5.symm z6.symm
  · simp only [true_iff]
    exact fun he => h3 he.symm
  · simp only [hu, Bool.false_eq_true, false_iff, not_not]
    exact (not_not.1 h3).symm

theorem timer_slots_spec (parameters : Fin 4 → ftecff_effect_parameters) (l : List (Fin 4))
    (hl : l.Nodup) (slots : Fin 4 → ftecff_slot) :
    (∀ i, i ∈ l → (timer_slots parameters l slots).1 i =
        { ftecff_update_slot (slots i) (parameters i) with is_updated := false }) ∧
      (∀ i, i ∉ l → (timer_slots parameters l slots).1 i = slots i) ∧
      (∀ i c, (i, c) ∈ (timer_slots parameters l slots).2 ↔
        (i ∈ l ∧ (ftecff_update_slot (slots i) (parameters i)).is_updated = true ∧
          c = (ftecff_update_slot (slots i) (parameters i)).current_cmd)) := by
  induction l generalizing slots with
  | nil =>
    refine ⟨fun i hi => absurd hi (List.not_mem_nil i), fun i _ => rfl, fun i c => ?_⟩
    simp [timer_slots]
  | cons j rest ih =>
    have hj : j ∉ rest := (List.nodup_cons.1 hl).1
    have hrest : rest.Nodup := (List.nodup_cons.1 hl).2
    by_cases hd : (ftecff_update_slot (slots j) (parameters j)).is_updated = true
    · obtain ⟨ih1, ih2, ih3⟩ := ih hrest
        (Function.update slots j
          { ftecff_update_slot (slots j) (parameters j) with is_updated := false })
      have hts : timer_slots parameters (j :: rest) slots =
          ((timer_slots parameters rest (Function.update slots j
              { ftecff_update_slot (slots j) (parameters j) with is_updated := false })).1,
            (j, (ftecff_update_slot (slots j) (parameters j)).current_cmd) ::
            (timer_slots parameters rest (Function.update slots j
              { ftecff_update_slot (slots j) (parameters j) with is_updated := false })).2) := by
        rw [timer_slots]
        simp only [hd, if_true]
      rw [hts]
      refine ⟨fun i hi => ?_, fun i hi => ?_, fun i c => ?_⟩
      · by_cases hij : i = j
        · subst hij
          rw [ih2 i hj, Function.update_same]
        · have hi' : i ∈ rest := (List.mem_cons.1 hi).resolve_left hij
          rw [ih1 i hi', Function.update_noteq hij]
      · have hij : i ≠ j := fun h => hi (h ▸ List.mem_cons_self _ _)
        have hi' : i ∉ rest := fun h => hi (List.mem_cons_of_mem _ h)
        rw [ih2 i hi', Function.update_noteq hij]
      · rw [List.mem_cons, ih3 i c]
        by_cases hij : i = j
        · subst hij
          rw [Function.update_same]
          constructor
          · rintro (h | ⟨h, _, _⟩)
            · exact ⟨List.mem_cons_self _ _, hd, (Prod.mk.inj h).2⟩
            · exact absurd h hj
          · rintro ⟨_, _, h⟩
            exact Or.inl (by rw [h])
        · rw [Function.update_noteq hij]
          constructor
          · rintro (h | ⟨h, h2, h3⟩)
            · exact absurd (Prod.mk.inj h).1 hij
            · exact ⟨List.mem_cons_of_mem _ h, h2, h3⟩
          · rintro ⟨h, h2, h3⟩
            exact Or.inr ⟨(List.mem_cons.1 h).resolve_left hij, h2, h3⟩
    · have hd' : (ftecff_update_slot (slots j) (parameters j)).is_updated = false := by
        simpa using hd
      obtain ⟨ih1, ih2, ih3⟩ := ih hrest
        (Function.update slots j (ftecff_update_slot (slots j) (parameters j)))
      have hts : timer_slots parameters (j :: rest) slots =
          timer_slots parameters rest
            (Function.update slots j (ftecff_update_slot (slots j) (parameters j))) := by
        rw [timer_slots]
        simp only [hd', Bool.false_eq_true, if_false]
      have hsame : ({ ftecff_update_slot (slots j) (parameters j) with is_updated := false } :
          ftecff_slot) = ftecff_update_slot (slots j) (parameters j) := by
        generalize ftecff_update_slot (slots j) (parameters j) = s at hd' ⊢
        cases s
        simp_all
      rw [hts]
      refine ⟨fun i hi => ?_, fun i hi => ?_, fun i c => ?_⟩
      · by_cases hij : i = j
        · subst hij
          rw [ih2 i hj, Function.update_same, hsame]
        · have hi' : i ∈ rest := (List.mem_cons.1 hi).resolve_left hij
          rw [ih1 i hi', Function.update_noteq hij]
      · have hij : i ≠ j := fun h => hi (h ▸ List.mem_cons_self _ _)
        have hi' : i ∉ rest := fun h => hi (List.mem_cons_of_mem _ h)
        rw [ih2 i hi', Function.update_noteq hij]
      · rw [ih3 i c]
        by_cases hij : i = j
        · subst hij
          constructor
          · rintro ⟨h, _, _⟩
            exact absurd h hj
          · rintro ⟨_, h, _⟩
            exact absurd h hd
        · rw [Function.update_noteq hij]
          constructor
          · rintro ⟨h, h2, h3⟩
            exact ⟨List.mem_cons_of_mem _ h, h2, h3⟩
          · rintro ⟨h, h2, h3⟩
            exact ⟨(List.mem_cons.1 h).resolve_left hij, h2, h3⟩

theorem timer_slots_result (abi : Abi) (fixp_sin32 : Int → Int) (drv : ftec_drv_data)
    (now : Int) (i : Fin 4) :
    (ftecff_timer abi fixp_sin32 drv now).1.slots i =
        { ftecff_update_slot (drv.slots i)
            (timer_scale abi (timer_aggregate abi fixp_sin32 drv now).parameters i) with
          is_updated := false } ∧
      ∀ c, (i, c) ∈ (ftecff_timer abi fixp_sin32 drv now).2 ↔
        ((ftecff_update_slot (drv.slots i)
            (timer_scale abi (timer_aggregate abi fixp_sin32 drv now).parameters i)).is_updated
            = true ∧
          c = (ftecff_update_slot (drv.slots i)
            (timer_scale abi (timer_aggregate abi fixp_sin32 drv now).parameters i)).current_cmd) := by
  obtain ⟨h1, _, h3⟩ := timer_slots_spec
    (timer_scale abi (timer_aggregate abi fixp_sin32 drv now).parameters) (List.finRange 4)
    (List.nodup_finRange 4) drv.slots
  refine ⟨h1 i (List.mem_finRange i), fun c => ?_⟩
  have := h3 i c
  simp only [List.mem_finRange, true_and] at this
  exact this

theorem reachable_slot_inv (abi : Abi) (fixp_sin32 : Int → Int) (drv : ftec_drv_data)
    (h : Reachable abi fixp_sin32 drv) (i : Fin 4) : slot_inv i (drv.slots i) := by
  induction h with
  | init => revert i; decide
  | upload drv effect now _ _ _ ih =>
    have hs : (ftecff_upload_effect drv effect now).2.slots = drv.slots := by
      unfold ftecff_upload_effect
      simp only []
      split_ifs <;> rfl
    rw [hs]; exact ih
  | play drv effect_id value now _ _ _ ih =>
    have hs : (ftecff_play_effect drv effect_id value now).slots = drv.slots := by
      unfold ftecff_play_effect
      simp only []
      split_ifs <;> rfl
    rw [hs]; exact ih
  | tick drv now _ _ ih =>
    rw [(timer_slots_result abi fixp_sin32 drv now i).1]
    exact update_slot_inv i _ _ ih

/-! ## Envelope shaping -/

/-- C8, the code at the failing input: a Constant effect of level -1000 with a 5 ms attack
from level 0 and direction gain `0x7fff` yields 0, 52230, 52030 at `time_playing` 0, 1, 2,
with a 32-bit and with a 64-bit `long` alike: the output rises and then falls inside the
attack, where the interpolation from 0 to -1000 would give 0, -200, -400.  The same
values are the Constant aggregate of the ticks at 0, 1 and 2 ms after the effect was
uploaded and played on the initialised engine. -/
theorem calculate_constant_attack_not_monotonic :
    (attack_example 0).env.attack_length = 5 ∧
    ftecff_calculate_constant Abi.ilp32 (attack_example 0) = 0 ∧
    ftecff_calculate_constant Abi.ilp32 (attack_example 1) = 52230 ∧
    ftecff_calculate_constant Abi.ilp32 (attack_example 2) = 52030 ∧
    ftecff_calculate_constant Abi.lp64 (attack_example 0) = 0 ∧
    ftecff_calculate_constant Abi.lp64 (attack_example 1) = 52230 ∧
    ftecff_calculate_constant Abi.lp64 (attack_example 2) = 52030 ∧
    ((timer_aggregate Abi.ilp32 fixp_sin32_peak attack_engine 0).parameters 0).level = 0 ∧
    ((timer_aggregate Abi.ilp32 fixp_sin32_peak attack_engine 1).parameters 0).level = 52230 ∧
    ((timer_aggregate Abi.ilp32 fixp_sin32_peak
      (ftecff_timer Abi.ilp32 fixp_sin32_peak attack_engine 1).1 2).parameters 0).level = 52030 ∧
    ((timer_aggregate Abi.lp64 fixp_sin32_peak attack_engine 0).parameters 0).level = 0 ∧
    ((timer_aggregate Abi.lp64 fixp_sin32_peak attack_engine 1).parameters 0).level = 52230 ∧
    ((timer_aggregate Abi.lp64 fixp_sin32_peak
      (ftecff_timer Abi.lp64 fixp_sin32_peak attack_engine 1).1 2).parameters 0).level = 52030 := by
  decide

/-- The part of C8 that the code keeps: at `time_playing == attack_length`, outside the
fade, the shaped level is the nominal level, so the result is
`direction_gain * level / 0x7fff`. -/
theorem calculate_constant_at_attack_end (abi : Abi) (state : ftecff_effect_state)
    (htp : state.time_playing = state.env.attack_length)
    (hfade : state.effect.replay.length = 0 ∨
      to_long abi (state.time_playing - state.effect.replay.length + state.env.fade_length) ≤ 0) :
    ftecff_calculate_constant abi state =
      Int.tdiv (to_s32 (state.direction_gain * state.effect.u.constant.level)) 0x7fff := by
  unfold ftecff_calculate_constant constant_shaped_level
  simp only []
  rw [if_neg (by omega)]
  rcases hfade with h | h
  · rw [if_neg (by simpa using h)]
  · split_ifs <;> first | rfl | omega

/-- C9 as stated fails: with level (or magnitude) 100 and envelope fade level 200, the
shaped magnitude at `time_playing == length` is 200, above the unfaded 100. -/
theorem shaped_at_length_exceeds_counterexample :
    fade_example_constant.time_playing = fade_example_constant.effect.replay.length ∧
    constant_shaped_level Abi.ilp32 fade_example_constant = 200 ∧
    constant_shaped_level Abi.lp64 fade_example_constant = 200 ∧
    fade_example_constant.effect.u.constant.level = 100 ∧
    fade_example_periodic.time_playing = fade_example_periodic.effect.replay.length ∧
    periodic_shaped_magnitude Abi.ilp32 fade_example_periodic = 200 ∧
    periodic_shaped_magnitude Abi.lp64 fade_example_periodic = 200 ∧
    fade_example_periodic.effect.u.periodic.magnitude = 100 := by
  decide

theorem to_long_of_small (abi : Abi) (x : Int) (h1 : -2147483648 ≤ x) (h2 : x < 2147483648) :
    to_long abi x = x := by
  unfold to_long
  cases abi <;> simp only [Abi.long_half, Abi.ulong_modulus] <;> omega

theorem to_s32_of_small (x : Int) (h1 : -2147483648 ≤ x) (h2 : x < 2147483648) :
    to_s32 x = x := by
  unfold to_s32
  omega

theorem fade_end_value (abi : Abi) (level fade_length fade_level : Int)
    (hlevel : is_s16 level) (hfl : is_u16 fade_length) (hpos : 0 < fade_length)
    (hlv : 0 ≤ fade_level) (hle : fade_level ≤ |level|) :
    to_s32 (to_long abi (level - Int.tdiv
        (to_long abi ((level - (if level < 0 then -1 else 1) * fade_level) *
          to_long abi fade_length)) fade_length)) =
      (if level < 0 then -1 else 1) * fade_level := by
  unfold is_s16 at hlevel
  unfold is_u16 at hfl
  have habs : |level| = if level < 0 then -level else level := by
    split_ifs with h
    · exact abs_of_neg h
    · exact abs_of_nonneg (by omega)
  rw [habs] at hle
  rw [to_long_of_small abi fade_length (by omega) (by omega)]
  have hd : -32768 ≤ level - (if level < 0 then -1 else 1) * fade_level ∧
      level - (if level < 0 then -1 else 1) * fade_level ≤ 32768 := by
    split_ifs at hle ⊢ <;> constructor <;> omega
  have hprod : -2147483648 ≤ (level - (if level < 0 then -1 else 1) * fade_level) * fade_length ∧
      (level - (if level < 0 then -1 else 1) * fade_level) * fade_length < 2147483648 := by
    constructor <;> nlinarith [hd.1, hd.2, hfl.1, hfl.2]
  rw [to_long_of_small abi _ hprod.1 hprod.2, Int.mul_tdiv_cancel _ (by omega)]
  have hres : level - (level - (if level < 0 then -1 else 1) * fade_level) =
      (if level < 0 then -1 else 1) * fade_level := by ring
  rw [hres]
  have hr : -2147483648 ≤ (if level < 0 then -1 else 1) * fade_level ∧
      (if level < 0 then -1 else 1) * fade_level < 2147483648 := by
    split_ifs at hle ⊢ <;> constructor <;> omega
  rw [to_long_of_small abi _ hr.1 hr.2, to_s32_of_small _ hr.1 hr.2]

/-- C9, amended: for a bounded Constant or Periodic effect whose attack is over at
`time_playing == length` and whose envelope fade level does not exceed the unfaded
magnitude, the shaped level (resp. magnitude) at `time_playing == length` is
`sign(level) * fade_level` when `fade_length > 0` and the unfaded value when
`fade_length == 0`; either way its absolute value does not exceed the unfaded one. -/
theorem shaped_at_length (abi : Abi) (state : ftecff_effect_state) (level shaped : Int)
    (hsel : (level = state.effect.u.constant.level ∧
        shaped = constant_shaped_level abi state) ∨
      (level = state.effect.u.periodic.magnitude ∧
        shaped = periodic_shaped_magnitude abi state))
    (hlevel : is_s16 level) (henv : state.env.wf)
    (hlen : 0 < state.effect.replay.length)
    (htp : state.time_playing = state.effect.replay.length)
    (hattack : state.env.attack_length ≤ state.effect.replay.length)
    (hfade : state.env.fade_level ≤ |level|) :
    (0 < state.env.fade_length →
        shaped = (if level < 0 then -1 else 1) * state.env.fade_level) ∧
      (state.env.fade_length = 0 → shaped = level) ∧
      |shaped| ≤ |level| := by
  obtain ⟨_, _, hfl, hlv⟩ := henv
  have hfl' := hfl
  unfold is_u16 at hfl'
  have ht : to_long abi (state.time_playing - state.effect.replay.length +
      state.env.fade_length) = state.env.fade_length := by
    rw [htp, to_long_of_small abi _ (by omega) (by omega)]
    ring
  have hval : shaped = if 0 < state.env.fade_length then
      (if level < 0 then -1 else 1) * state.env.fade_level else level := by
    have hkey := fade_end_value abi level state.env.fade_length state.env.fade_level hlevel hfl
    rw [to_long_of_small abi state.env.fade_length (by omega) (by omega)] at hkey
    rcases hsel with ⟨hl, hs⟩ | ⟨hl, hs⟩
    · rw [hs]
      unfold constant_shaped_level
      simp only []
      rw [if_neg (by omega), if_pos (by omega), ht, ← hl]
      split_ifs with h1 h2
      · simpa [h2] using hkey h1 hlv.1 hfade
      · simpa [h2] using hkey h1 hlv.1 hfade
      · rfl
    · rw [hs]
      unfold periodic_shaped_magnitude
      simp only []
      rw [if_neg (by omega), if_pos (by omega), ht, ← hl]
      split_ifs with h1 h2
      · simpa [h2] using hkey h1 hlv.1 hfade
      · simpa [h2] using hkey h1 hlv.1 hfade
      · rfl
  refine ⟨fun h => by rw [hval, if_pos h], fun h => by rw [hval, if_neg (by omega)], ?_⟩
  rw [hval]
  unfold is_u16 at hlv
  split_ifs with h1 h2
  · rw [show (-1 : Int) * state.env.fade_level = -state.env.fade_level by ring, abs_neg,
      abs_of_nonneg hlv.1]
    exact hfade
  · rw [one_mul, abs_of_nonneg hlv.1]
    exact hfade
  · exact le_refl _

/-- Witness of C9, amended: a Constant effect of level 100 and length 1000 ms fading over
10 ms to the envelope level 50. -/
theorem shaped_at_length_witness :
    |constant_shaped_level Abi.ilp32
        { fade_example_constant with
          effect := { fade_example_constant.effect with
            u := { fade_example_constant.effect.u with constant := ⟨100, ⟨0, 0, 10, 50⟩⟩ } } }| ≤
      |(100 : Int)| :=
  (shaped_at_length Abi.ilp32
    { fade_example_constant with
      effect := { fade_example_constant.effect with
        u := { fade_example_constant.effect.u with constant := ⟨100, ⟨0, 0, 10, 50⟩⟩ } } }
    100 _ (Or.inl ⟨rfl, rfl⟩) (by decide) (by decide) (by decide) (by decide) (by decide)
    (by decide)).2.2

/-! ## The walk of a tick, entry by entry -/

theorem started_count_eq_started_in (states : Fin FTECFF_MAX_EFFECTS → ftecff_effect_state) :
    started_count states = started_in (List.finRange FTECFF_MAX_EFFECTS) states := by
  unfold started_count started_in
  rw [List.countP_eq_length_filter, ← List.toFinset_finRange, ← List.toFinset_filter,
    List.toFinset_card_of_nodup ((List.nodup_finRange _).filter _)]

theorem timer_expire_stopped (abi : Abi) (now : Int) (e : ftecff_effect_state)
    (h : (timer_expire abi now e).2 = true) :
    (timer_expire abi now e).1.flags = effect_flags.zero := by
  unfold timer_expire at h ⊢
  simp only [] at h ⊢
  split_ifs at h ⊢
  all_goals simp_all

theorem timer_visit_not_started (abi : Abi) (fixp_sin32 : Int → Int) (now : Int)
    (ws : timer_walk_state) (id : Fin FTECFF_MAX_EFFECTS)
    (h : (ws.states id).flags.started = false) :
    timer_visit abi fixp_sin32 now ws id = ws := by
  unfold timer_visit
  simp only [h, Bool.false_eq_true, if_false]

theorem timer_visit_started (abi : Abi) (fixp_sin32 : Int → Int) (now : Int)
    (ws : timer_walk_state) (id : Fin FTECFF_MAX_EFFECTS)
    (h : (ws.states id).flags.started = true) :
    (timer_visit abi fixp_sin32 now ws id).states =
        Function.update ws.states id (timer_entry abi fixp_sin32 now (ws.states id)) ∧
      (timer_visit abi fixp_sin32 now ws id).count = ws.count - 1 ∧
      (timer_visit abi fixp_sin32 now ws id).parameters =
        (if (timer_entry abi fixp_sin32 now (ws.states id)).flags.playing = true then
          timer_accumulate abi fixp_sin32 (timer_entry abi fixp_sin32 now (ws.states id))
            ws.parameters
        else ws.parameters) := by
  unfold timer_visit timer_entry
  simp only [h, if_true]
  by_cases hr : (timer_expire abi now (ws.states id)).2 = true
  · have hz := timer_expire_stopped abi now (ws.states id) hr
    simp only [hr, if_true, hz, effect_flags.zero, Bool.false_eq_true, if_false, and_self]
  · simp only [hr, if_false, Bool.false_eq_true]
    unfold timer_run_effect
    simp only []
    split_ifs <;> exact ⟨rfl, rfl, rfl⟩

theorem started_in_update_of_not_mem (l : List (Fin FTECFF_MAX_EFFECTS))
    (states : Fin FTECFF_MAX_EFFECTS → ftecff_effect_state) (id : Fin FTECFF_MAX_EFFECTS)
    (v : ftecff_effect_state) (h : id ∉ l) :
    started_in l (Function.update states id v) = started_in l states := by
  unfold started_in
  apply List.countP_congr
  intro k hk
  have hne : k ≠ id := fun he => h (he ▸ hk)
  rw [Function.update_noteq hne]

theorem timer_walk_full_cons (abi : Abi) (fixp_sin32 : Int → Int) (now : Int)
    (id : Fin FTECFF_MAX_EFFECTS) (rest : List (Fin FTECFF_MAX_EFFECTS))
    (ws : timer_walk_state) :
    timer_walk_full abi fixp_sin32 now (id :: rest) ws =
      timer_walk_full abi fixp_sin32 now rest (timer_visit abi fixp_sin32 now ws id) := by
  unfold timer_walk_full
  rw [List.foldl_cons]

theorem timer_walk_full_none_started (abi : Abi) (fixp_sin32 : Int → Int) (now : Int)
    (l : List (Fin FTECFF_MAX_EFFECTS)) (ws : timer_walk_state)
    (h : ∀ k, k ∈ l → (ws.states k).flags.started = false) :
    timer_walk_full abi fixp_sin32 now l ws = ws := by
  induction l with
  | nil => rfl
  | cons id rest ih =>
    rw [timer_walk_full_cons,
      timer_visit_not_started abi fixp_sin32 now ws id (h id (List.mem_cons_self _ _))]
    exact ih (fun k hk => h k (List.mem_cons_of_mem _ hk))

/-- With `count` equal to the number of Started entries still ahead, the walk with the
early exit visits what the walk over every id visits. -/
theorem timer_walk_eq_full (abi : Abi) (fixp_sin32 : Int → Int) (now : Int)
    (l : List (Fin FTECFF_MAX_EFFECTS)) (hl : l.Nodup) (ws : timer_walk_state)
    (hc : ws.count = started_in l ws.states) :
    timer_walk abi fixp_sin32 now l ws = timer_walk_full abi fixp_sin32 now l ws := by
  induction l generalizing ws with
  | nil => rfl
  | cons id rest ih =>
    have hid : id ∉ rest := (List.nodup_cons.1 hl).1
    have hrest : rest.Nodup := (List.nodup_cons.1 hl).2
    unfold timer_walk
    by_cases h0 : ws.count = 0
    · rw [if_pos h0]
      have hz : started_in (id :: rest) ws.states = 0 := by omega
      unfold started_in at hz
      rw [List.countP_eq_zero] at hz
      rw [timer_walk_full_none_started abi fixp_sin32 now (id :: rest) ws
        (fun k hk => by simpa using hz k hk)]
    · rw [if_neg h0, timer_walk_full_cons]
      apply ih hrest
      by_cases hs : (ws.states id).flags.started = true
      · obtain ⟨h1, h2, _⟩ := timer_visit_started abi fixp_sin32 now ws id hs
        rw [h1, h2, started_in_update_of_not_mem _ _ _ _ hid, hc]
        unfold started_in
        simp only [List.countP_cons, hs, if_true]
        push_cast
        ring
      · have hs' : (ws.states id).flags.started = false := by simpa using hs
        rw [timer_visit_not_started abi fixp_sin32 now ws id hs', hc]
        unfold started_in
        simp only [List.countP_cons, hs', Bool.false_eq_true, if_false, add_zero]

theorem timer_walk_full_states (abi : Abi) (fixp_sin32 : Int → Int) (now : Int)
    (l : List (Fin FTECFF_MAX_EFFECTS)) (hl : l.Nodup) (ws : timer_walk_state)
    (k : Fin FTECFF_MAX_EFFECTS) :
    (timer_walk_full abi fixp_sin32 now l ws).states k =
      if k ∈ l ∧ (ws.states k).flags.started = true then
        timer_entry abi fixp_sin32 now (ws.states k)
      else ws.states k := by
  induction l generalizing ws with
  | nil => simp [timer_walk_full]
  | cons id rest ih =>
    have hid : id ∉ rest := (List.nodup_cons.1 hl).1
    have hrest : rest.Nodup := (List.nodup_cons.1 hl).2
    rw [timer_walk_full_cons, ih hrest]
    by_cases hs : (ws.states id).flags.started = true
    · obtain ⟨h1, _, _⟩ := timer_visit_started abi fixp_sin32 now ws id hs
      rw [h1]
      by_cases hk : k = id
      · subst hk
        rw [Function.update_same, if_neg (fun h => hid h.1),
          if_pos ⟨List.mem_cons_self _ _, hs⟩]
      · rw [Function.update_noteq hk]
        simp only [List.mem_cons, hk, false_or]
    · have hs' : (ws.states id).flags.started = false := by simpa using hs
      rw [timer_visit_not_started abi fixp_sin32 now ws id hs']
      by_cases hk : k = id
      · subst hk
        rw [if_neg (fun h => hid h.1), if_neg (fun h => hs h.2)]
      · simp only [List.mem_cons, hk, false_or]

theorem timer_accumulate_level (abi : Abi) (fixp_sin32 : Int → Int) (e : ftecff_effect_state)
    (parameters : Fin 4 → ftecff_effect_parameters) :
    (timer_accumulate abi fixp_sin32 e parameters 0).level =
      (parameters 0).level +
        (if e.effect.type = FF_CONSTANT then ftecff_calculate_constant abi e
         else if e.effect.type = FF_PERIODIC then ftecff_calculate_periodic abi fixp_sin32 e
         else 0) := by
  unfold timer_accumulate
  by_cases h1 : e.effect.type = FF_CONSTANT
  · simp only [if_pos h1, Function.update_same]
  · by_cases h2 : e.effect.type = FF_SPRING
    · have h3 : ¬ e.effect.type = FF_PERIODIC := by rw [h2]; decide
      simp only [if_neg h1, if_pos h2, if_neg h3]
      rw [Function.update_noteq (show (0 : Fin 4) ≠ 1 by decide)]
      omega
    · by_cases h4 : e.effect.type = FF_DAMPER
      · have h3 : ¬ e.effect.type = FF_PERIODIC := by rw [h4]; decide
        simp only [if_neg h1, if_neg h2, if_pos h4, if_neg h3]
        rw [Function.update_noteq (show (0 : Fin 4) ≠ 2 by decide)]
        omega
      · by_cases h3 : e.effect.type = FF_PERIODIC
        · simp only [if_neg h1, if_neg h2, if_neg h4, if_pos h3, Function.update_same]
        · simp only [if_neg h1, if_neg h2, if_neg h4, if_neg h3]
          omega

theorem timer_visit_level (abi : Abi) (fixp_sin32 : Int → Int) (now : Int)
    (ws : timer_walk_state) (id : Fin FTECFF_MAX_EFFECTS) :
    ((timer_visit abi fixp_sin32 now ws id).parameters 0).level =
      (ws.parameters 0).level + level_contribution abi fixp_sin32 now (ws.states id) := by
  unfold level_contribution
  by_cases hs : (ws.states id).flags.started = true
  · obtain ⟨_, _, h3⟩ := timer_visit_started abi fixp_sin32 now ws id hs
    rw [h3]
    by_cases hp : (timer_entry abi fixp_sin32 now (ws.states id)).flags.playing = true
    · rw [if_pos hp, if_pos ⟨hs, hp⟩, timer_accumulate_level]
    · rw [if_neg hp, if_neg (fun h => hp h.2)]
      omega
  · have hs' : (ws.states id).flags.started = false := by simpa using hs
    rw [timer_visit_not_started abi fixp_sin32 now ws id hs', if_neg (fun h => hs h.1)]
    omega

theorem timer_walk_full_level (abi : Abi) (fixp_sin32 : Int → Int) (now : Int)
    (l : List (Fin FTECFF_MAX_EFFECTS)) (hl : l.Nodup) (ws : timer_walk_state) :
    ((timer_walk_full abi fixp_sin32 now l ws).parameters 0).level =
      (ws.parameters 0).level +
        (l.map (fun k => level_contribution abi fixp_sin32 now (ws.states k))).sum := by
  induction l generalizing ws with
  | nil => simp [timer_walk_full]
  | cons id rest ih =>
    have hid : id ∉ rest := (List.nodup_cons.1 hl).1
    have hrest : rest.Nodup := (List.nodup_cons.1 hl).2
    rw [timer_walk_full_cons, ih hrest, timer_visit_level, List.map_cons, List.sum_cons]
    have hmap : rest.map (fun k => level_contribution abi fixp_sin32 now
          ((timer_visit abi fixp_sin32 now ws id).states k)) =
        rest.map (fun k => level_contribution abi fixp_sin32 now (ws.states k)) := by
      apply List.map_congr_left
      intro k hk
      have hne : k ≠ id := fun he => hid (he ▸ hk)
      by_cases hs : (ws.states id).flags.started = true
      · rw [(timer_visit_started abi fixp_sin32 now ws id hs).1, Function.update_noteq hne]
      · have hs' : (ws.states id).flags.started = false := by simpa using hs
        rw [timer_visit_not_started abi fixp_sin32 now ws id hs']
    rw [hmap]
    ring

/-! ## `ftecff_update_state`, block by block -/

theorem update_state_allset_spec (abi : Abi) (fixp_sin32 : Int → Int)
    (s : ftecff_effect_state) :
    (update_state_allset abi fixp_sin32 s).effect = s.effect ∧
      (update_state_allset abi fixp_sin32 s).flags = { s.flags with allset := true } ∧
      (s.flags.allset = true → update_state_allset abi fixp_sin32 s = s) ∧
      (s.flags.allset = false →
        (update_state_allset abi fixp_sin32 s).direction_gain =
          direction_gain_of fixp_sin32 s.effect) ∧
      (s.flags.allset = false → s.effect.replay.length ≠ 0 →
        (update_state_allset abi fixp_sin32 s).stop_at =
          to_ulong abi ((update_state_allset abi fixp_sin32 s).play_at +
            s.effect.replay.length)) := by
  unfold update_state_allset
  simp only []
  by_cases h : s.flags.allset = true
  · rw [if_pos h]
    refine ⟨rfl, ?_, fun _ => rfl, fun h2 => ?_, fun h2 => ?_⟩
    · cases hs : s.flags
      simp_all
    · rw [h] at h2
      exact absurd h2 (by decide)
    · rw [h] at h2
      exact absurd h2 (by decide)
  · rw [if_neg h]
    refine ⟨?_, ?_, fun h2 => absurd h2 h, fun _ => ?_, fun _ hl => ?_⟩
    · split_ifs <;> rfl
    · split_ifs <;> rfl
    · split_ifs <;> rfl
    · rw [if_pos hl]

theorem update_state_updating_spec (abi : Abi) (fixp_sin32 : Int → Int)
    (s : ftecff_effect_state) :
    (update_state_updating abi fixp_sin32 s).effect = s.effect ∧
      (s.flags.updating = false → update_state_updating abi fixp_sin32 s = s) ∧
      (s.flags.updating = true →
        (update_state_updating abi fixp_sin32 s).flags =
          { s.flags with updating := false, playing := false } ∧
        (update_state_updating abi fixp_sin32 s).direction_gain =
          direction_gain_of fixp_sin32 s.effect ∧
        (s.effect.replay.length ≠ 0 →
          (update_state_updating abi fixp_sin32 s).stop_at =
            to_ulong abi ((update_state_updating abi fixp_sin32 s).play_at +
              s.effect.replay.length))) := by
  unfold update_state_updating
  simp only []
  by_cases h : s.flags.updating = true
  · rw [if_pos h]
    refine ⟨?_, fun h2 => ?_, fun _ => ⟨?_, ?_, fun hl => ?_⟩⟩
    · split_ifs <;> rfl
    · rw [h] at h2
      exact absurd h2 (by decide)
    · split_ifs <;> rfl
    · split_ifs <;> rfl
    · rw [if_pos hl]
      split_ifs <;> rfl
  · rw [if_neg h]
    exact ⟨rfl, fun _ => rfl, fun h2 => absurd h2 h⟩

theorem update_state_slope_spec (s : ftecff_effect_state) :
    (update_state_slope s).effect = s.effect ∧ (update_state_slope s).flags = s.flags ∧
      (update_state_slope s).play_at = s.play_at ∧
      (update_state_slope s).stop_at = s.stop_at ∧
      (update_state_slope s).envelope = ftecff_effect_envelope s.effect ∧
      (update_state_slope s).direction_gain = s.direction_gain := by
  unfold update_state_slope
  simp only []
  split_ifs <;> exact ⟨rfl, rfl, rfl, rfl, rfl, rfl⟩

theorem update_state_playing_spec (abi : Abi) (s : ftecff_effect_state) (now : Int) :
    (update_state_playing abi s now).effect = s.effect ∧
      (update_state_playing abi s now).play_at = s.play_at ∧
      (update_state_playing abi s now).stop_at = s.stop_at ∧
      (update_state_playing abi s now).envelope = s.envelope ∧
      (update_state_playing abi s now).direction_gain = s.direction_gain ∧
      (update_state_playing abi s now).flags.started = s.flags.started ∧
      (update_state_playing abi s now).flags.allset = s.flags.allset ∧
      (update_state_playing abi s now).flags.updating = s.flags.updating ∧
      ((update_state_playing abi s now).flags.playing = true →
        s.flags.playing = true ∨
          (0 ≤ to_long abi (now - s.play_at) ∧
            (s.effect.replay.length = 0 ∨ to_long abi (now - s.stop_at) < 0))) := by
  unfold update_state_playing time_after_eq time_before
  split_ifs with h
  · refine ⟨rfl, rfl, rfl, rfl, rfl, rfl, rfl, rfl, fun _ => Or.inr ?_⟩
    simp only [Bool.and_eq_true, Bool.or_eq_true, decide_eq_true_eq] at h
    exact ⟨h.1.2, h.2⟩
  · exact ⟨rfl, rfl, rfl, rfl, rfl, rfl, rfl, rfl, fun h2 => Or.inl h2⟩

theorem update_state_time_spec (abi : Abi) (s : ftecff_effect_state) (now : Int) :
    (update_state_time abi s now).effect = s.effect ∧
      (update_state_time abi s now).flags = s.flags ∧
      (update_state_time abi s now).play_at = s.play_at ∧
      (update_state_time abi s now).stop_at = s.stop_at ∧
      (update_state_time abi s now).envelope = s.envelope ∧
      (update_state_time abi s now).direction_gain = s.direction_gain ∧
      (s.flags.playing = true →
        (update_state_time abi s now).time_playing = to_ulong abi (now - s.play_at)) := by
  unfold update_state_time time_diff
  simp only []
  split_ifs with h1 h2
  · exact ⟨rfl, rfl, rfl, rfl, rfl, rfl, fun _ => rfl⟩
  · exact ⟨rfl, rfl, rfl, rfl, rfl, rfl, fun _ => rfl⟩
  · exact ⟨rfl, rfl, rfl, rfl, rfl, rfl, fun h => absurd h h1⟩

theorem update_state_spec (abi : Abi) (fixp_sin32 : Int → Int) (s : ftecff_effect_state)
    (now : Int)
    (hstop : s.flags.allset = true → s.flags.updating = false → s.effect.replay.length ≠ 0 →
      s.stop_at = to_ulong abi (s.play_at + s.effect.replay.length))
    (hgain : s.flags.allset = true → s.flags.updating = false →
      s.direction_gain = direction_gain_of fixp_sin32 s.effect)
    (hin : s.flags.playing = true → s.flags.updating = false →
      s.effect.replay.length ≠ 0 →
      s.flags.allset = true ∧ to_long abi (now - s.stop_at) < 0) :
    (ftecff_update_state abi fixp_sin32 s now).effect = s.effect ∧
      (ftecff_update_state abi fixp_sin32 s now).flags.started = s.flags.started ∧
      (ftecff_update_state abi fixp_sin32 s now).flags.allset = true ∧
      (ftecff_update_state abi fixp_sin32 s now).flags.updating = false ∧
      (ftecff_update_state abi fixp_sin32 s now).envelope = ftecff_effect_envelope s.effect ∧
      (ftecff_update_state abi fixp_sin32 s now).direction_gain =
        direction_gain_of fixp_sin32 s.effect ∧
      (s.effect.replay.length ≠ 0 →
        (ftecff_update_state abi fixp_sin32 s now).stop_at =
          to_ulong abi ((ftecff_update_state abi fixp_sin32 s now).play_at +
            s.effect.replay.length)) ∧
      ((ftecff_update_state abi fixp_sin32 s now).flags.playing = true →
        s.effect.replay.length ≠ 0 →
        to_long abi (now - (ftecff_update_state abi fixp_sin32 s now).stop_at) < 0) ∧
      ((ftecff_update_state abi fixp_sin32 s now).flags.playing = true →
        (ftecff_update_state abi fixp_sin32 s now).time_playing =
          to_ulong abi (now - (ftecff_update_state abi fixp_sin32 s now).play_at)) := by
  unfold ftecff_update_state
  obtain ⟨a1, a2, a3, a5, a4⟩ := update_state_allset_spec abi fixp_sin32 s
  obtain ⟨u1, u2, u3⟩ := update_state_updating_spec abi fixp_sin32
    (update_state_allset abi fixp_sin32 s)
  obtain ⟨l1, l2, l3, l4, l5, l6⟩ := update_state_slope_spec
    (update_state_updating abi fixp_sin32 (update_state_allset abi fixp_sin32 s))
  obtain ⟨p1, p2, p3, p4, p9, p5, p6, p7, p8⟩ := update_state_playing_spec abi
    (update_state_slope
      (update_state_updating abi fixp_sin32 (update_state_allset abi fixp_sin32 s))) now
  obtain ⟨t1, t2, t3, t4, t5, t6, t7⟩ := update_state_time_spec abi
    (update_state_playing abi (update_state_slope
      (update_state_updating abi fixp_sin32 (update_state_allset abi fixp_sin32 s))) now) now
  generalize update_state_allset abi fixp_sin32 s = s1 at *
  generalize update_state_updating abi fixp_sin32 s1 = s2 at *
  generalize update_state_slope s2 = s3 at *
  generalize update_state_playing abi s3 now = s4 at *
  generalize update_state_time abi s4 now = e at *
  have he : e.effect = s.effect := by rw [t1, p1, l1, u1, a1]
  have h1u : s1.flags.updating = s.flags.updating := by rw [a2]
  have h1s : s1.flags.started = s.flags.started := by rw [a2]
  have h1a : s1.flags.allset = true := by rw [a2]
  have h1p : s1.flags.playing = s.flags.playing := by rw [a2]
  rw [a1] at u3
  -- the state after the first two blocks
  have h2 : s2.flags.started = s.flags.started ∧ s2.flags.allset = true ∧
      s2.flags.updating = false ∧
      s2.direction_gain = direction_gain_of fixp_sin32 s.effect ∧
      (s.effect.replay.length ≠ 0 →
        s2.stop_at = to_ulong abi (s2.play_at + s.effect.replay.length)) ∧
      (s2.flags.playing = true → s.effect.replay.length ≠ 0 →
        to_long abi (now - s2.stop_at) < 0) := by
    cases hu : s.flags.updating
    · have e2 : s2 = s1 := u2 (h1u.trans hu)
      rw [e2]
      refine ⟨h1s, h1a, h1u.trans hu, ?_, fun hl => ?_, fun hp hl => ?_⟩
      · cases ha : s.flags.allset
        · exact a5 ha
        · rw [a3 ha]
          exact hgain ha hu
      · cases ha : s.flags.allset
        · exact a4 ha hl
        · rw [a3 ha]
          exact hstop ha hu hl
      · have hp' : s.flags.playing = true := h1p ▸ hp
        obtain ⟨ha, hlt⟩ := hin hp' hu hl
        rw [a3 ha]
        exact hlt
    · obtain ⟨f2, g2, st2⟩ := u3 (h1u.trans hu)
      rw [f2]
      refine ⟨h1s, h1a, rfl, g2, st2, fun hp _ => ?_⟩
      exact absurd hp Bool.false_ne_true
  obtain ⟨h2s, h2a, h2u, h2g, h2stop, h2p⟩ := h2
  have h4stop : s4.stop_at = s2.stop_at := by rw [p3, l4]
  have h4play : s4.play_at = s2.play_at := by rw [p2, l3]
  refine ⟨he, ?_, ?_, ?_, ?_, ?_, fun hl => ?_, fun hp hl => ?_, fun hp => ?_⟩
  · rw [t2, p5, l2, h2s]
  · rw [t2, p6, l2, h2a]
  · rw [t2, p7, l2, h2u]
  · rw [t5, p4, l5, u1, a1]
  · rw [t6, p9, l6, h2g]
  · rw [t4, t3, h4stop, h4play]
    exact h2stop hl
  · rw [t4, h4stop]
    rw [t2] at hp
    rcases p8 hp with h3 | ⟨_, h3⟩
    · rw [l2] at h3
      exact h2p h3 hl
    · rw [l1, u1, a1, l4] at h3
      rcases h3 with h3 | h3
      · exact absurd h3 hl
      · exact h3
  · rw [t2] at hp
    rw [t7 hp, t3]

/-! ## Entries between two operations -/

theorem timer_expire_spec (abi : Abi) (now : Int) (e : ftecff_effect_state) :
    (timer_expire abi now e).1.effect = e.effect ∧
      ((timer_expire abi now e).2 = false →
        ((timer_expire abi now e).1 = e ∧
          ¬ (e.flags.allset = true ∧ e.effect.replay.length ≠ 0 ∧
            0 ≤ to_long abi (now - e.stop_at))) ∨
        (timer_expire abi now e).1.flags = ⟨true, false, false, false⟩) := by
  unfold timer_expire time_after_eq
  simp only []
  split_ifs with h1 h2
  · exact ⟨rfl, fun h => absurd h (by decide)⟩
  · exact ⟨rfl, fun _ => Or.inr rfl⟩
  · refine ⟨rfl, fun _ => Or.inl ⟨rfl, fun h3 => h1 ?_⟩⟩
    simp only [Bool.and_eq_true, decide_eq_true_eq]
    exact ⟨⟨h3.1, h3.2.1⟩, h3.2.2⟩

theorem timer_entry_spec (abi : Abi) (fixp_sin32 : Int → Int) (now : Int)
    (e : ftecff_effect_state) (hinv : entry_inv abi fixp_sin32 e)
    (hs : e.flags.started = true) :
    entry_inv abi fixp_sin32 (timer_entry abi fixp_sin32 now e) ∧
      (timer_entry abi fixp_sin32 now e).effect = e.effect ∧
      ((timer_entry abi fixp_sin32 now e).flags.playing = true →
        (timer_entry abi fixp_sin32 now e).envelope = ftecff_effect_envelope e.effect ∧
        (timer_entry abi fixp_sin32 now e).direction_gain =
          direction_gain_of fixp_sin32 e.effect ∧
        (timer_entry abi fixp_sin32 now e).time_playing =
          to_ulong abi (now - (timer_entry abi fixp_sin32 now e).play_at) ∧
        (e.effect.replay.length ≠ 0 →
          to_long abi (now - (timer_entry abi fixp_sin32 now e).stop_at) < 0 ∧
          (timer_entry abi fixp_sin32 now e).stop_at =
            to_ulong abi ((timer_entry abi fixp_sin32 now e).play_at +
              e.effect.replay.length))) := by
  obtain ⟨k1, k2, k3, k4, k5⟩ := hinv
  obtain ⟨x1, x2⟩ := timer_expire_spec abi now e
  have x3 := timer_expire_started abi now e hs
  unfold timer_entry
  by_cases hr : (timer_expire abi now e).2 = true
  · rw [if_pos hr]
    have hz := timer_expire_stopped abi now e hr
    refine ⟨⟨x1 ▸ k1, fun _ => hz, fun h => ?_, fun h => ?_, fun h => ?_⟩, x1, fun h => ?_⟩
    all_goals
      rw [hz] at h
      exact absurd h (by decide)
  · have hr' : (timer_expire abi now e).2 = false := by simpa using hr
    rw [if_neg hr]
    rw [hr'] at x3
    have hspec : ∀ s : ftecff_effect_state, s.effect = e.effect → s.flags.started = true →
        (s.flags.allset = true → s.flags.updating = false → s.effect.replay.length ≠ 0 →
          s.stop_at = to_ulong abi (s.play_at + s.effect.replay.length)) →
        (s.flags.allset = true → s.flags.updating = false →
          s.direction_gain = direction_gain_of fixp_sin32 s.effect) →
        (s.flags.playing = true → s.flags.updating = false → s.effect.replay.length ≠ 0 →
          s.flags.allset = true ∧ to_long abi (now - s.stop_at) < 0) →
        entry_inv abi fixp_sin32 (ftecff_update_state abi fixp_sin32 s now) ∧
          (ftecff_update_state abi fixp_sin32 s now).effect = e.effect ∧
          ((ftecff_update_state abi fixp_sin32 s now).flags.playing = true →
            (ftecff_update_state abi fixp_sin32 s now).envelope =
              ftecff_effect_envelope e.effect ∧
            (ftecff_update_state abi fixp_sin32 s now).direction_gain =
              direction_gain_of fixp_sin32 e.effect ∧
            (ftecff_update_state abi fixp_sin32 s now).time_playing =
              to_ulong abi (now - (ftecff_update_state abi fixp_sin32 s now).play_at) ∧
            (e.effect.replay.length ≠ 0 →
              to_long abi (now - (ftecff_update_state abi fixp_sin32 s now).stop_at) < 0 ∧
              (ftecff_update_state abi fixp_sin32 s now).stop_at =
                to_ulong abi ((ftecff_update_state abi fixp_sin32 s now).play_at +
                  e.effect.replay.length))) := by
      intro s hse hss h1 h2 h3
      obtain ⟨y1, y2, y3, y4, y5, y6, y7, y8, y9⟩ :=
        update_state_spec abi fixp_sin32 s now h1 h2 h3
      rw [hse] at y5 y6 y7 y8
      refine ⟨⟨?_, fun h => ?_, fun _ => y3, fun _ _ => ?_, fun _ _ hl => ?_⟩, y1.trans hse,
        fun hp => ⟨y5, y6, y9 hp, fun hl => ⟨y8 hp hl, y7 hl⟩⟩⟩
      · rw [y1, hse]; exact k1
      · rw [y2, hss] at h
        exact absurd h (by decide)
      · rw [y1, hse]; exact y6
      · rw [y1, hse] at hl ⊢
        exact y7 hl
    rcases x2 hr' with ⟨hsame, hnot⟩ | hflags
    · rw [hsame]
      refine hspec e rfl hs k5 k4 (fun hp hu hl => ?_)
      have ha := k3 hp
      refine ⟨ha, ?_⟩
      by_contra hge
      exact hnot ⟨ha, hl, by omega⟩
    · refine hspec _ x1 (by rw [hflags]) (fun h => ?_) (fun h => ?_) (fun h => ?_)
      all_goals
        rw [hflags] at h
        exact absurd h (by decide)

theorem timer_walk_preserves (abi : Abi) (fixp_sin32 : Int → Int) (now : Int)
    (P : ftecff_effect_state → Prop)
    (hP : ∀ e, P e → e.flags.started = true → P (timer_entry abi fixp_sin32 now e))
    (l : List (Fin FTECFF_MAX_EFFECTS)) (ws : timer_walk_state)
    (h : ∀ k, P (ws.states k)) (k : Fin FTECFF_MAX_EFFECTS) :
    P ((timer_walk abi fixp_sin32 now l ws).states k) := by
  induction l generalizing ws with
  | nil => exact h k
  | cons id rest ih =>
    unfold timer_walk
    split_ifs
    · exact h k
    · apply ih
      intro k2
      by_cases hs : (ws.states id).flags.started = true
      · rw [(timer_visit_started abi fixp_sin32 now ws id hs).1]
        by_cases hk : k2 = id
        · subst hk
          rw [Function.update_same]
          exact hP _ (h k2) hs
        · rw [Function.update_noteq hk]
          exact h k2
      · have hs' : (ws.states id).flags.started = false := by simpa using hs
        rw [timer_visit_not_started abi fixp_sin32 now ws id hs']
        exact h k2

theorem reachable_entry_inv (abi : Abi) (fixp_sin32 : Int → Int) (drv : ftec_drv_data)
    (h : Reachable abi fixp_sin32 drv) (k : Fin FTECFF_MAX_EFFECTS) :
    entry_inv abi fixp_sin32 (drv.states k) := by
  induction h generalizing k with
  | init =>
    show entry_inv abi fixp_sin32 ftecff_effect_state.zero
    refine ⟨by decide, fun _ => rfl, fun h => ?_, fun h => ?_, fun h => ?_⟩
    all_goals exact absurd h (by decide)
  | upload drv effect now _ hwf _ ih =>
    unfold ftecff_upload_effect
    simp only []
    split_ifs with h1 h2 h3
    · exact ih k
    · exact ih k
    · by_cases hk : k = effect.id
      · subst hk
        simp only [Function.update_same]
        obtain ⟨_, _, k3, _, _⟩ := ih effect.id
        refine ⟨hwf, fun h => ?_, k3, fun _ h => ?_, fun _ h => ?_⟩
        · simp [h3] at h
        · simp at h
        · simp at h
      · simp only [Function.update_noteq hk]
        exact ih k
    · by_cases hk : k = effect.id
      · subst hk
        simp only [Function.update_same]
        obtain ⟨_, k2, _, _, _⟩ := ih effect.id
        have hz := k2 (by simpa using h3)
        refine ⟨hwf, fun _ => hz, fun h => ?_, fun h => ?_, fun h => ?_⟩
        all_goals simp [hz, effect_flags.zero] at h
      · simp only [Function.update_noteq hk]
        exact ih k
  | play drv effect_id value now _ _ _ ih =>
    unfold ftecff_play_effect
    simp only []
    obtain ⟨k1, k2, _, _, _⟩ := ih effect_id
    split_ifs with h1 h2 h3
    · by_cases hk : k = effect_id
      · subst hk
        simp only [Function.update_same]
        refine ⟨k1, fun h => ?_, fun h => ?_, fun h => ?_, fun h => ?_⟩
        all_goals simp [effect_flags.zero] at h
      · simp only [Function.update_noteq hk]
        exact ih k
    · by_cases hk : k = effect_id
      · subst hk
        simp only [Function.update_same]
        have hz := k2 (by simpa using h2)
        refine ⟨k1, fun h => ?_, fun h => ?_, fun h => ?_, fun h => ?_⟩
        all_goals simp [hz, effect_flags.zero] at h
      · simp only [Function.update_noteq hk]
        exact ih k
    · by_cases hk : k = effect_id
      · subst hk
        simp only [Function.update_same]
        refine ⟨k1, fun _ => rfl, fun h => ?_, fun h => ?_, fun h => ?_⟩
        all_goals simp [effect_flags.zero] at h
      · simp only [Function.update_noteq hk]
        exact ih k
    · exact ih k
  | tick drv now _ _ ih =>
    unfold ftecff_timer timer_aggregate
    exact timer_walk_preserves abi fixp_sin32 now (entry_inv abi fixp_sin32)
      (fun e he hs => (timer_entry_spec abi fixp_sin32 now e he hs).1) _ _ ih k

/-! ## Superposition of Constant effects -/

/-- C7 as stated fails: two Constant effects of level 1000 without envelope, one with
direction `0x4000` (90 degrees) and one with direction `0xC000` (270 degrees), are both
Playing after the tick, and the Constant aggregate level before the gain stage is 0, not
1000 + 1000: `fixp_sin16` is evaluated at 90 for both, and negated for the second. -/
theorem timer_two_constants_counterexample :
    ((ftecff_timer Abi.ilp32 fixp_sin32_peak (two_constants_example 0x4000 0xC000) 0).1.states 0
        ).flags.playing = true ∧
    ((ftecff_timer Abi.ilp32 fixp_sin32_peak (two_constants_example 0x4000 0xC000) 0).1.states 1
        ).flags.playing = true ∧
    ((timer_aggregate Abi.ilp32 fixp_sin32_peak (two_constants_example 0x4000 0xC000) 0
        ).parameters 0).level = 0 ∧
    ((timer_aggregate Abi.lp64 fixp_sin32_peak (two_constants_example 0x4000 0xC000) 0
        ).parameters 0).level = 0 := by
  decide

theorem timer_aggregate_eq_full (abi : Abi) (fixp_sin32 : Int → Int) (drv : ftec_drv_data)
    (now : Int) (hr : Reachable abi fixp_sin32 drv) :
    timer_aggregate abi fixp_sin32 drv now =
      timer_walk_full abi fixp_sin32 now (List.finRange FTECFF_MAX_EFFECTS)
        { states := drv.states, effects_used := drv.effects_used, count := drv.effects_used,
          parameters := fun _ => ftecff_effect_parameters.zero } := by
  unfold timer_aggregate
  apply timer_walk_eq_full abi fixp_sin32 now _ (List.nodup_finRange _)
  simp only []
  rw [reachable_effects_used abi fixp_sin32 drv hr, started_count_eq_started_in]

/-- The Constant aggregate before the gain stage is the sum of the values of the Constant
and Periodic entries that the tick leaves Playing. -/
theorem timer_aggregate_level (abi : Abi) (fixp_sin32 : Int → Int) (drv : ftec_drv_data)
    (now : Int) (hr : Reachable abi fixp_sin32 drv) :
    ((timer_aggregate abi fixp_sin32 drv now).parameters 0).level =
      ∑ k : Fin FTECFF_MAX_EFFECTS, level_contribution abi fixp_sin32 now (drv.states k) := by
  rw [timer_aggregate_eq_full abi fixp_sin32 drv now hr,
    timer_walk_full_level abi fixp_sin32 now _ (List.nodup_finRange _), Fin.sum_univ_def]
  simp only [ftecff_effect_parameters.zero, zero_add]

theorem timer_states_eq_entry (abi : Abi) (fixp_sin32 : Int → Int) (drv : ftec_drv_data)
    (now : Int) (hr : Reachable abi fixp_sin32 drv) (k : Fin FTECFF_MAX_EFFECTS) :
    (ftecff_timer abi fixp_sin32 drv now).1.states k =
      if (drv.states k).flags.started = true then
        timer_entry abi fixp_sin32 now (drv.states k)
      else drv.states k := by
  have h := timer_walk_full_states abi fixp_sin32 now (List.finRange FTECFF_MAX_EFFECTS)
    (List.nodup_finRange _)
    { states := drv.states, effects_used := drv.effects_used, count := drv.effects_used,
      parameters := fun _ => ftecff_effect_parameters.zero } k
  rw [← timer_aggregate_eq_full abi fixp_sin32 drv now hr] at h
  simp only [List.mem_finRange, true_and] at h
  exact h

theorem to_long_time_playing (abi : Abi) (now play_at length : Int) :
    to_long abi (to_ulong abi (now - play_at) - length + 0) =
      to_long abi (now - to_ulong abi (play_at + length)) := by
  unfold to_long to_ulong
  cases abi <;> simp only [Abi.long_half, Abi.ulong_modulus] <;> omega

theorem to_ulong_nonneg (abi : Abi) (x : Int) : 0 ≤ to_ulong abi x := by
  unfold to_ulong
  cases abi <;> simp only [Abi.ulong_modulus] <;> omega

/-- The value of a Constant effect without envelope that a tick leaves Playing. -/
theorem constant_value_no_envelope (abi : Abi) (fixp_sin32 : Int → Int) (now : Int)
    (e : ftecff_effect_state) (hinv : entry_inv abi fixp_sin32 e)
    (hs : e.flags.started = true) (ht : e.effect.type = FF_CONSTANT)
    (henv : e.effect.u.constant.envelope.attack_length = 0 ∧
      e.effect.u.constant.envelope.fade_length = 0)
    (hp : (timer_entry abi fixp_sin32 now e).flags.playing = true) :
    level_contribution abi fixp_sin32 now e =
      Int.tdiv (to_s32 (direction_gain_of fixp_sin32 e.effect * e.effect.u.constant.level))
        0x7fff := by
  obtain ⟨_, heff, hplay⟩ := timer_entry_spec abi fixp_sin32 now e hinv hs
  obtain ⟨he, hg, htp, hstop⟩ := hplay hp
  unfold level_contribution
  rw [if_pos ⟨hs, hp⟩, heff, if_pos ht]
  have henv2 : (timer_entry abi fixp_sin32 now e).env = e.effect.u.constant.envelope := by
    unfold ftecff_effect_state.env
    rw [he]
    unfold ftecff_effect_envelope
    rw [if_pos ht, heff]
  have hshape : constant_shaped_level abi (timer_entry abi fixp_sin32 now e) =
      e.effect.u.constant.level := by
    unfold constant_shaped_level
    simp only []
    rw [henv2, henv.1, henv.2, heff]
    have h0 := to_ulong_nonneg abi (now - (timer_entry abi fixp_sin32 now e).play_at)
    rw [if_neg (by rw [htp]; omega)]
    by_cases hl : e.effect.replay.length = 0
    · rw [if_neg (by simpa using hl)]
    · rw [if_pos hl]
      obtain ⟨hlt, hst⟩ := hstop hl
      rw [htp, to_long_time_playing, ← hst, if_neg (by omega)]
  unfold ftecff_calculate_constant
  rw [hshape, hg]

theorem timer_two_constants_sum (abi : Abi) (fixp_sin32 : Int → Int) (drv : ftec_drv_data)
    (now : Int) (i j : Fin FTECFF_MAX_EFFECTS)
    (hr : Reachable abi fixp_sin32 drv) (hij : i ≠ j)
    (honly : ∀ k, (drv.states k).flags.started = true ↔ (k = i ∨ k = j))
    (hti : (drv.states i).effect.type = FF_CONSTANT)
    (htj : (drv.states j).effect.type = FF_CONSTANT)
    (hei : (drv.states i).effect.u.constant.envelope.attack_length = 0 ∧
      (drv.states i).effect.u.constant.envelope.fade_length = 0)
    (hej : (drv.states j).effect.u.constant.envelope.attack_length = 0 ∧
      (drv.states j).effect.u.constant.envelope.fade_length = 0)
    (hpi : ((ftecff_timer abi fixp_sin32 drv now).1.states i).flags.playing = true)
    (hpj : ((ftecff_timer abi fixp_sin32 drv now).1.states j).flags.playing = true) :
    ((timer_aggregate abi fixp_sin32 drv now).parameters 0).level =
        Int.tdiv (to_s32 (direction_gain_of fixp_sin32 (drv.states i).effect *
          (drv.states i).effect.u.constant.level)) 0x7fff +
        Int.tdiv (to_s32 (direction_gain_of fixp_sin32 (drv.states j).effect *
          (drv.states j).effect.u.constant.level)) 0x7fff ∧
      (direction_gain_of fixp_sin32 (drv.states i).effect = 0x7fff →
        direction_gain_of fixp_sin32 (drv.states j).effect = 0x7fff →
        ((timer_aggregate abi fixp_sin32 drv now).parameters 0).level =
          (drv.states i).effect.u.constant.level + (drv.states j).effect.u.constant.level) := by
  have hsi : (drv.states i).flags.started = true := (honly i).2 (Or.inl rfl)
  have hsj : (drv.states j).flags.started = true := (honly j).2 (Or.inr rfl)
  have hinvi := reachable_entry_inv abi fixp_sin32 drv hr i
  have hinvj := reachable_entry_inv abi fixp_sin32 drv hr j
  rw [timer_states_eq_entry abi fixp_sin32 drv now hr i, if_pos hsi] at hpi
  rw [timer_states_eq_entry abi fixp_sin32 drv now hr j, if_pos hsj] at hpj
  have hsum : ((timer_aggregate abi fixp_sin32 drv now).parameters 0).level =
      level_contribution abi fixp_sin32 now (drv.states i) +
        level_contribution abi fixp_sin32 now (drv.states j) := by
    rw [timer_aggregate_level abi fixp_sin32 drv now hr]
    apply Finset.sum_eq_add i j hij
    · intro c _ hc
      have hnot : ¬ (drv.states c).flags.started = true := fun h =>
        ((honly c).1 h).elim hc.1 hc.2
      unfold level_contribution
      rw [if_neg (fun h => hnot h.1)]
    · intro h; exact absurd (Finset.mem_univ i) h
    · intro h; exact absurd (Finset.mem_univ j) h
  have hci := constant_value_no_envelope abi fixp_sin32 now (drv.states i) hinvi hsi hti hei hpi
  have hcj := constant_value_no_envelope abi fixp_sin32 now (drv.states j) hinvj hsj htj hej hpj
  rw [hci, hcj] at hsum
  refine ⟨hsum, fun hgi hgj => ?_⟩
  rw [hsum, hgi, hgj]
  obtain ⟨_, _, _, _, hla, _⟩ := hinvi.1
  obtain ⟨_, _, _, _, hlb, _⟩ := hinvj.1
  unfold is_s16 at hla hlb
  rw [to_s32_of_small _ (by omega) (by omega), to_s32_of_small _ (by omega) (by omega),
    Int.mul_tdiv_cancel_left _ (by norm_num), Int.mul_tdiv_cancel_left _ (by norm_num)]

/-- C7, amended: in a reachable engine whose only Started entries are two Constant effects
without envelope, of levels `a` and `b`, both Playing after the tick, the Constant aggregate
level before the gain stage is `g_a * a / 0x7fff + g_b * b / 0x7fff` in C `int` arithmetic,
where `g` is the direction gain `fixp_sin16(direction * 360 / 0x10000)` of each effect; it
is `a + b` when both direction gains are `0x7fff`. -/
theorem timer_two_constants (abi : Abi) (fixp_sin32 : Int → Int) (drv : ftec_drv_data)
    (now : Int) (i j : Fin FTECFF_MAX_EFFECTS)
    (hr : Reachable abi fixp_sin32 drv) (hij : i ≠ j)
    (honly : ∀ k, (drv.states k).flags.started = true ↔ (k = i ∨ k = j))
    (hti : (drv.states i).effect.type = FF_CONSTANT)
    (htj : (drv.states j).effect.type = FF_CONSTANT)
    (hei : (drv.states i).effect.u.constant.envelope.attack_length = 0 ∧
      (drv.states i).effect.u.constant.envelope.fade_length = 0)
    (hej : (drv.states j).effect.u.constant.envelope.attack_length = 0 ∧
      (drv.states j).effect.u.constant.envelope.fade_length = 0)
    (hpi : ((ftecff_timer abi fixp_sin32 drv now).1.states i).flags.playing = true)
    (hpj : ((ftecff_timer abi fixp_sin32 drv now).1.states j).flags.playing = true) :
    ((timer_aggregate abi fixp_sin32 drv now).parameters 0).level =
        Int.tdiv (to_s32 (direction_gain_of fixp_sin32 (drv.states i).effect *
          (drv.states i).effect.u.constant.level)) 0x7fff +
        Int.tdiv (to_s32 (direction_gain_of fixp_sin32 (drv.states j).effect *
          (drv.states j).effect.u.constant.level)) 0x7fff ∧
      (direction_gain_of fixp_sin32 (drv.states i).effect = 0x7fff →
        direction_gain_of fixp_sin32 (drv.states j).effect = 0x7fff →
        ((timer_aggregate abi fixp_sin32 drv now).parameters 0).level =
          (drv.states i).effect.u.constant.level + (drv.states j).effect.u.constant.level) :=
  timer_two_constants_sum abi fixp_sin32 drv now i j hr hij honly hti htj hei hej hpi hpj

theorem two_constants_example_reachable (abi : Abi) (fixp_sin32 : Int → Int)
    (direction_a direction_b : Int) (ha : (constant_effect 0 1000 direction_a).wf)
    (hb : (constant_effect 1 1000 direction_b).wf) :
    Reachable abi fixp_sin32 (two_constants_example direction_a direction_b) := by
  have hnow : is_ulong abi 0 := by
    unfold is_ulong
    cases abi <;> simp [Abi.ulong_modulus]
  unfold two_constants_example
  exact Reachable.play _ 1 1 0
    (Reachable.play _ 0 1 0
      (Reachable.upload _ _ 0 (Reachable.upload _ _ 0 Reachable.init ha hnow) hb hnow)
      (by decide) hnow)
    (by decide) hnow

/-- Witness of C7, amended: two Constant effects of level 1000 with direction `0x4000`,
uploaded and played on the initialised engine; the aggregate is 2000. -/
theorem timer_two_constants_witness :
    ((timer_aggregate Abi.lp64 fixp_sin32_peak (two_constants_example 0x4000 0x4000) 0
        ).parameters 0).level =
      ((two_constants_example 0x4000 0x4000).states 0).effect.u.constant.level +
        ((two_constants_example 0x4000 0x4000).states 1).effect.u.constant.level :=
  (timer_two_constants Abi.lp64 fixp_sin32_peak (two_constants_example 0x4000 0x4000) 0 0 1
    (two_constants_example_reachable Abi.lp64 fixp_sin32_peak 0x4000 0x4000 (by decide)
      (by decide))
    (by decide) (by decide) (by decide) (by decide) (by decide) (by decide) (by decide)
    (by decide)).2 (by decide) (by decide)

/-- For every sine function, the direction gains of the directions `0x4000` and `0xC000`
are opposite: the driver's `fixp_sin16` evaluates `fixp_sin32(90)` for both. -/
theorem direction_gain_opposite (fixp_sin32 : Int → Int) (id_a id_b : Fin FTECFF_MAX_EFFECTS)
    (a b : Int) :
    direction_gain_of fixp_sin32 (constant_effect id_b b 0xC000) =
      -direction_gain_of fixp_sin32 (constant_effect id_a a 0x4000) := by
  unfold direction_gain_of fixp_sin16 constant_effect
  simp only []
  have h1 : Int.tdiv (0xC000 * 360) 0x10000 = 270 := by decide
  have h2 : Int.tdiv (0x4000 * 360) 0x10000 = 90 := by decide
  rw [h1, h2]
  have h3 : Int.tmod 270 360 = 270 := by decide
  have h4 : Int.tmod 90 360 = 90 := by decide
  rw [h3, h4]
  rw [if_pos (by decide), if_neg (by decide)]
  have h5 : to_s32 (270 - 180) = to_s32 90 := by decide
  rw [h5]

/-! ## The command last sent for a slot -/

theorem reachable_of_sent (abi : Abi) (fixp_sin32 : Int → Int) (drv : ftec_drv_data)
    (last : Fin 4 → slot_cmd) (h : ReachableSent abi fixp_sin32 drv last) :
    Reachable abi fixp_sin32 drv := by
  induction h with
  | init => exact Reachable.init
  | upload drv last effect now _ hw hn ih => exact Reachable.upload drv effect now ih hw hn
  | play drv last effect_id value now _ hv hn ih =>
    exact Reachable.play drv effect_id value now ih hv hn
  | tick drv last now _ hn ih => exact Reachable.tick drv now ih hn

theorem sent_of_reachable (abi : Abi) (fixp_sin32 : Int → Int) (drv : ftec_drv_data)
    (h : Reachable abi fixp_sin32 drv) : ∃ last, ReachableSent abi fixp_sin32 drv last := by
  induction h with
  | init => exact ⟨_, ReachableSent.init⟩
  | upload drv effect now _ hw hn ih =>
    obtain ⟨last, hl⟩ := ih
    exact ⟨last, ReachableSent.upload drv last effect now hl hw hn⟩
  | play drv effect_id value now _ hv hn ih =>
    obtain ⟨last, hl⟩ := ih
    exact ⟨last, ReachableSent.play drv last effect_id value now hl hv hn⟩
  | tick drv now _ hn ih =>
    obtain ⟨last, hl⟩ := ih
    exact ⟨_, ReachableSent.tick drv last now hl hn⟩

theorem timer_slots_last_sent (parameters : Fin 4 → ftecff_effect_parameters)
    (l : List (Fin 4)) (hl : l.Nodup) (slots : Fin 4 → ftecff_slot)
    (last : Fin 4 → slot_cmd) (i : Fin 4) :
    last_sent last (timer_slots parameters l slots).2 i =
      if i ∈ l ∧ (ftecff_update_slot (slots i) (parameters i)).is_updated = true then
        (ftecff_update_slot (slots i) (parameters i)).current_cmd
      else last i := by
  induction l generalizing slots last with
  | nil => simp [timer_slots, last_sent]
  | cons j rest ih =>
    have hj : j ∉ rest := (List.nodup_cons.1 hl).1
    have hrest : rest.Nodup := (List.nodup_cons.1 hl).2
    by_cases hd : (ftecff_update_slot (slots j) (parameters j)).is_updated = true
    · have hts : (timer_slots parameters (j :: rest) slots).2 =
          (j, (ftecff_update_slot (slots j) (parameters j)).current_cmd) ::
            (timer_slots parameters rest (Function.update slots j
              { ftecff_update_slot (slots j) (parameters j) with is_updated := false })).2 := by
        rw [timer_slots]
        simp only [hd, if_true]
      rw [hts, last_sent, ih hrest]
      by_cases hij : i = j
      · subst hij
        rw [if_neg (fun h => hj h.1), Function.update_same,
          if_pos ⟨List.mem_cons_self _ _, hd⟩]
      · simp only [Function.update_noteq hij, List.mem_cons, hij, false_or]
    · have hd' : (ftecff_update_slot (slots j) (parameters j)).is_updated = false := by
        simpa using hd
      have hts : timer_slots parameters (j :: rest) slots =
          timer_slots parameters rest
            (Function.update slots j (ftecff_update_slot (slots j) (parameters j))) := by
        rw [timer_slots]
        simp only [hd', Bool.false_eq_true, if_false]
      rw [hts, ih hrest]
      by_cases hij : i = j
      · subst hij
        rw [if_neg (fun h => hj h.1), if_neg (fun h => hd h.2)]
      · simp only [Function.update_noteq hij, List.mem_cons, hij, false_or]

theorem reachable_sent_last (abi : Abi) (fixp_sin32 : Int → Int) (drv : ftec_drv_data)
    (last : Fin 4 → slot_cmd) (h : ReachableSent abi fixp_sin32 drv last) (i : Fin 4) :
    (drv.slots i).current_cmd = last i := by
  induction h with
  | init => revert i; decide
  | upload drv last effect now _ _ _ ih =>
    have hs : (ftecff_upload_effect drv effect now).2.slots = drv.slots := by
      unfold ftecff_upload_effect
      simp only []
      split_ifs <;> rfl
    rw [hs]; exact ih
  | play drv last effect_id value now _ _ _ ih =>
    have hs : (ftecff_play_effect drv effect_id value now).slots = drv.slots := by
      unfold ftecff_play_effect
      simp only []
      split_ifs <;> rfl
    rw [hs]; exact ih
  | tick drv last now hprev _ ih =>
    have hinv := reachable_slot_inv abi fixp_sin32 drv
      (reachable_of_sent abi fixp_sin32 drv last hprev) i
    have hdirty := update_slot_dirty_iff i (drv.slots i)
      (timer_scale abi (timer_aggregate abi fixp_sin32 drv now).parameters i) hinv
    rw [(timer_slots_result abi fixp_sin32 drv now i).1]
    have hlast := timer_slots_last_sent
      (timer_scale abi (timer_aggregate abi fixp_sin32 drv now).parameters) (List.finRange 4)
      (List.nodup_finRange 4) drv.slots last i
    simp only [List.mem_finRange, true_and] at hlast
    have hsent : (ftecff_timer abi fixp_sin32 drv now).2 =
        (timer_slots (timer_scale abi (timer_aggregate abi fixp_sin32 drv now).parameters)
          (List.finRange 4) drv.slots).2 := rfl
    rw [hsent, hlast]
    split_ifs with hd
    · rfl
    · have hsame := not_not.1 (fun hne => hd (hdirty.2 hne))
      show (ftecff_update_slot (drv.slots i)
        (timer_scale abi (timer_aggregate abi fixp_sin32 drv now).parameters i)).current_cmd =
          last i
      rw [hsame]
      exact ih

/-- C3: in every reachable engine state and for every slot, the command the slot holds
before a tick is the command last handed to the transport for it; the tick hands the
slot's command to the transport exactly when the newly encoded command differs from that
one; what is sent is the new command; and the dirty flag is clear after the tick. -/
theorem timer_sends_iff_changed (abi : Abi) (fixp_sin32 : Int → Int) (drv : ftec_drv_data)
    (last : Fin 4 → slot_cmd) (now : Int) (i : Fin 4)
    (h : ReachableSent abi fixp_sin32 drv last) :
    (drv.slots i).current_cmd = last i ∧
      ((∃ c, (i, c) ∈ (ftecff_timer abi fixp_sin32 drv now).2) ↔
        ((ftecff_timer abi fixp_sin32 drv now).1.slots i).current_cmd ≠ last i) ∧
      (∀ c, (i, c) ∈ (ftecff_timer abi fixp_sin32 drv now).2 →
        c = ((ftecff_timer abi fixp_sin32 drv now).1.slots i).current_cmd) ∧
      ((ftecff_timer abi fixp_sin32 drv now).1.slots i).current_cmd =
        (ftecff_update_slot (drv.slots i)
          (timer_scale abi (timer_aggregate abi fixp_sin32 drv now).parameters i)).current_cmd ∧
      ((ftecff_timer abi fixp_sin32 drv now).1.slots i).is_updated = false := by
  obtain ⟨hslot, hsent⟩ := timer_slots_result abi fixp_sin32 drv now i
  have hinv := reachable_slot_inv abi fixp_sin32 drv
    (reachable_of_sent abi fixp_sin32 drv last h) i
  have hlast := reachable_sent_last abi fixp_sin32 drv last h i
  have hdirty := update_slot_dirty_iff i (drv.slots i)
    (timer_scale abi (timer_aggregate abi fixp_sin32 drv now).parameters i) hinv
  rw [hslot, ← hlast]
  refine ⟨rfl, ?_, fun c hc => ((hsent c).1 hc).2, rfl, rfl⟩
  constructor
  · rintro ⟨c, hc⟩
    exact hdirty.1 ((hsent c).1 hc).1
  · intro hne
    exact ⟨_, (hsent _).2 ⟨hdirty.2 hne, rfl⟩⟩

/-- Witness of C3: the first tick after `play(0, 1)` on the initialised engine. -/
theorem timer_sends_iff_changed_witness :
    ((ftecff_timer Abi.ilp32 (fun _ => 0)
        (ftecff_play_effect ftecff_init_slots.1 0 1 0) 0).1.slots 0).is_updated = false :=
  (timer_sends_iff_changed Abi.ilp32 (fun _ => 0)
    (ftecff_play_effect ftecff_init_slots.1 0 1 0) _ 0 0
    (ReachableSent.play _ _ 0 1 0 ReachableSent.init (by decide) (by decide))).2.2.2.2

/-! ## The sine function only decides the direction gain -/

theorem update_state_allset_same_but_gain (abi : Abi) (f g : Int → Int)
    (s t : ftecff_effect_state) (h : same_but_gain s t) :
    same_but_gain (update_state_allset abi f s) (update_state_allset abi g t) := by
  unfold same_but_gain at h
  generalize t.direction_gain = x at h
  subst h
  unfold update_state_allset same_but_gain
  simp only []
  split_ifs <;> rfl

theorem update_state_updating_same_but_gain (abi : Abi) (f g : Int → Int)
    (s t : ftecff_effect_state) (h : same_but_gain s t) :
    same_but_gain (update_state_updating abi f s) (update_state_updating abi g t) := by
  unfold same_but_gain at h
  generalize t.direction_gain = x at h
  subst h
  unfold update_state_updating same_but_gain
  simp only []
  split_ifs <;> rfl

theorem update_state_slope_same_but_gain (s t : ftecff_effect_state) (h : same_but_gain s t) :
    same_but_gain (update_state_slope s) (update_state_slope t) := by
  unfold same_but_gain at h
  generalize t.direction_gain = x at h
  subst h
  unfold update_state_slope same_but_gain ftecff_effect_state.env
  simp only []
  split_ifs <;> rfl

theorem update_state_playing_same_but_gain (abi : Abi) (s t : ftecff_effect_state) (now : Int)
    (h : same_but_gain s t) :
    same_but_gain (update_state_playing abi s now) (update_state_playing abi t now) := by
  unfold same_but_gain at h
  generalize t.direction_gain = x at h
  subst h
  unfold update_state_playing same_but_gain
  simp only []
  split_ifs <;> rfl

theorem update_state_time_same_but_gain (abi : Abi) (s t : ftecff_effect_state) (now : Int)
    (h : same_but_gain s t) :
    same_but_gain (update_state_time abi s now) (update_state_time abi t now) := by
  unfold same_but_gain at h
  generalize t.direction_gain = x at h
  subst h
  unfold update_state_time same_but_gain
  simp only []
  split_ifs <;> rfl

theorem timer_entry_same_but_gain (abi : Abi) (f g : Int → Int) (now : Int)
    (e : ftecff_effect_state) :
    same_but_gain (timer_entry abi f now e) (timer_entry abi g now e) := by
  unfold timer_entry
  split_ifs
  · rfl
  · unfold ftecff_update_state
    exact update_state_time_same_but_gain abi _ _ now
      (update_state_playing_same_but_gain abi _ _ now
        (update_state_slope_same_but_gain _ _
          (update_state_updating_same_but_gain abi f g _ _
            (update_state_allset_same_but_gain abi f g _ _ rfl))))

theorem timer_entry_flags (abi : Abi) (f g : Int → Int) (now : Int)
    (e : ftecff_effect_state) :
    (timer_entry abi g now e).flags = (timer_entry abi f now e).flags := by
  have h := timer_entry_same_but_gain abi f g now e
  unfold same_but_gain at h
  rw [h]

theorem fixp_sin16_range (fixp_sin32 : Int → Int) (e : ff_effect) :
    -32768 ≤ direction_gain_of fixp_sin32 e ∧ direction_gain_of fixp_sin32 e ≤ 32768 := by
  unfold direction_gain_of fixp_sin16 to_s32
  split_ifs <;> rw [Int.shiftRight_eq_div_pow] <;> norm_num <;> omega

/-- For every sine function and either width of `long`, the two effects of the
counterexample to C7 are Playing after the tick and cancel in the aggregate. -/
theorem two_constants_cancel (abi : Abi) (fixp_sin32 : Int → Int) :
    ((ftecff_timer abi fixp_sin32 (two_constants_example 0x4000 0xC000) 0).1.states 0
        ).flags.playing = true ∧
    ((ftecff_timer abi fixp_sin32 (two_constants_example 0x4000 0xC000) 0).1.states 1
        ).flags.playing = true ∧
    ((timer_aggregate abi fixp_sin32 (two_constants_example 0x4000 0xC000) 0
        ).parameters 0).level = 0 := by
  have hr := two_constants_example_reachable abi fixp_sin32 0x4000 0xC000 (by decide)
    (by decide)
  have hs0 : ((two_constants_example 0x4000 0xC000).states 0).flags.started = true := by
    decide
  have hs1 : ((two_constants_example 0x4000 0xC000).states 1).flags.started = true := by
    decide
  have hp0 : ((ftecff_timer abi fixp_sin32 (two_constants_example 0x4000 0xC000) 0).1.states 0
      ).flags.playing = true := by
    rw [timer_states_eq_entry abi fixp_sin32 _ 0 hr 0, if_pos hs0,
      timer_entry_flags abi fixp_sin32_peak fixp_sin32]
    cases abi <;> decide
  have hp1 : ((ftecff_timer abi fixp_sin32 (two_constants_example 0x4000 0xC000) 0).1.states 1
      ).flags.playing = true := by
    rw [timer_states_eq_entry abi fixp_sin32 _ 0 hr 1, if_pos hs1,
      timer_entry_flags abi fixp_sin32_peak fixp_sin32]
    cases abi <;> decide
  refine ⟨hp0, hp1, ?_⟩
  have hsum := (timer_two_constants_sum abi fixp_sin32 (two_constants_example 0x4000 0xC000)
    0 0 1 hr (by decide) (by decide) (by decide) (by decide) (by decide) (by decide) hp0 hp1).1
  have he0 : ((two_constants_example 0x4000 0xC000).states 0).effect =
      constant_effect 0 1000 0x4000 := by decide
  have he1 : ((two_constants_example 0x4000 0xC000).states 1).effect =
      constant_effect 1 1000 0xC000 := by decide
  rw [hsum, he0, he1, direction_gain_opposite fixp_sin32 0 1 1000 1000]
  have hg := fixp_sin16_range fixp_sin32 (constant_effect 0 1000 0x4000)
  generalize direction_gain_of fixp_sin32 (constant_effect 0 1000 0x4000) = x at hg ⊢
  have hl : (constant_effect 0 1000 0x4000).u.constant.level = 1000 := rfl
  have hl2 : (constant_effect 1 1000 0xC000).u.constant.level = 1000 := rfl
  rw [hl, hl2, to_s32_of_small _ (by omega) (by omega), to_s32_of_small _ (by omega) (by omega),
    show -x * 1000 = -(x * 1000) by ring, Int.neg_tdiv]
  omega



/-! ## The attack branch where the difference is not negative -/

theorem tdiv_0x7fff (a : Int) :
    Int.tdiv a 0x7fff = if 0 ≤ a then a / 0x7fff else -((-a) / 0x7fff) := by
  split_ifs with h
  · exact Int.tdiv_eq_ediv h (by norm_num)
  · have h2 : a = -(-a) := by ring
    rw [h2, Int.neg_tdiv, Int.tdiv_eq_ediv (by omega) (by norm_num)]
    simp

theorem tdiv_0x7fff_mono (a b : Int) (h : a ≤ b) : Int.tdiv a 0x7fff ≤ Int.tdiv b 0x7fff := by
  rw [tdiv_0x7fff, tdiv_0x7fff]
  split_ifs <;> omega

/-- In the attack branch, when `d = level - sign * attack_level` is not negative, the shaped
level is the interpolation `sign * attack_level + d * time_playing / attack_length`. -/
theorem attack_shaped_value (abi : Abi) (state : ftecff_effect_state)
    (henv : state.env.wf) (hlevel : is_s16 state.effect.u.constant.level)
    (ht0 : 0 ≤ state.time_playing) (ht1 : state.time_playing < state.env.attack_length)
    (hd : 0 ≤ state.effect.u.constant.level -
      (if state.effect.u.constant.level < 0 then -1 else 1) * state.env.attack_level) :
    constant_shaped_level abi state =
      (if state.effect.u.constant.level < 0 then -1 else 1) * state.env.attack_level +
        (state.effect.u.constant.level -
          (if state.effect.u.constant.level < 0 then -1 else 1) * state.env.attack_level) *
          state.time_playing / state.env.attack_length := by
  obtain ⟨hN, hA, _, _⟩ := henv
  unfold is_u16 at hN hA
  unfold is_s16 at hlevel
  unfold constant_shaped_level
  simp only []
  rw [if_pos ht1]
  generalize state.effect.u.constant.level = L at *
  generalize state.env.attack_level = A at *
  generalize state.env.attack_length = N at *
  generalize state.time_playing = T at *
  generalize hs : (if L < 0 then (-1 : Int) else 1) = sg at *
  have hsg : (sg = -1 ∧ L < 0) ∨ (sg = 1 ∧ 0 ≤ L) := by
    split_ifs at hs with h
    · exact Or.inl ⟨hs.symm, h⟩
    · exact Or.inr ⟨hs.symm, by omega⟩
  have hdle : L - sg * A ≤ 65534 := by
    rcases hsg with ⟨h1, h2⟩ | ⟨h1, h2⟩ <;> rw [h1] <;> omega
  have hP0 : 0 ≤ (L - sg * A) * T := mul_nonneg hd ht0
  have hP1 : (L - sg * A) * T ≤ 65534 * 65534 := by
    have hT : T ≤ 65534 := by omega
    exact mul_le_mul hdle hT ht0 (by norm_num)
  have hq0 : 0 ≤ (L - sg * A) * T / N := Int.ediv_nonneg hP0 (by omega)
  have hq1 : (L - sg * A) * T / N ≤ L - sg * A := by
    have hmul : (L - sg * A) * T ≤ (L - sg * A) * N :=
      mul_le_mul_of_nonneg_left (by omega) hd
    calc (L - sg * A) * T / N ≤ (L - sg * A) * N / N := Int.ediv_le_ediv (by omega) hmul
      _ = L - sg * A := Int.mul_ediv_cancel _ (by omega)
  have hdu : to_ulong abi (L - sg * A) = L - sg * A := by
    unfold to_ulong
    cases abi <;> simp only [Abi.ulong_modulus] <;> omega
  have hPu : to_ulong abi ((L - sg * A) * T) = (L - sg * A) * T := by
    unfold to_ulong
    cases abi <;> simp only [Abi.ulong_modulus] <;> omega
  rw [hdu, hPu]
  generalize (L - sg * A) * T / N = q at *
  unfold to_s32 to_ulong
  rcases hsg with ⟨h1, h2⟩ | ⟨h1, h2⟩
  · rw [h1] at hq1 ⊢
    cases abi <;> simp only [Abi.ulong_modulus] <;> omega
  · rw [h1] at hq1 ⊢
    cases abi <;> simp only [Abi.ulong_modulus] <;> omega

/-- The half of C8 that the code keeps where `d = level - sign * attack_level` is not
negative: for two instants of the attack, the later one gives a value that is not smaller
when the direction gain is not negative, and not larger when it is not positive. -/
theorem calculate_constant_attack_monotonic (abi : Abi) (s t : ftecff_effect_state)
    (hsame : t = { s with time_playing := t.time_playing })
    (henv : s.env.wf) (hlevel : is_s16 s.effect.u.constant.level)
    (hgain : -32768 ≤ s.direction_gain ∧ s.direction_gain ≤ 32768)
    (hs0 : 0 ≤ s.time_playing) (hst : s.time_playing ≤ t.time_playing)
    (ht1 : t.time_playing < s.env.attack_length)
    (hd : 0 ≤ s.effect.u.constant.level -
      (if s.effect.u.constant.level < 0 then -1 else 1) * s.env.attack_level) :
    (0 ≤ s.direction_gain →
        ftecff_calculate_constant abi s ≤ ftecff_calculate_constant abi t) ∧
      (s.direction_gain ≤ 0 →
        ftecff_calculate_constant abi t ≤ ftecff_calculate_constant abi s) := by
  have hte : t.env = s.env := by rw [hsame]; rfl
  have htl : t.effect = s.effect := by rw [hsame]
  have htg : t.direction_gain = s.direction_gain := by rw [hsame]
  have hvs := attack_shaped_value abi s henv hlevel hs0 (by omega) hd
  have hvt := attack_shaped_value abi t (hte ▸ henv) (htl ▸ hlevel) (by omega)
    (by rw [hte]; exact ht1) (by rw [hte, htl]; exact hd)
  rw [hte, htl] at hvt
  obtain ⟨hN, hA, _, _⟩ := henv
  unfold is_u16 at hN hA
  unfold is_s16 at hlevel
  unfold ftecff_calculate_constant
  rw [hvs, hvt, htg]
  generalize s.effect.u.constant.level = L at *
  generalize s.env.attack_level = A at *
  generalize s.env.attack_length = N at *
  generalize s.direction_gain = g at *
  generalize hsg' : (if L < 0 then (-1 : Int) else 1) = sg at *
  have hsg : (sg = -1 ∧ L < 0) ∨ (sg = 1 ∧ 0 ≤ L) := by
    split_ifs at hsg' with h
    · exact Or.inl ⟨hsg'.symm, h⟩
    · exact Or.inr ⟨hsg'.symm, by omega⟩
  have hq : ∀ T : Int, 0 ≤ T → T < N →
      0 ≤ (L - sg * A) * T / N ∧ (L - sg * A) * T / N ≤ L - sg * A := by
    intro T hT0 hT1
    refine ⟨Int.ediv_nonneg (mul_nonneg hd hT0) (by omega), ?_⟩
    have hmul : (L - sg * A) * T ≤ (L - sg * A) * N :=
      mul_le_mul_of_nonneg_left (by omega) hd
    calc (L - sg * A) * T / N ≤ (L - sg * A) * N / N := Int.ediv_le_ediv (by omega) hmul
      _ = L - sg * A := Int.mul_ediv_cancel _ (by omega)
  have hmono : (L - sg * A) * s.time_playing / N ≤ (L - sg * A) * t.time_playing / N :=
    Int.ediv_le_ediv (by omega) (mul_le_mul_of_nonneg_left hst hd)
  obtain ⟨hqs0, hqs1⟩ := hq s.time_playing hs0 (by omega)
  obtain ⟨hqt0, hqt1⟩ := hq t.time_playing (by omega) ht1
  generalize (L - sg * A) * s.time_playing / N = qs at *
  generalize (L - sg * A) * t.time_playing / N = qt at *
  have hbs : -65535 ≤ sg * A + qs ∧ sg * A + qs ≤ 32767 := by
    rcases hsg with ⟨h1, h2⟩ | ⟨h1, h2⟩ <;> rw [h1] at hqs1 ⊢ <;> constructor <;> omega
  have hbt : -65535 ≤ sg * A + qt ∧ sg * A + qt ≤ 32767 := by
    rcases hsg with ⟨h1, h2⟩ | ⟨h1, h2⟩ <;> rw [h1] at hqt1 ⊢ <;> constructor <;> omega
  have hle : sg * A + qs ≤ sg * A + qt := by omega
  generalize sg * A + qs = xs at *
  generalize sg * A + qt = xt at *
  have hprod : ∀ x : Int, -65535 ≤ x → x ≤ 32767 →
      -2147483648 ≤ g * x ∧ g * x < 2147483648 := by
    intro x hx0 hx1
    constructor <;> nlinarith [hgain.1, hgain.2]
  rw [to_s32_of_small _ (hprod xs hbs.1 hbs.2).1 (hprod xs hbs.1 hbs.2).2,
    to_s32_of_small _ (hprod xt hbt.1 hbt.2).1 (hprod xt hbt.1 hbt.2).2]
  constructor
  · intro hg
    exact tdiv_0x7fff_mono _ _ (mul_le_mul_of_nonneg_left hle hg)
  · intro hg
    exact tdiv_0x7fff_mono _ _ (mul_le_mul_of_nonpos_left hle hg)

/-! ## Frame of `ftecff_upload_effect` and `ftecff_play_effect` -/

theorem upload_effect_slots (drv : ftec_drv_data) (effect : ff_effect) (now : Int) :
    (ftecff_upload_effect drv effect now).2.slots = drv.slots ∧
      (ftecff_upload_effect drv effect now).2.effects_used = drv.effects_used := by
  unfold ftecff_upload_effect
  simp only []
  split_ifs <;> exact ⟨rfl, rfl⟩

theorem play_effect_slots (drv : ftec_drv_data) (effect_id : Fin FTECFF_MAX_EFFECTS)
    (value : Int) (now : Int) :
    (ftecff_play_effect drv effect_id value now).slots = drv.slots := by
  unfold ftecff_play_effect
  simp only []
  split_ifs <;> rfl

/-- C20: an upload that succeeds stores the uploaded effect under its id; on a Started
entry it sets Updating and `updated_at = now` and changes nothing else of the entry; on an
entry that is not Started it changes nothing else of the entry, flags and time stamps
included; `effects_used`, the slots and every other entry are as before. -/
theorem upload_effect_success (drv : ftec_drv_data) (effect : ff_effect) (now : Int)
    (h : (ftecff_upload_effect drv effect now).1 = 0) :
    ((ftecff_upload_effect drv effect now).2.states effect.id).effect = effect ∧
      ((drv.states effect.id).flags.started = true →
        (ftecff_upload_effect drv effect now).2.states effect.id =
          { drv.states effect.id with
            effect := effect,
            flags := { (drv.states effect.id).flags with updating := true },
            updated_at := now }) ∧
      ((drv.states effect.id).flags.started = false →
        (ftecff_upload_effect drv effect now).2.states effect.id =
          { drv.states effect.id with effect := effect }) ∧
      (ftecff_upload_effect drv effect now).2.effects_used = drv.effects_used ∧
      (ftecff_upload_effect drv effect now).2.slots = drv.slots ∧
      (∀ k, k ≠ effect.id →
        (ftecff_upload_effect drv effect now).2.states k = drv.states k) := by
  unfold ftecff_upload_effect at h ⊢
  simp only [] at h ⊢
  split_ifs at h ⊢ with h1 h2 h3
  · simp [EINVAL] at h
  · simp [EINVAL] at h
  · refine ⟨by simp, fun _ => by simp, fun hs => ?_, rfl, rfl, fun k hk => ?_⟩
    · rw [h3] at hs
      exact absurd hs (by decide)
    · simp [Function.update_noteq hk]
  · refine ⟨by simp, fun hs => absurd hs h3, fun _ => by simp, rfl, rfl, fun k hk => ?_⟩
    simp [Function.update_noteq hk]

/-- Witness of C20: the upload of a Constant effect on the initialised engine. -/
theorem upload_effect_success_witness :
    ((ftecff_upload_effect ftecff_init_slots.1 (constant_effect 0 0x4000 0x4000) 0).2.states
        (constant_effect 0 0x4000 0x4000).id).effect = constant_effect 0 0x4000 0x4000 :=
  (upload_effect_success ftecff_init_slots.1 (constant_effect 0 0x4000 0x4000) 0
    (by decide)).1

/-- C13: in a reachable engine, `play(id, value)` with `value > 0` leaves the entry with
Started set and AllSet, Playing, Updating clear, `start_at = now` and the repeat counter
equal to `value`, and nothing else of the entry changed; `effects_used` grows by one when
the entry was not Started and stays when it was; the slots and every other entry are as
before. -/
theorem play_effect_start (abi : Abi) (fixp_sin32 : Int → Int) (drv : ftec_drv_data)
    (effect_id : Fin FTECFF_MAX_EFFECTS) (value : Int) (now : Int)
    (hr : Reachable abi fixp_sin32 drv) (hv : 0 < value) (hi : is_int value) :
    (ftecff_play_effect drv effect_id value now).states effect_id =
        { drv.states effect_id with
          flags := ⟨true, false, false, false⟩, start_at := now, count := value } ∧
      ((drv.states effect_id).flags.started = false →
        (ftecff_play_effect drv effect_id value now).effects_used = drv.effects_used + 1) ∧
      ((drv.states effect_id).flags.started = true →
        (ftecff_play_effect drv effect_id value now).effects_used = drv.effects_used) ∧
      (ftecff_play_effect drv effect_id value now).slots = drv.slots ∧
      (∀ k, k ≠ effect_id →
        (ftecff_play_effect drv effect_id value now).states k = drv.states k) := by
  obtain ⟨_, k2, _, _, _⟩ := reachable_entry_inv abi fixp_sin32 drv hr effect_id
  have hc : to_u32 value = value := by
    unfold is_int at hi
    unfold to_u32
    omega
  unfold ftecff_play_effect
  simp only []
  rw [if_pos (by omega)]
  cases hs : (drv.states effect_id).flags.started
  · have hz := k2 hs
    refine ⟨?_, fun _ => by simp, fun h => absurd h (by decide), rfl, fun k hk => ?_⟩
    · simp [hc, hz, effect_flags.zero]
    · simp [Function.update_noteq hk]
  · refine ⟨?_, fun h => absurd h (by decide), fun _ => by simp, rfl, fun k hk => ?_⟩
    · simp [hc, effect_flags.zero]
    · simp [Function.update_noteq hk]

/-- Witness of C13: `play(0, 1)` on the initialised engine. -/
theorem play_effect_start_witness :
    (ftecff_play_effect ftecff_init_slots.1 0 1 0).slots = ftecff_init_slots.1.slots :=
  (play_effect_start Abi.ilp32 fixp_sin32_peak ftecff_init_slots.1 0 1 0 Reachable.init
    (by decide) (by decide)).2.2.2.1

/-- C14: `play(id, 0)` on a Started entry clears the four flags of the entry, changes
nothing else of it and lowers `effects_used` by one; on an entry that is not Started it
leaves the whole engine as it was; the slots and every other entry are as before in both
cases. -/
theorem play_effect_stop (drv : ftec_drv_data) (effect_id : Fin FTECFF_MAX_EFFECTS)
    (now : Int) :
    ((drv.states effect_id).flags.started = true →
        (ftecff_play_effect drv effect_id 0 now).states effect_id =
          { drv.states effect_id with flags := ⟨false, false, false, false⟩ } ∧
        (ftecff_play_effect drv effect_id 0 now).effects_used = drv.effects_used - 1) ∧
      ((drv.states effect_id).flags.started = false →
        ftecff_play_effect drv effect_id 0 now = drv) ∧
      ((ftecff_play_effect drv effect_id 0 now).states effect_id).effect =
        (drv.states effect_id).effect ∧
      (ftecff_play_effect drv effect_id 0 now).slots = drv.slots ∧
      (∀ k, k ≠ effect_id →
        (ftecff_play_effect drv effect_id 0 now).states k = drv.states k) := by
  unfold ftecff_play_effect
  simp only []
  rw [if_neg (by decide)]
  cases hs : (drv.states effect_id).flags.started
  · simp
  · refine ⟨fun _ => by simp [effect_flags.zero], fun h => absurd h (by decide), by simp,
      by simp, fun k hk => ?_⟩
    simp [Function.update_noteq hk]

/-! ## The stored effect across the steps -/

theorem update_state_effect (abi : Abi) (fixp_sin32 : Int → Int) (s : ftecff_effect_state)
    (now : Int) : (ftecff_update_state abi fixp_sin32 s now).effect = s.effect := by
  unfold ftecff_update_state
  rw [(update_state_time_spec abi _ now).1, (update_state_playing_spec abi _ now).1,
    (update_state_slope_spec _).1, (update_state_updating_spec abi fixp_sin32 _).1,
    (update_state_allset_spec abi fixp_sin32 s).1]

theorem timer_entry_effect (abi : Abi) (fixp_sin32 : Int → Int) (now : Int)
    (e : ftecff_effect_state) : (timer_entry abi fixp_sin32 now e).effect = e.effect := by
  unfold timer_entry
  split_ifs
  · exact (timer_expire_spec abi now e).1
  · rw [update_state_effect]
    exact (timer_expire_spec abi now e).1

theorem timer_visit_effect (abi : Abi) (fixp_sin32 : Int → Int) (now : Int)
    (ws : timer_walk_state) (id k : Fin FTECFF_MAX_EFFECTS) :
    ((timer_visit abi fixp_sin32 now ws id).states k).effect = (ws.states k).effect := by
  by_cases hs : (ws.states id).flags.started = true
  · rw [(timer_visit_started abi fixp_sin32 now ws id hs).1]
    by_cases hk : k = id
    · subst hk
      rw [Function.update_same, timer_entry_effect]
    · rw [Function.update_noteq hk]
  · have hs' : (ws.states id).flags.started = false := by simpa using hs
    rw [timer_visit_not_started abi fixp_sin32 now ws id hs']

theorem timer_walk_effect (abi : Abi) (fixp_sin32 : Int → Int) (now : Int)
    (l : List (Fin FTECFF_MAX_EFFECTS)) (ws : timer_walk_state)
    (k : Fin FTECFF_MAX_EFFECTS) :
    ((timer_walk abi fixp_sin32 now l ws).states k).effect = (ws.states k).effect := by
  induction l generalizing ws with
  | nil => rfl
  | cons id rest ih =>
    unfold timer_walk
    split_ifs
    · rfl
    · rw [ih, timer_visit_effect]

theorem timer_effect (abi : Abi) (fixp_sin32 : Int → Int) (drv : ftec_drv_data) (now : Int)
    (k : Fin FTECFF_MAX_EFFECTS) :
    ((ftecff_timer abi fixp_sin32 drv now).1.states k).effect = (drv.states k).effect := by
  unfold ftecff_timer timer_aggregate
  exact timer_walk_effect abi fixp_sin32 now _ _ k

theorem play_effect_effect (drv : ftec_drv_data) (effect_id : Fin FTECFF_MAX_EFFECTS)
    (value : Int) (now : Int) (k : Fin FTECFF_MAX_EFFECTS) :
    ((ftecff_play_effect drv effect_id value now).states k).effect = (drv.states k).effect := by
  unfold ftecff_play_effect
  simp only []
  by_cases hk : k = effect_id
  · subst hk
    split_ifs <;> simp
  · split_ifs <;> simp [Function.update_noteq hk]

theorem upload_effect_type (drv : ftec_drv_data) (effect : ff_effect) (now : Int)
    (k : Fin FTECFF_MAX_EFFECTS) (hs : (drv.states k).flags.started = true) :
    ((ftecff_upload_effect drv effect now).2.states k).effect.type =
      (drv.states k).effect.type := by
  unfold ftecff_upload_effect
  simp only []
  by_cases hk : k = effect.id
  · subst hk
    split_ifs with h1 h2
    · rfl
    · rfl
    · simp only [Function.update_same, hs, if_true]
      by_contra hne
      exact h2 ⟨hs, hne⟩
  · split_ifs <;> simp [Function.update_noteq hk]

/-- C19 as stated fails: a Started sine effect, re-uploaded as a square effect of the same
type `FF_PERIODIC`, is accepted; the entry is Started before and after the upload, and its
kind, type with waveform, differs. -/
theorem started_kind_changes_counterexample :
    (sine_engine.states 0).flags.started = true ∧
    (ftecff_upload_effect sine_engine (periodic_effect FF_SQUARE 1000 0) 5).1 = 0 ∧
    ((ftecff_upload_effect sine_engine (periodic_effect FF_SQUARE 1000 0) 5).2.states 0
      ).flags.started = true ∧
    spec_kind ((ftecff_upload_effect sine_engine (periodic_effect FF_SQUARE 1000 0) 5).2.states
      0).effect ≠ spec_kind (sine_engine.states 0).effect := by
  decide

/-- C19, amended: the type of an effect is immutable while it is Started.  In every engine
state, an upload leaves the type of every Started entry as it was; a play and a tick leave
the whole stored effect of every entry, type and waveform included, as it was.  An upload
returns 0 on a Started entry whenever the type matches and the period of a Periodic effect
is not 0, so the waveform of a Started Periodic effect can be replaced. -/
theorem started_type_immutable (abi : Abi) (fixp_sin32 : Int → Int) (drv : ftec_drv_data)
    (k : Fin FTECFF_MAX_EFFECTS) :
    (∀ effect now, (drv.states k).flags.started = true →
      ((ftecff_upload_effect drv effect now).2.states k).effect.type =
        (drv.states k).effect.type) ∧
    (∀ effect_id value now,
      spec_kind ((ftecff_play_effect drv effect_id value now).states k).effect =
        spec_kind (drv.states k).effect) ∧
    (∀ now,
      spec_kind ((ftecff_timer abi fixp_sin32 drv now).1.states k).effect =
        spec_kind (drv.states k).effect) ∧
    (∀ effect now, (drv.states effect.id).flags.started = true →
      effect.type = (drv.states effect.id).effect.type →
      ¬ (effect.type = FF_PERIODIC ∧ effect.u.periodic.period = 0) →
      (ftecff_upload_effect drv effect now).1 = 0 ∧
        ((ftecff_upload_effect drv effect now).2.states effect.id).effect = effect) := by
  refine ⟨fun effect now hs => upload_effect_type drv effect now k hs,
    fun effect_id value now => by rw [play_effect_effect],
    fun now => by rw [timer_effect], fun effect now hs ht hp => ?_⟩
  unfold ftecff_upload_effect
  simp only []
  rw [if_neg hp, if_neg (fun h => h.2 ht)]
  simp [hs]

/-! ## The Friction slot -/

theorem timer_accumulate_friction (abi : Abi) (fixp_sin32 : Int → Int)
    (state : ftecff_effect_state) (parameters : Fin 4 → ftecff_effect_parameters) :
    timer_accumulate abi fixp_sin32 state parameters 3 = parameters 3 := by
  unfold timer_accumulate
  split_ifs
  · exact Function.update_noteq (show (3 : Fin 4) ≠ 0 by decide) _ _
  · exact Function.update_noteq (show (3 : Fin 4) ≠ 1 by decide) _ _
  · exact Function.update_noteq (show (3 : Fin 4) ≠ 2 by decide) _ _
  · exact Function.update_noteq (show (3 : Fin 4) ≠ 0 by decide) _ _
  · rfl

theorem timer_visit_friction (abi : Abi) (fixp_sin32 : Int → Int) (now : Int)
    (ws : timer_walk_state) (id : Fin FTECFF_MAX_EFFECTS) :
    (timer_visit abi fixp_sin32 now ws id).parameters 3 = ws.parameters 3 := by
  by_cases hs : (ws.states id).flags.started = true
  · rw [(timer_visit_started abi fixp_sin32 now ws id hs).2.2]
    split_ifs
    · exact timer_accumulate_friction abi fixp_sin32 _ _
    · rfl
  · have hs' : (ws.states id).flags.started = false := by simpa using hs
    rw [timer_visit_not_started abi fixp_sin32 now ws id hs']

theorem timer_walk_friction (abi : Abi) (fixp_sin32 : Int → Int) (now : Int)
    (l : List (Fin FTECFF_MAX_EFFECTS)) (ws : timer_walk_state) :
    (timer_walk abi fixp_sin32 now l ws).parameters 3 = ws.parameters 3 := by
  induction l generalizing ws with
  | nil => rfl
  | cons id rest ih =>
    unfold timer_walk
    split_ifs
    · rfl
    · rw [ih, timer_visit_friction]

theorem timer_scale_friction (abi : Abi) (parameters : Fin 4 → ftecff_effect_parameters)
    (h : (parameters 3).clip = 0) : (timer_scale abi parameters 3).clip = 0 := by
  unfold timer_scale
  simp only [show ¬ ((3 : Fin 4) = 0) by decide, show ¬ ((3 : Fin 4) = 1) by decide,
    show ¬ ((3 : Fin 4) = 2) by decide, if_false, h]
  cases abi <;> decide

theorem update_slot_friction (parameters : ftecff_effect_parameters)
    (h : parameters.clip = 0) :
    ftecff_update_slot (ftecff_init_slots.1.slots 3) parameters =
      ftecff_init_slots.1.slots 3 := by
  have hinit : ftecff_init_slots.1.slots 3 = ⟨3, ⟨0x33, 0, 0, 0, 0, 0, 0⟩, false, FF_FRICTION⟩ := by
    decide
  rw [hinit]
  unfold ftecff_update_slot
  simp [h, FF_FRICTION, FF_CONSTANT]

theorem timer_friction_slot (abi : Abi) (fixp_sin32 : Int → Int) (drv : ftec_drv_data)
    (now : Int) (h : drv.slots 3 = ftecff_init_slots.1.slots 3) :
    (ftecff_timer abi fixp_sin32 drv now).1.slots 3 = ftecff_init_slots.1.slots 3 ∧
      ∀ c, (3, c) ∉ (ftecff_timer abi fixp_sin32 drv now).2 := by
  obtain ⟨h1, h2⟩ := timer_slots_result abi fixp_sin32 drv now 3
  have hclip : (timer_scale abi (timer_aggregate abi fixp_sin32 drv now).parameters 3).clip
      = 0 := by
    apply timer_scale_friction
    unfold timer_aggregate
    rw [timer_walk_friction]
    rfl
  rw [h, update_slot_friction _ hclip] at h1 h2
  refine ⟨h1.trans (by decide), fun c hc => ?_⟩
  have := ((h2 c).1 hc).1
  revert this
  decide

theorem reachable_friction_slot (abi : Abi) (fixp_sin32 : Int → Int) (drv : ftec_drv_data)
    (h : Reachable abi fixp_sin32 drv) : drv.slots 3 = ftecff_init_slots.1.slots 3 := by
  induction h with
  | init => rfl
  | upload drv effect now _ _ _ ih => rw [(upload_effect_slots drv effect now).1]; exact ih
  | play drv effect_id value now _ _ _ ih => rw [play_effect_slots]; exact ih
  | tick drv now _ _ ih => exact (timer_friction_slot abi fixp_sin32 drv now ih).1

/-- C18: the Friction slot always encodes to disabled.  With the slots of any reachable
engine and any effect table and any value of `effects_used` in place of the reachable
ones, a tick leaves the command of slot 3 with byte 0 equal to `0x33` and bytes 2 to 6
zero, leaves the slot clean and as it was before the tick, and transmits no command for
slot 3. -/
theorem friction_slot_always_disabled (abi : Abi) (fixp_sin32 : Int → Int)
    (drv : ftec_drv_data) (states : Fin FTECFF_MAX_EFFECTS → ftecff_effect_state)
    (effects_used : Int) (now : Int) (hr : Reachable abi fixp_sin32 drv) :
    ((ftecff_timer abi fixp_sin32
        { drv with states := states, effects_used := effects_used } now).1.slots 3
      ).current_cmd = ⟨0x33, 0, 0, 0, 0, 0, 0⟩ ∧
    ((ftecff_timer abi fixp_sin32
        { drv with states := states, effects_used := effects_used } now).1.slots 3
      ).is_updated = false ∧
    (ftecff_timer abi fixp_sin32
        { drv with states := states, effects_used := effects_used } now).1.slots 3 =
      drv.slots 3 ∧
    ∀ c, (3, c) ∉ (ftecff_timer abi fixp_sin32
        { drv with states := states, effects_used := effects_used } now).2 := by
  have h3 := reachable_friction_slot abi fixp_sin32 drv hr
  obtain ⟨h1, h2⟩ := timer_friction_slot abi fixp_sin32
    { drv with states := states, effects_used := effects_used } now h3
  rw [h1]
  exact ⟨by decide, by decide, h3.symm, h2⟩

/-- Witness of C18: the slots of the initialised engine under a table whose entry 5 is a
Started and Playing Friction effect. -/
theorem friction_slot_always_disabled_witness :
    ((ftecff_timer Abi.ilp32 fixp_sin32_peak
        { ftecff_init_slots.1 with
          states := fun k => if k = 5 then
            { ftecff_effect_state.zero with
              effect := { ff_effect.zero with type := FF_FRICTION },
              flags := ⟨true, true, true, false⟩ }
            else ftecff_effect_state.zero,
          effects_used := 1 } 7).1.slots 3).current_cmd = ⟨0x33, 0, 0, 0, 0, 0, 0⟩ :=
  (friction_slot_always_disabled Abi.ilp32 fixp_sin32_peak ftecff_init_slots.1 _ 1 7
    Reachable.init).1

/-! ## Stopping the only effect -/

theorem timer_walk_zero_count (abi : Abi) (fixp_sin32 : Int → Int) (now : Int)
    (l : List (Fin FTECFF_MAX_EFFECTS)) (ws : timer_walk_state) (h : ws.count = 0) :
    timer_walk abi fixp_sin32 now l ws = ws := by
  cases l with
  | nil => rfl
  | cons id rest =>
    unfold timer_walk
    rw [if_pos h]

theorem timer_scale_zero (abi : Abi) (i : Fin 4) :
    timer_scale abi (fun _ => ftecff_effect_parameters.zero) i =
      ftecff_effect_parameters.zero := by
  revert i
  cases abi <;> decide

theorem started_count_zero (states : Fin FTECFF_MAX_EFFECTS → ftecff_effect_state)
    (h : ∀ k, (states k).flags.started = false) : started_count states = 0 := by
  unfold started_count
  rw [Finset.card_eq_zero, Finset.filter_eq_empty_iff]
  intro k _
  rw [h k]
  decide

theorem timer_idle_slot (abi : Abi) (fixp_sin32 : Int → Int) (drv : ftec_drv_data)
    (now : Int) (i : Fin 4) (hu : drv.effects_used = 0) (hinv : slot_inv i (drv.slots i))
    (hcmd : (drv.slots i).current_cmd.b0 ≠ (i.val <<< 4) ||| 0x3) :
    (i, { (drv.slots i).current_cmd with
          b0 := (i.val <<< 4) ||| 0x3, b2 := 0, b3 := 0, b4 := 0, b5 := 0, b6 := 0 }) ∈
        (ftecff_timer abi fixp_sin32 drv now).2 ∧
      ((ftecff_timer abi fixp_sin32 drv now).1.slots i).current_cmd =
        { (drv.slots i).current_cmd with
          b0 := (i.val <<< 4) ||| 0x3, b2 := 0, b3 := 0, b4 := 0, b5 := 0, b6 := 0 } := by
  obtain ⟨h1, h2⟩ := timer_slots_result abi fixp_sin32 drv now i
  have hp : timer_scale abi (timer_aggregate abi fixp_sin32 drv now).parameters i =
      ftecff_effect_parameters.zero := by
    unfold timer_aggregate
    rw [timer_walk_zero_count abi fixp_sin32 now _ _ hu]
    exact timer_scale_zero abi i
  rw [hp] at h1 h2
  have hdis : slot_disabled (drv.slots i) ftecff_effect_parameters.zero := by
    unfold slot_disabled
    by_cases ht : (drv.slots i).effect_type = FF_CONSTANT
    · exact Or.inl ⟨ht, rfl⟩
    · exact Or.inr ⟨ht, rfl⟩
  have hc : (ftecff_update_slot (drv.slots i) ftecff_effect_parameters.zero).current_cmd =
      { (drv.slots i).current_cmd with
        b0 := (i.val <<< 4) ||| 0x3, b2 := 0, b3 := 0, b4 := 0, b5 := 0, b6 := 0 } := by
    rw [update_slot_cmd, if_pos hdis, hinv.1, (slot_bytes_of_index i).2.1]
  refine ⟨?_, ?_⟩
  · rw [h2]
    refine ⟨?_, hc.symm⟩
    rw [update_slot_dirty_iff i _ _ hinv, hc]
    intro he
    exact hcmd (congrArg slot_cmd.b0 he).symm
  · rw [h1]
    exact hc

theorem play_stop_only_effect (abi : Abi) (fixp_sin32 : Int → Int) (drv : ftec_drv_data)
    (t : Int) (hr : Reachable abi fixp_sin32 drv) (ht : is_ulong abi t)
    (hothers : ∀ k, k ≠ 0 → (drv.states k).flags.started = false) :
    ((ftecff_play_effect drv 0 0 t).states 0).flags.started = false ∧
      (ftecff_play_effect drv 0 0 t).effects_used = 0 := by
  have hall : ∀ k, ((ftecff_play_effect drv 0 0 t).states k).flags.started = false := by
    intro k
    unfold ftecff_play_effect
    simp only []
    rw [if_neg (by decide)]
    by_cases hk : k = 0
    · subst hk
      split_ifs with h
      · simp [effect_flags.zero]
      · simpa using h
    · split_ifs
      · simp only [Function.update_noteq hk]
        exact hothers k hk
      · exact hothers k hk
  refine ⟨hall 0, ?_⟩
  rw [reachable_effects_used abi fixp_sin32 _ (Reachable.play drv 0 0 t hr (by decide) ht),
    started_count_zero _ hall]
  rfl

/-- C12: in every reachable engine where effect 0 is the only Started effect, Playing or
not, and the command of slot 0 has the disable bit `0x2` clear, `play(0, 0)` clears the
Started flag of effect 0 and lowers `effects_used` by one to 0, and the tick that follows,
at any time, transmits the command of slot 0 with byte 0 equal to `0x03`, the select bit
with the disable bit, and bytes 2 to 6 zero, and stores that command in the slot. -/
theorem stop_then_tick_disables_slot (abi : Abi) (fixp_sin32 : Int → Int)
    (drv : ftec_drv_data) (t now : Int) (hr : Reachable abi fixp_sin32 drv)
    (ht : is_ulong abi t)
    (hstarted : (drv.states 0).flags.started = true)
    (hothers : ∀ k, k ≠ 0 → (drv.states k).flags.started = false)
    (henabled : (drv.slots 0).current_cmd.b0 &&& 0x2 = 0) :
    ((ftecff_play_effect drv 0 0 t).states 0).flags.started = false ∧
    (ftecff_play_effect drv 0 0 t).effects_used = 0 ∧
    (ftecff_play_effect drv 0 0 t).effects_used = drv.effects_used - 1 ∧
    (0, { (drv.slots 0).current_cmd with
          b0 := 0x03, b2 := 0, b3 := 0, b4 := 0, b5 := 0, b6 := 0 }) ∈
      (ftecff_timer abi fixp_sin32 (ftecff_play_effect drv 0 0 t) now).2 ∧
    ((ftecff_timer abi fixp_sin32 (ftecff_play_effect drv 0 0 t) now).1.slots 0).current_cmd =
      { (drv.slots 0).current_cmd with
        b0 := 0x03, b2 := 0, b3 := 0, b4 := 0, b5 := 0, b6 := 0 } ∧
    (0x03 : Nat) &&& 0x2 = 0x2 := by
  obtain ⟨h1, h2⟩ := play_stop_only_effect abi fixp_sin32 drv t hr ht hothers
  have hslots := play_effect_slots drv 0 0 t
  have hinv := reachable_slot_inv abi fixp_sin32 drv hr 0
  have hne : (drv.slots 0).current_cmd.b0 ≠ ((0 : Fin 4).val <<< 4) ||| 0x3 := by
    intro he
    rw [he] at henabled
    revert henabled
    decide
  have h3 := timer_idle_slot abi fixp_sin32 (ftecff_play_effect drv 0 0 t) now 0 h2
    (by rw [hslots]; exact hinv) (by rw [hslots]; exact hne)
  rw [hslots] at h3
  refine ⟨h1, h2, ?_, h3.1, h3.2, by decide⟩
  unfold ftecff_play_effect
  simp [hstarted]

/-- Witness of C12: the engine after initialisation, the upload of a Constant effect of
level `0x4000`, `play(0, 1)` and one tick. -/
theorem stop_then_tick_disables_slot_witness :
    ((ftecff_play_effect (constant_playing_engine Abi.ilp32) 0 0 1).states 0).flags.started
      = false ∧
    (ftecff_play_effect (constant_playing_engine Abi.ilp32) 0 0 1).effects_used = 0 :=
  have h := stop_then_tick_disables_slot Abi.ilp32 fixp_sin32_peak
    (constant_playing_engine Abi.ilp32) 1 2
    (Reachable.tick _ 0
      (Reachable.play _ 0 1 0
        (Reachable.upload _ (constant_effect 0 0x4000 0x4000) 0 Reachable.init
          (by decide) (by decide))
        (by decide) (by decide))
      (by decide))
    (by decide) (by decide) (by decide) (by decide)
  ⟨h.1, h.2.1⟩

/-! ## Spring and Damper encoding -/

theorem clamp_u16_of_nonneg (x : Int) (h : 0 ≤ x) :
    CLAMP_VALUE_U16 x = (min x 0xffff).toNat := by
  unfold CLAMP_VALUE_U16 to_u16
  split_ifs with h1
  · rw [min_eq_right (by omega)]
    rfl
  · rw [min_eq_left (by omega)]
    congr 1
    omega

theorem scale_value_spec (x : Int) (bits : Nat) (h : 0 ≤ x) :
    SCALE_VALUE_U16 x bits = spec_scale_value x bits := by
  unfold SCALE_VALUE_U16 spec_scale_value
  rw [clamp_u16_of_nonneg x h]

theorem scale_coeff_spec (x : Int) (bits : Nat) (h : |x| < 2 ^ 30) :
    SCALE_COEFF x bits = spec_scale_coeff x bits := by
  have h1 := abs_lt.1 h
  have habs : to_s32 (abs_int x * 2) = 2 * |x| := by
    unfold abs_int to_s32
    rcases abs_cases x with ⟨he, _⟩ | ⟨he, _⟩ <;> rw [he] <;> split_ifs <;> omega
  unfold SCALE_COEFF spec_scale_coeff
  rw [habs]
  unfold SCALE_VALUE_U16
  rw [clamp_u16_of_nonneg _ (by positivity)]

theorem spec_scale_coeff_nibble (x : Int) : spec_scale_coeff x 4 ≤ 15 := by
  unfold spec_scale_coeff
  have h : (min (2 * |x|) 0xffff).toNat ≤ 0xffff := by
    have := min_le_right (2 * |x|) 0xffff
    omega
  rw [Nat.shiftRight_eq_div_pow]
  generalize (min (2 * |x|) 0xffff).toNat = n at h
  norm_num
  omega

theorem spec_scale_value_byte (x : Int) : spec_scale_value x 8 ≤ 255 := by
  unfold spec_scale_value
  have h : (min x 0xffff).toNat ≤ 0xffff := by
    have := min_le_right x 0xffff
    omega
  rw [Nat.shiftRight_eq_div_pow]
  generalize (min x 0xffff).toNat = n at h
  norm_num
  omega

theorem deadband_byte_spec (d : Int) :
    (SCALE_VALUE_U16 (to_u16 (to_s32 (d + 0x8000))) 11 >>> 3) % 256 = spec_deadband_byte d := by
  have hx : to_u16 (to_s32 (d + 0x8000)) = (d + 0x8000) % 65536 := by
    unfold to_u16 to_s32
    omega
  have h0 : 0 ≤ (d + 0x8000) % 65536 := Int.emod_nonneg _ (by decide)
  have h1 : (d + 0x8000) % 65536 < 65536 := Int.emod_lt_of_pos _ (by decide)
  unfold spec_deadband_byte SCALE_VALUE_U16
  rw [hx, clamp_u16_of_nonneg _ h0, min_eq_left (by omega)]
  generalize ((d + 0x8000) % 65536) = y at h0 h1
  have hn : y.toNat < 65536 := by omega
  generalize y.toNat = n at hn
  simp only [Nat.shiftRight_eq_div_pow]
  norm_num
  omega

theorem nibble_pack (a b : Nat) (ha : a ≤ 15) (hb : b ≤ 15) :
    ((a <<< 4) + b) % 256 = (a <<< 4) ||| b := by
  interval_cases a <;> interval_cases b <;> decide

theorem update_slot_enabled_cmd (slot : ftecff_slot) (parameters : ftecff_effect_parameters)
    (ht : slot.effect_type ≠ FF_CONSTANT) (hc : parameters.clip ≠ 0) :
    (ftecff_update_slot slot parameters).current_cmd =
      encode_parameters slot.effect_type parameters
        { slot.current_cmd with b0 := ((slot.id <<< 4) ||| 0x1) % 256,
                                b2 := 0, b3 := 0, b4 := 0, b5 := 0, b6 := 0 } := by
  rw [update_slot_cmd, if_neg]
  unfold slot_disabled
  rintro (⟨h, _⟩ | ⟨_, h⟩)
  · exact ht h
  · exact hc h

/-- C16 as stated fails: on the Spring slot of the initialised engine with clip `0xffff`
and `k1 = 0x40000000`, the product `abs(x) * 2` of `SCALE_COEFF` wraps in `int` to
`-0x80000000`, which `CLAMP_VALUE_U16` converts to 0, so the low nibble of byte 4 is 0
where `min(2 * |k1|, 0xffff) >> 12` is 15. -/
theorem update_slot_spring_counterexample :
    (coefficient_aggregate 0x40000000 0).clip ≠ 0 ∧
    (ftecff_update_slot (ftecff_init_slots.1.slots 1)
      (coefficient_aggregate 0x40000000 0)).current_cmd.b4 = 0 ∧
    (spec_scale_coeff 0 4 <<< 4) ||| spec_scale_coeff 0x40000000 4 = 15 := by
  decide

/-- C16, amended: for the Spring slot and every aggregate with `clip != 0`, `clip` an
`unsigned int` and both coefficients of absolute value below `2^30`, `ftecff_update_slot`
produces byte 2 = `(((d1 + 0x8000) mod 2^16) >> 5) >> 3`, byte 3 the same of `d2`,
byte 4 = `(scale_coeff(k2,4) << 4) | scale_coeff(k1,4)` with each nibble in `[0,15]`,
byte 5 = 0 and byte 6 = `scale_value(clip, 8)`. -/
theorem update_slot_spring (slot : ftecff_slot) (parameters : ftecff_effect_parameters)
    (ht : slot.effect_type = FF_SPRING) (hc : parameters.clip ≠ 0)
    (hclip : 0 ≤ parameters.clip) (hk1 : |parameters.k1| < 2 ^ 30)
    (hk2 : |parameters.k2| < 2 ^ 30) :
    (ftecff_update_slot slot parameters).current_cmd.b2 = spec_deadband_byte parameters.d1 ∧
    (ftecff_update_slot slot parameters).current_cmd.b3 = spec_deadband_byte parameters.d2 ∧
    (ftecff_update_slot slot parameters).current_cmd.b4 =
      (spec_scale_coeff parameters.k2 4 <<< 4) ||| spec_scale_coeff parameters.k1 4 ∧
    spec_scale_coeff parameters.k1 4 ≤ 15 ∧ spec_scale_coeff parameters.k2 4 ≤ 15 ∧
    (ftecff_update_slot slot parameters).current_cmd.b5 = 0 ∧
    (ftecff_update_slot slot parameters).current_cmd.b6 = spec_scale_value parameters.clip 8 := by
  have hn1 := spec_scale_coeff_nibble parameters.k1
  have hn2 := spec_scale_coeff_nibble parameters.k2
  have hb := spec_scale_value_byte parameters.clip
  rw [update_slot_enabled_cmd slot parameters (by rw [ht]; decide) hc, ht]
  unfold encode_parameters
  rw [if_neg (by decide), if_pos rfl]
  simp only []
  rw [deadband_byte_spec, deadband_byte_spec, scale_coeff_spec _ _ hk1,
    scale_coeff_spec _ _ hk2, scale_value_spec _ _ hclip, nibble_pack _ _ hn2 hn1,
    Nat.mod_eq_of_lt (by omega)]
  exact ⟨rfl, rfl, rfl, hn1, hn2, trivial, rfl⟩

/-- Witness of C16, amended: the Spring slot with `k1 = 0x2000`, `k2 = -0x1000` and clip
`0xffff`. -/
theorem update_slot_spring_witness :
    (ftecff_update_slot (ftecff_init_slots.1.slots 1)
      (coefficient_aggregate 0x2000 (-0x1000))).current_cmd.b4 =
      (spec_scale_coeff (-0x1000) 4 <<< 4) ||| spec_scale_coeff 0x2000 4 :=
  (update_slot_spring (ftecff_init_slots.1.slots 1) (coefficient_aggregate 0x2000 (-0x1000))
    (by decide) (by decide) (by decide) (by decide) (by decide)).2.2.1

/-- C17 as stated fails: on the Damper slot of the initialised engine with clip `0xffff`
and `k1 = 0x40000000`, the product `abs(x) * 2` of `SCALE_COEFF` wraps in `int` to
`-0x80000000`, which `CLAMP_VALUE_U16` converts to 0, so byte 2 is 0 where
`min(2 * |k1|, 0xffff) >> 12` is 15. -/
theorem update_slot_damper_counterexample :
    (coefficient_aggregate 0x40000000 0).clip ≠ 0 ∧
    (ftecff_update_slot (ftecff_init_slots.1.slots 2)
      (coefficient_aggregate 0x40000000 0)).current_cmd.b2 = 0 ∧
    spec_scale_coeff 0x40000000 4 = 15 := by
  decide

/-- C17, amended: for the Damper slot and every aggregate with `clip != 0`, `clip` an
`unsigned int` and both coefficients of absolute value below `2^30`, `ftecff_update_slot`
produces byte 2 = `scale_coeff(k1,4)`, byte 4 = `scale_coeff(k2,4)`,
byte 6 = `scale_value(clip,8)` and bytes 3 and 5 zero, with `scale_coeff(x,4)` in `[0,15]`
and `scale_value(x,8)` in `[0,255]`. -/
theorem update_slot_damper (slot : ftecff_slot) (parameters : ftecff_effect_parameters)
    (ht : slot.effect_type = FF_DAMPER) (hc : parameters.clip ≠ 0)
    (hclip : 0 ≤ parameters.clip) (hk1 : |parameters.k1| < 2 ^ 30)
    (hk2 : |parameters.k2| < 2 ^ 30) :
    (ftecff_update_slot slot parameters).current_cmd.b2 = spec_scale_coeff parameters.k1 4 ∧
    (ftecff_update_slot slot parameters).current_cmd.b3 = 0 ∧
    (ftecff_update_slot slot parameters).current_cmd.b4 = spec_scale_coeff parameters.k2 4 ∧
    (ftecff_update_slot slot parameters).current_cmd.b5 = 0 ∧
    (ftecff_update_slot slot parameters).current_cmd.b6 = spec_scale_value parameters.clip 8 ∧
    spec_scale_coeff parameters.k1 4 ≤ 15 ∧ spec_scale_coeff parameters.k2 4 ≤ 15 ∧
    spec_scale_value parameters.clip 8 ≤ 255 := by
  have hn1 := spec_scale_coeff_nibble parameters.k1
  have hn2 := spec_scale_coeff_nibble parameters.k2
  have hb := spec_scale_value_byte parameters.clip
  rw [update_slot_enabled_cmd slot parameters (by rw [ht]; decide) hc, ht]
  unfold encode_parameters
  rw [if_neg (by decide), if_neg (by decide), if_pos rfl]
  simp only []
  rw [scale_coeff_spec _ _ hk1, scale_coeff_spec _ _ hk2, scale_value_spec _ _ hclip,
    Nat.mod_eq_of_lt (show spec_scale_coeff parameters.k1 4 < 256 by omega),
    Nat.mod_eq_of_lt (show spec_scale_coeff parameters.k2 4 < 256 by omega),
    Nat.mod_eq_of_lt (show spec_scale_value parameters.clip 8 < 256 by omega)]
  exact ⟨rfl, trivial, rfl, trivial, rfl, hn1, hn2, hb⟩

/-- Witness of C17, amended: the Damper slot with `k1 = 0x2000`, `k2 = -0x1000` and clip
`0xffff`. -/
theorem update_slot_damper_witness :
    (ftecff_update_slot (ftecff_init_slots.1.slots 2)
      (coefficient_aggregate 0x2000 (-0x1000))).current_cmd.b2 = spec_scale_coeff 0x2000 4 :=
  (update_slot_damper (ftecff_init_slots.1.slots 2) (coefficient_aggregate 0x2000 (-0x1000))
    (by decide) (by decide) (by decide) (by decide) (by decide)).1

/-! ## Frame of `ftecff_update_state` -/

theorem update_state_allset_frame (abi : Abi) (fixp_sin32 : Int → Int)
    (s : ftecff_effect_state) :
    (update_state_allset abi fixp_sin32 s).start_at = s.start_at ∧
      (update_state_allset abi fixp_sin32 s).count = s.count ∧
      (update_state_allset abi fixp_sin32 s).phase = s.phase ∧
      (update_state_allset abi fixp_sin32 s).time_playing = s.time_playing ∧
      (update_state_allset abi fixp_sin32 s).play_at =
        (if s.flags.allset = true then s.play_at
         else to_ulong abi (s.start_at + s.effect.replay.delay)) ∧
      (update_state_allset abi fixp_sin32 s).updated_at =
        (if s.flags.allset = true ∨ s.flags.updating = true then s.updated_at
         else to_ulong abi (s.start_at + s.effect.replay.delay)) ∧
      (update_state_allset abi fixp_sin32 s).phase_adj =
        (if s.flags.allset = true ∨ s.effect.type ≠ FF_PERIODIC then s.phase_adj
         else to_u32 (Int.tdiv (s.effect.u.periodic.phase * 360) s.effect.u.periodic.period)) ∧
      (update_state_allset abi fixp_sin32 s).stop_at =
        (if s.flags.allset = true ∨ s.effect.replay.length = 0 then s.stop_at
         else to_ulong abi (to_ulong abi (s.start_at + s.effect.replay.delay) +
           s.effect.replay.length)) := by
  unfold update_state_allset
  simp only []
  by_cases ha : s.flags.allset = true
  · simp only [ha, if_true, true_or, and_self]
  · simp only [ha, if_false, false_or, Bool.false_eq_true]
    by_cases hu : s.flags.updating = true <;> by_cases ht : s.effect.type = FF_PERIODIC <;>
      by_cases hl : s.effect.replay.length = 0 <;>
      simp [ha, hu, ht, hl]

theorem update_state_updating_frame (abi : Abi) (fixp_sin32 : Int → Int)
    (s : ftecff_effect_state) :
    (update_state_updating abi fixp_sin32 s).start_at = s.start_at ∧
      (update_state_updating abi fixp_sin32 s).count = s.count ∧
      (update_state_updating abi fixp_sin32 s).phase = s.phase ∧
      (update_state_updating abi fixp_sin32 s).time_playing = s.time_playing ∧
      (update_state_updating abi fixp_sin32 s).updated_at = s.updated_at ∧
      (update_state_updating abi fixp_sin32 s).play_at =
        (if s.flags.updating = true then to_ulong abi (s.start_at + s.effect.replay.delay)
         else s.play_at) ∧
      (update_state_updating abi fixp_sin32 s).phase_adj =
        (if s.flags.updating = true ∧ s.effect.type = FF_PERIODIC then s.phase
         else s.phase_adj) ∧
      (update_state_updating abi fixp_sin32 s).stop_at =
        (if s.flags.updating = true ∧ s.effect.replay.length ≠ 0 then
          to_ulong abi (to_ulong abi (s.start_at + s.effect.replay.delay) +
            s.effect.replay.length)
         else s.stop_at) ∧
      (update_state_updating abi fixp_sin32 s).flags =
        (if s.flags.updating = true then { s.flags with updating := false, playing := false }
         else s.flags) := by
  unfold update_state_updating
  simp only []
  by_cases hu : s.flags.updating = true <;> by_cases ht : s.effect.type = FF_PERIODIC <;>
    by_cases hl : s.effect.replay.length = 0 <;>
    simp [hu, ht, hl]

theorem update_state_slope_frame (s : ftecff_effect_state) :
    (update_state_slope s).start_at = s.start_at ∧
      (update_state_slope s).count = s.count ∧
      (update_state_slope s).phase = s.phase ∧
      (update_state_slope s).time_playing = s.time_playing ∧
      (update_state_slope s).updated_at = s.updated_at ∧
      (update_state_slope s).phase_adj = s.phase_adj := by
  unfold update_state_slope
  simp only []
  split_ifs <;> exact ⟨rfl, rfl, rfl, rfl, rfl, rfl⟩

theorem update_state_playing_frame (abi : Abi) (s : ftecff_effect_state) (now : Int) :
    (update_state_playing abi s now).start_at = s.start_at ∧
      (update_state_playing abi s now).count = s.count ∧
      (update_state_playing abi s now).phase = s.phase ∧
      (update_state_playing abi s now).time_playing = s.time_playing ∧
      (update_state_playing abi s now).updated_at = s.updated_at ∧
      (update_state_playing abi s now).phase_adj = s.phase_adj ∧
      ((update_state_playing abi s now).flags.playing = true ↔
        (s.flags.playing = true ∨
          (0 ≤ to_long abi (now - s.play_at) ∧
            (s.effect.replay.length = 0 ∨ to_long abi (now - s.stop_at) < 0)))) := by
  unfold update_state_playing time_after_eq time_before
  split_ifs with h
  · refine ⟨rfl, rfl, rfl, rfl, rfl, rfl, ?_⟩
    simp only [Bool.and_eq_true, Bool.or_eq_true, decide_eq_true_eq] at h
    simp only [true_iff]
    exact Or.inr ⟨h.1.2, h.2⟩
  · refine ⟨rfl, rfl, rfl, rfl, rfl, rfl, ?_⟩
    simp only [Bool.and_eq_true, Bool.or_eq_true, decide_eq_true_eq, Bool.not_eq_true',
      not_and] at h
    constructor
    · exact fun hp => Or.inl hp
    · rintro (hp | ⟨h1, h2⟩)
      · exact hp
      · by_contra hn
        have hf : s.flags.playing = false := by simpa using hn
        exact h ⟨hf, h1⟩ h2

theorem update_state_time_frame (abi : Abi) (s : ftecff_effect_state) (now : Int) :
    (update_state_time abi s now).start_at = s.start_at ∧
      (update_state_time abi s now).count = s.count ∧
      (update_state_time abi s now).updated_at = s.updated_at ∧
      (update_state_time abi s now).phase_adj = s.phase_adj ∧
      (update_state_time abi s now).phase =
        (if s.flags.playing = true ∧ s.effect.type = FF_PERIODIC then
          to_u32 (to_u32 (to_ulong abi
              (to_ulong abi (now - s.updated_at) % s.effect.u.periodic.period * 360) /
            s.effect.u.periodic.period) + s.phase_adj % 360)
         else s.phase) ∧
      (update_state_time abi s now).time_playing =
        (if s.flags.playing = true then to_ulong abi (now - s.play_at)
         else s.time_playing) := by
  unfold update_state_time time_diff
  simp only []
  by_cases hp : s.flags.playing = true <;> by_cases ht : s.effect.type = FF_PERIODIC <;>
    simp [hp, ht]

theorem update_state_frame (abi : Abi) (fixp_sin32 : Int → Int) (s : ftecff_effect_state)
    (now : Int) :
    (ftecff_update_state abi fixp_sin32 s now).start_at = s.start_at ∧
    (ftecff_update_state abi fixp_sin32 s now).count = s.count ∧
    (ftecff_update_state abi fixp_sin32 s now).play_at =
      (if s.flags.allset = true ∧ s.flags.updating = false then s.play_at
       else to_ulong abi (s.start_at + s.effect.replay.delay)) ∧
    (ftecff_update_state abi fixp_sin32 s now).updated_at =
      (if s.flags.allset = true ∨ s.flags.updating = true then s.updated_at
       else to_ulong abi (s.start_at + s.effect.replay.delay)) ∧
    (ftecff_update_state abi fixp_sin32 s now).phase_adj =
      (if s.effect.type = FF_PERIODIC then
        (if s.flags.updating = true then s.phase
         else if s.flags.allset = true then s.phase_adj
         else to_u32 (Int.tdiv (s.effect.u.periodic.phase * 360) s.effect.u.periodic.period))
       else s.phase_adj) ∧
    (ftecff_update_state abi fixp_sin32 s now).stop_at =
      (if s.effect.replay.length ≠ 0 ∧ ¬ (s.flags.allset = true ∧ s.flags.updating = false) then
        to_ulong abi (to_ulong abi (s.start_at + s.effect.replay.delay) + s.effect.replay.length)
       else s.stop_at) ∧
    ((ftecff_update_state abi fixp_sin32 s now).flags.playing = true ↔
      ((s.flags.playing = true ∧ s.flags.updating = false) ∨
        (0 ≤ to_long abi (now - (ftecff_update_state abi fixp_sin32 s now).play_at) ∧
          (s.effect.replay.length = 0 ∨
            to_long abi (now - (ftecff_update_state abi fixp_sin32 s now).stop_at) < 0)))) ∧
    (ftecff_update_state abi fixp_sin32 s now).phase =
      (if (ftecff_update_state abi fixp_sin32 s now).flags.playing = true ∧
          s.effect.type = FF_PERIODIC then
        to_u32 (to_u32 (to_ulong abi
            (to_ulong abi (now - (ftecff_update_state abi fixp_sin32 s now).updated_at) %
              s.effect.u.periodic.period * 360) / s.effect.u.periodic.period) +
          (ftecff_update_state abi fixp_sin32 s now).phase_adj % 360)
       else s.phase) ∧
    (ftecff_update_state abi fixp_sin32 s now).time_playing =
      (if (ftecff_update_state abi fixp_sin32 s now).flags.playing = true then
        to_ulong abi (now - (ftecff_update_state abi fixp_sin32 s now).play_at)
       else s.time_playing) := by
  unfold ftecff_update_state
  obtain ⟨a1, a2, -, -, -⟩ := update_state_allset_spec abi fixp_sin32 s
  obtain ⟨b1, b2, b3, b4, b5, b6, b7, b8⟩ := update_state_allset_frame abi fixp_sin32 s
  obtain ⟨u1, -, -⟩ := update_state_updating_spec abi fixp_sin32
    (update_state_allset abi fixp_sin32 s)
  obtain ⟨v1, v2, v3, v4, v5, v6, v7, v8, v9⟩ := update_state_updating_frame abi fixp_sin32
    (update_state_allset abi fixp_sin32 s)
  obtain ⟨l1, l2, l3, l4, -, -⟩ := update_state_slope_spec
    (update_state_updating abi fixp_sin32 (update_state_allset abi fixp_sin32 s))
  obtain ⟨m1, m2, m3, m4, m5, m6⟩ := update_state_slope_frame
    (update_state_updating abi fixp_sin32 (update_state_allset abi fixp_sin32 s))
  obtain ⟨p1, p2, p3, -, -, -, -, -, -⟩ := update_state_playing_spec abi
    (update_state_slope
      (update_state_updating abi fixp_sin32 (update_state_allset abi fixp_sin32 s))) now
  obtain ⟨q1, q2, q3, q4, q5, q6, q7⟩ := update_state_playing_frame abi
    (update_state_slope
      (update_state_updating abi fixp_sin32 (update_state_allset abi fixp_sin32 s))) now
  obtain ⟨t1, t2, t3, t4, -, -, -⟩ := update_state_time_spec abi
    (update_state_playing abi (update_state_slope
      (update_state_updating abi fixp_sin32 (update_state_allset abi fixp_sin32 s))) now) now
  obtain ⟨w1, w2, w3, w4, w5, w6⟩ := update_state_time_frame abi
    (update_state_playing abi (update_state_slope
      (update_state_updating abi fixp_sin32 (update_state_allset abi fixp_sin32 s))) now) now
  generalize update_state_allset abi fixp_sin32 s = s1 at *
  generalize update_state_updating abi fixp_sin32 s1 = s2 at *
  generalize update_state_slope s2 = s3 at *
  generalize update_state_playing abi s3 now = s4 at *
  generalize update_state_time abi s4 now = r at *
  have e4 : s4.effect = s.effect := by rw [p1, l1, u1, a1]
  have e3 : s3.effect = s.effect := by rw [l1, u1, a1]
  have f1u : s1.flags.updating = s.flags.updating := by rw [a2]
  have f1p : s1.flags.playing = s.flags.playing := by rw [a2]
  have hplay : r.play_at = (if s.flags.allset = true ∧ s.flags.updating = false then s.play_at
       else to_ulong abi (s.start_at + s.effect.replay.delay)) := by
    rw [t3, p2, l3, v6, f1u, b1, a1, b5]
    cases s.flags.allset <;> cases s.flags.updating <;> simp
  have hupd : r.updated_at = (if s.flags.allset = true ∨ s.flags.updating = true then
      s.updated_at else to_ulong abi (s.start_at + s.effect.replay.delay)) := by
    rw [w3, q5, m5, v5, b6]
  have hadj : r.phase_adj = (if s.effect.type = FF_PERIODIC then
        (if s.flags.updating = true then s.phase
         else if s.flags.allset = true then s.phase_adj
         else to_u32 (Int.tdiv (s.effect.u.periodic.phase * 360) s.effect.u.periodic.period))
       else s.phase_adj) := by
    rw [w4, q6, m6, v7, f1u, a1, b3, b7]
    by_cases ht : s.effect.type = FF_PERIODIC <;> cases s.flags.allset <;>
      cases s.flags.updating <;> simp [ht]
  have hstop : r.stop_at = (if s.effect.replay.length ≠ 0 ∧
        ¬ (s.flags.allset = true ∧ s.flags.updating = false) then
        to_ulong abi (to_ulong abi (s.start_at + s.effect.replay.delay) + s.effect.replay.length)
       else s.stop_at) := by
    rw [t4, p3, l4, v8, f1u, a1, b1, b8]
    by_cases hl : s.effect.replay.length = 0 <;> cases s.flags.allset <;>
      cases s.flags.updating <;> simp [hl]
  have h3p : s3.flags.playing = true ↔ (s.flags.playing = true ∧ s.flags.updating = false) := by
    rw [l2, v9, f1u]
    cases hu : s.flags.updating
    · simp [f1p]
    · simp
  have hpl : r.flags.playing = true ↔
      ((s.flags.playing = true ∧ s.flags.updating = false) ∨
        (0 ≤ to_long abi (now - r.play_at) ∧
          (s.effect.replay.length = 0 ∨ to_long abi (now - r.stop_at) < 0))) := by
    rw [t2, q7, h3p, e3, t3, p2, t4, p3]
  refine ⟨?_, ?_, hplay, hupd, hadj, hstop, hpl, ?_, ?_⟩
  · rw [w1, q1, m1, v1, b1]
  · rw [w2, q2, m2, v2, b2]
  · rw [w5, e4, q3, m3, v3, b3, ← t2, ← w3, ← w4]
  · rw [w6, ← t2, ← t3, q4, m4, v4, b4]

/-! ## Phase of a Periodic effect -/

/-- C15 as stated fails for `phase_adj`.  A sine effect in the range of its C types, of
period 1000 ms and phase 2000, played at time 0 and recomputed at 750 ms, has
`phase_adj == 2000 * 360 / 1000 == 720`: the value is stored unreduced and reduced modulo
360 only where `phase` is computed from it. -/
theorem update_state_phase_adj_counterexample :
    (periodic_effect FF_SINE 1000 2000).wf ∧
    (ftecff_update_state Abi.ilp32 fixp_sin32_peak
      ((started_engine (periodic_effect FF_SINE 1000 2000)).states 0) 750).phase_adj = 720 ∧
    (ftecff_update_state Abi.lp64 fixp_sin32_peak
      ((started_engine (periodic_effect FF_SINE 1000 2000)).states 0) 750).phase_adj = 720 ∧
    ((ftecff_timer Abi.ilp32 fixp_sin32_peak
      (started_engine (periodic_effect FF_SINE 1000 2000)) 750).1.states 0).phase_adj = 720 ∧
    ((ftecff_timer Abi.lp64 fixp_sin32_peak
      (started_engine (periodic_effect FF_SINE 1000 2000)) 750).1.states 0).phase_adj = 720 ∧
    ¬ ((ftecff_timer Abi.ilp32 fixp_sin32_peak
      (started_engine (periodic_effect FF_SINE 1000 2000)) 750).1.states 0).phase_adj < 360 := by
  decide

/-- The sum of `state->phase += state->phase_adj % 360` is not reduced modulo 360.  A square
effect of period 1000 ms, phase 500 and magnitude 1000, played at time 0, has `phase` 180,
270, 360 and 450 at the ticks at 0, 250, 500 and 750 ms, where the angle is 180, 270, 0 and
90 degrees.  The Square branch compares `phase` with 180, so the level is -1000 at each of
these ticks, where the angles 0 and 90 call for 1000, as the same effect with phase 0 shows
at the ticks at 0 and 250 ms. -/
theorem update_state_phase_sum_unreduced :
    [0, 250, 500, 750].map (fun t => ((ftecff_timer Abi.ilp32 fixp_sin32_peak
      (started_engine (periodic_effect FF_SQUARE 1000 500)) t).1.states 0).phase) =
        [180, 270, 360, 450] ∧
    [0, 250, 500, 750].map (fun t => ((ftecff_timer Abi.lp64 fixp_sin32_peak
      (started_engine (periodic_effect FF_SQUARE 1000 500)) t).1.states 0).phase) =
        [180, 270, 360, 450] ∧
    [0, 250, 500, 750].map (fun t => ((timer_aggregate Abi.ilp32 fixp_sin32_peak
      (started_engine (periodic_effect FF_SQUARE 1000 500)) t).parameters 0).level) =
        [-1000, -1000, -1000, -1000] ∧
    [0, 250].map (fun t => ((timer_aggregate Abi.ilp32 fixp_sin32_peak
      (started_engine (periodic_effect FF_SQUARE 1000 0)) t).parameters 0).level) =
        [1000, 1000] ∧
    waveform_term fixp_sin32_peak FF_SQUARE 450 1000 = -1000 ∧
    waveform_term fixp_sin32_peak FF_SQUARE (450 % 360) 1000 = 1000 := by
  decide

theorem phase_elapsed_range (abi : Abi) (x period : Int) (h0 : 0 < period)
    (h1 : period < 65536) :
    to_u32 (to_ulong abi (to_ulong abi x % period * 360) / period) =
        to_ulong abi x % period * 360 / period ∧
      0 ≤ to_ulong abi x % period * 360 / period ∧
      to_ulong abi x % period * 360 / period < 360 := by
  have hm0 : 0 ≤ to_ulong abi x % period := Int.emod_nonneg _ (by omega)
  have hm1 : to_ulong abi x % period < period := Int.emod_lt_of_pos _ h0
  generalize to_ulong abi x % period = m at hm0 hm1
  have hw : to_ulong abi (m * 360) = m * 360 := by
    unfold to_ulong
    cases abi <;> simp only [Abi.ulong_modulus] <;> omega
  rw [hw]
  have hd0 : 0 ≤ m * 360 / period := Int.ediv_nonneg (by omega) (by omega)
  have hd1 : m * 360 / period < 360 := by
    apply Int.ediv_lt_of_lt_mul h0
    nlinarith
  refine ⟨?_, hd0, hd1⟩
  unfold to_u32
  omega

/-- C15, amended.  For a Periodic effect in the range of its C types with a non-zero period
and every tick, after `ftecff_update_state`: `phase_adj` is the previous `phase` when the
entry was Updating, is left as it was when the entry was AllSet and not Updating, and is
`effect.phase * 360 / period` otherwise, which lies in `[0, 360)` when
`effect.phase < period`.  The elapsed angle `((now - updated_at) mod period) * 360 / period`
lies in `[0, 360)`.  When the entry is left Playing and the elapsed angle plus
`phase_adj mod 360` is below 360, in particular when `phase_adj mod 360 == 0`, `phase` is
the angle `(elapsed angle + phase_adj) mod 360` and lies in `[0, 360)`.  When the entry is
not left Playing, `phase` is left as it was. -/
theorem update_state_phase_angle (abi : Abi) (fixp_sin32 : Int → Int)
    (s : ftecff_effect_state) (now : Int)
    (ht : s.effect.type = FF_PERIODIC) (hwf : s.effect.wf)
    (hperiod : s.effect.u.periodic.period ≠ 0) :
    (s.flags.updating = true →
      (ftecff_update_state abi fixp_sin32 s now).phase_adj = s.phase) ∧
    (s.flags.updating = false → s.flags.allset = true →
      (ftecff_update_state abi fixp_sin32 s now).phase_adj = s.phase_adj) ∧
    (s.flags.updating = false → s.flags.allset = false →
      (ftecff_update_state abi fixp_sin32 s now).phase_adj =
        s.effect.u.periodic.phase * 360 / s.effect.u.periodic.period ∧
      (s.effect.u.periodic.phase < s.effect.u.periodic.period →
        0 ≤ (ftecff_update_state abi fixp_sin32 s now).phase_adj ∧
        (ftecff_update_state abi fixp_sin32 s now).phase_adj < 360)) ∧
    (0 ≤ to_ulong abi (now - (ftecff_update_state abi fixp_sin32 s now).updated_at) %
            s.effect.u.periodic.period * 360 / s.effect.u.periodic.period ∧
      to_ulong abi (now - (ftecff_update_state abi fixp_sin32 s now).updated_at) %
            s.effect.u.periodic.period * 360 / s.effect.u.periodic.period < 360) ∧
    ((ftecff_update_state abi fixp_sin32 s now).flags.playing = true →
      to_ulong abi (now - (ftecff_update_state abi fixp_sin32 s now).updated_at) %
            s.effect.u.periodic.period * 360 / s.effect.u.periodic.period +
          (ftecff_update_state abi fixp_sin32 s now).phase_adj % 360 < 360 →
      (ftecff_update_state abi fixp_sin32 s now).phase =
        (to_ulong abi (now - (ftecff_update_state abi fixp_sin32 s now).updated_at) %
            s.effect.u.periodic.period * 360 / s.effect.u.periodic.period +
          (ftecff_update_state abi fixp_sin32 s now).phase_adj) % 360 ∧
      0 ≤ (ftecff_update_state abi fixp_sin32 s now).phase ∧
      (ftecff_update_state abi fixp_sin32 s now).phase < 360) ∧
    ((ftecff_update_state abi fixp_sin32 s now).flags.playing = true →
      (ftecff_update_state abi fixp_sin32 s now).phase_adj % 360 = 0 →
      (ftecff_update_state abi fixp_sin32 s now).phase =
        to_ulong abi (now - (ftecff_update_state abi fixp_sin32 s now).updated_at) %
            s.effect.u.periodic.period * 360 / s.effect.u.periodic.period ∧
      0 ≤ (ftecff_update_state abi fixp_sin32 s now).phase ∧
      (ftecff_update_state abi fixp_sin32 s now).phase < 360) ∧
    ((ftecff_update_state abi fixp_sin32 s now).flags.playing = false →
      (ftecff_update_state abi fixp_sin32 s now).phase = s.phase) := by
  obtain ⟨-, -, -, -, hadj, -, -, hph, -⟩ := update_state_frame abi fixp_sin32 s now
  obtain ⟨-, -, -, -, -, -, -, -, -, -, hper, -, -, hphase, -⟩ := hwf
  unfold is_u16 at hper hphase
  have hp0 : 0 < s.effect.u.periodic.period := by omega
  rw [if_pos ht] at hadj
  obtain ⟨e1, e2, e3⟩ := phase_elapsed_range abi
    (now - (ftecff_update_state abi fixp_sin32 s now).updated_at)
    s.effect.u.periodic.period hp0 hper.2
  have hm0 : 0 ≤ (ftecff_update_state abi fixp_sin32 s now).phase_adj % 360 :=
    Int.emod_nonneg _ (by decide)
  have hv : (ftecff_update_state abi fixp_sin32 s now).flags.playing = true →
      (ftecff_update_state abi fixp_sin32 s now).phase =
        to_ulong abi (now - (ftecff_update_state abi fixp_sin32 s now).updated_at) %
            s.effect.u.periodic.period * 360 / s.effect.u.periodic.period +
          (ftecff_update_state abi fixp_sin32 s now).phase_adj % 360 := by
    intro hp
    have hm1 : (ftecff_update_state abi fixp_sin32 s now).phase_adj % 360 < 360 :=
      Int.emod_lt_of_pos _ (by decide)
    rw [if_pos ⟨hp, ht⟩, e1] at hph
    rw [hph]
    unfold to_u32
    omega
  refine ⟨fun hu => ?_, fun hu ha => ?_, fun hu ha => ?_, ⟨e2, e3⟩, fun hp hlt => ?_,
    fun hp hz => ?_, fun hp => ?_⟩
  · rw [hadj, if_pos hu]
  · rw [hadj, if_neg (by rw [hu]; decide), if_pos ha]
  · have hq0 : 0 ≤ s.effect.u.periodic.phase * 360 / s.effect.u.periodic.period :=
      Int.ediv_nonneg (by omega) (by omega)
    have hq1 : s.effect.u.periodic.phase * 360 / s.effect.u.periodic.period < 65536 * 360 := by
      apply Int.ediv_lt_of_lt_mul hp0
      nlinarith
    have hw : (ftecff_update_state abi fixp_sin32 s now).phase_adj =
        s.effect.u.periodic.phase * 360 / s.effect.u.periodic.period := by
      rw [hadj, if_neg (by rw [hu]; decide), if_neg (by rw [ha]; decide),
        Int.tdiv_eq_ediv (by omega) (by omega)]
      unfold to_u32
      omega
    refine ⟨hw, fun hlt => ?_⟩
    rw [hw]
    refine ⟨hq0, ?_⟩
    apply Int.ediv_lt_of_lt_mul hp0
    nlinarith
  · have h := hv hp
    generalize (ftecff_update_state abi fixp_sin32 s now).phase = p at h ⊢
    generalize (ftecff_update_state abi fixp_sin32 s now).phase_adj = a at h hlt hm0 ⊢
    generalize to_ulong abi (now - (ftecff_update_state abi fixp_sin32 s now).updated_at) %
      s.effect.u.periodic.period * 360 / s.effect.u.periodic.period = e at h hlt e2 e3 ⊢
    omega
  · have h := hv hp
    rw [hz] at h
    generalize (ftecff_update_state abi fixp_sin32 s now).phase = p at h ⊢
    generalize to_ulong abi (now - (ftecff_update_state abi fixp_sin32 s now).updated_at) %
      s.effect.u.periodic.period * 360 / s.effect.u.periodic.period = e at h e2 e3 ⊢
    omega
  · rw [hph, if_neg]
    rintro ⟨h, -⟩
    rw [hp] at h
    exact absurd h (by decide)

/-- Witness of C15, amended: the sine effect of period 1000 and phase 100, played at time 0
and recomputed at 750 ms, is Playing with elapsed angle 270 and `phase_adj == 36`, and its
`phase` lies below 360. -/
theorem update_state_phase_angle_witness :
    (ftecff_update_state Abi.ilp32 fixp_sin32_peak
      ((started_engine (periodic_effect FF_SINE 1000 100)).states 0) 750).phase_adj = 36 ∧
    (ftecff_update_state Abi.ilp32 fixp_sin32_peak
      ((started_engine (periodic_effect FF_SINE 1000 100)).states 0) 750).phase < 360 :=
  ⟨by decide, ((update_state_phase_angle Abi.ilp32 fixp_sin32_peak
    ((started_engine (periodic_effect FF_SINE 1000 100)).states 0) 750
    (by decide) (by decide) (by decide)).2.2.2.2.1 (by decide) (by decide)).2.2⟩

/-! ## The first tick of a Constant effect -/

theorem timer_expire_idle (abi : Abi) (now : Int) (s : ftecff_effect_state)
    (h : ¬ (s.flags.allset = true ∧ s.effect.replay.length ≠ 0 ∧
      0 ≤ to_long abi (now - s.stop_at))) :
    timer_expire abi now s = (s, false) := by
  unfold timer_expire time_after_eq
  simp only []
  rw [if_neg]
  intro hc
  simp only [Bool.and_eq_true, decide_eq_true_eq] at hc
  exact h ⟨hc.1.1, hc.1.2, hc.2⟩

theorem elapsed_play_at (abi : Abi) (now t delay : Int) (hd : is_u16 delay)
    (hx : 0 ≤ to_long abi (now - t)) :
    to_long abi (now - to_ulong abi (t + delay)) = to_long abi (now - t) - delay := by
  unfold is_u16 at hd
  unfold to_long at hx
  unfold to_long to_ulong
  cases abi <;> simp only [Abi.long_half, Abi.ulong_modulus] at hx ⊢ <;> omega

theorem elapsed_stop_at (abi : Abi) (now t delay length : Int) (hd : is_u16 delay)
    (hl : is_u16 length) (hx : 0 ≤ to_long abi (now - t)) :
    to_long abi (now - to_ulong abi (to_ulong abi (t + delay) + length)) =
      to_long abi (now - t) - delay - length := by
  unfold is_u16 at hd hl
  unfold to_long at hx
  unfold to_long to_ulong
  cases abi <;> simp only [Abi.long_half, Abi.ulong_modulus] at hx ⊢ <;> omega

/-- The entry that a tick leaves for an effect that was played at `t` and has not begun
to play, `now` being at or after `t` and, for a bounded effect, before the end of its
replay window: nothing expires, and the entry is Playing exactly when the delay has
elapsed. -/
theorem timer_entry_armed (abi : Abi) (fixp_sin32 : Int → Int) (now t : Int)
    (s : ftecff_effect_state) (hinv : entry_inv abi fixp_sin32 s)
    (hs : s.flags.started = true) (hp : s.flags.playing = false)
    (hu : s.flags.updating = false) (hst : s.start_at = t)
    (hpa : s.flags.allset = true → s.play_at = to_ulong abi (t + s.effect.replay.delay))
    (hx : 0 ≤ to_long abi (now - t))
    (hwin : s.effect.replay.length = 0 ∨
      to_long abi (now - t) < s.effect.replay.delay + s.effect.replay.length) :
    (timer_entry abi fixp_sin32 now s).effect = s.effect ∧
    (timer_entry abi fixp_sin32 now s).flags.started = true ∧
    (timer_entry abi fixp_sin32 now s).flags.updating = false ∧
    (timer_entry abi fixp_sin32 now s).flags.allset = true ∧
    (timer_entry abi fixp_sin32 now s).start_at = t ∧
    (timer_entry abi fixp_sin32 now s).play_at = to_ulong abi (t + s.effect.replay.delay) ∧
    ((timer_entry abi fixp_sin32 now s).flags.playing = true ↔
      s.effect.replay.delay ≤ to_long abi (now - t)) := by
  obtain ⟨k1, k2, k3, k4, k5⟩ := hinv
  obtain ⟨-, -, hlen, hdelay, -⟩ := k1
  have hstop : s.flags.allset = true → s.effect.replay.length ≠ 0 →
      s.stop_at = to_ulong abi (to_ulong abi (t + s.effect.replay.delay) +
        s.effect.replay.length) := by
    intro ha hl
    rw [k5 ha hu hl, hpa ha]
  have hidle : timer_expire abi now s = (s, false) := by
    apply timer_expire_idle
    rintro ⟨ha, hl, hge⟩
    rw [hstop ha hl, elapsed_stop_at abi now t _ _ hdelay hlen hx] at hge
    rcases hwin with h | h
    · exact hl h
    · omega
  have hentry : timer_entry abi fixp_sin32 now s = ftecff_update_state abi fixp_sin32 s now := by
    unfold timer_entry
    rw [hidle]
    simp
  rw [hentry]
  obtain ⟨y1, y2, y3, y4, -, -, -, -, -⟩ := update_state_spec abi fixp_sin32 s now
    k5 k4 (fun h => by rw [hp] at h; exact absurd h (by decide))
  obtain ⟨f1, -, f3, -, -, f6, f7, -, -⟩ := update_state_frame abi fixp_sin32 s now
  have hplay : (ftecff_update_state abi fixp_sin32 s now).play_at =
      to_ulong abi (t + s.effect.replay.delay) := by
    rw [f3]
    split_ifs with h
    · exact hpa h.1
    · rw [hst]
  have hstop2 : s.effect.replay.length ≠ 0 →
      (ftecff_update_state abi fixp_sin32 s now).stop_at =
        to_ulong abi (to_ulong abi (t + s.effect.replay.delay) + s.effect.replay.length) := by
    intro hl
    rw [f6]
    split_ifs with h
    · rw [hst]
    · have ha : s.flags.allset = true := by
        by_contra hn
        exact h ⟨hl, fun hc => hn hc.1⟩
      exact hstop ha hl
  refine ⟨y1, by rw [y2, hs], y4, y3, by rw [f1, hst], hplay, ?_⟩
  rw [f7, hplay, elapsed_play_at abi now t _ hdelay hx]
  constructor
  · rintro (⟨h, -⟩ | ⟨h, -⟩)
    · rw [hp] at h
      exact absurd h (by decide)
    · omega
  · intro hd
    refine Or.inr ⟨by omega, ?_⟩
    by_cases hl : s.effect.replay.length = 0
    · exact Or.inl hl
    · right
      rw [hstop2 hl, elapsed_stop_at abi now t _ _ hdelay hlen hx]
      rcases hwin with h | h
      · exact absurd h hl
      · omega

theorem timer_scale_level (abi : Abi) (parameters : Fin 4 → ftecff_effect_parameters) :
    (timer_scale abi parameters 0).level =
      to_s32 (long_times_gain abi (parameters 0).level 0xffff) := by
  unfold timer_scale
  simp

theorem update_slot_constant_idle (parameters : ftecff_effect_parameters)
    (h : parameters.level = 0) :
    ftecff_update_slot (ftecff_init_slots.1.slots 0) parameters =
      ftecff_init_slots.1.slots 0 := by
  have hinit : ftecff_init_slots.1.slots 0 = ⟨0, ⟨0x03, 0x08, 0, 0, 0, 0, 0⟩, false, FF_CONSTANT⟩ := by
    decide
  rw [hinit]
  unfold ftecff_update_slot
  simp [h]

theorem update_slot_constant_quarter (parameters : ftecff_effect_parameters)
    (h : parameters.level = 0x4000) :
    (ftecff_update_slot (ftecff_init_slots.1.slots 0) parameters).current_cmd =
        ⟨0x01, 0x08, 0xC0, 0, 0, 0, 0⟩ ∧
      (ftecff_update_slot (ftecff_init_slots.1.slots 0) parameters).is_updated = true := by
  have hinit : ftecff_init_slots.1.slots 0 = ⟨0, ⟨0x03, 0x08, 0, 0, 0, 0, 0⟩, false, FF_CONSTANT⟩ := by
    decide
  have hb : TRANSLATE_FORCE 0x4000 % 256 = 0xC0 := by decide
  rw [hinit]
  unfold ftecff_update_slot encode_parameters
  simp [h, hb]

theorem armed_aggregate_level (abi : Abi) (fixp_sin32 : Int → Int) (effect : ff_effect)
    (t : Int) (drv : ftec_drv_data) (now : Int) (h : armed abi fixp_sin32 effect t drv) :
    ((timer_aggregate abi fixp_sin32 drv now).parameters 0).level =
      level_contribution abi fixp_sin32 now (drv.states 0) := by
  obtain ⟨hr, -, hothers, -⟩ := h
  rw [timer_aggregate_level abi fixp_sin32 drv now hr]
  apply Finset.sum_eq_single 0
  · intro k _ hk
    unfold level_contribution
    rw [if_neg]
    rintro ⟨hs, -⟩
    rw [hothers k hk] at hs
    exact absurd hs (by decide)
  · intro h0
    exact absurd (Finset.mem_univ 0) h0

theorem armed_start (abi : Abi) (fixp_sin32 : Int → Int) (effect : ff_effect) (t0 t1 : Int)
    (hwf : effect.wf) (hid : effect.id = 0) (htype : effect.type ≠ FF_PERIODIC)
    (ht0 : is_ulong abi t0) (ht1 : is_ulong abi t1) :
    armed abi fixp_sin32 effect t1
      (ftecff_play_effect (ftecff_upload_effect ftecff_init_slots.1 effect t0).2 0 1 t1) := by
  have hr : Reachable abi fixp_sin32
      (ftecff_play_effect (ftecff_upload_effect ftecff_init_slots.1 effect t0).2 0 1 t1) :=
    Reachable.play _ 0 1 t1 (Reachable.upload _ effect t0 Reachable.init hwf ht0) (by decide) ht1
  have hup : (ftecff_upload_effect ftecff_init_slots.1 effect t0).2 =
      { ftecff_init_slots.1 with
        states := Function.update ftecff_init_slots.1.states 0
          { ftecff_effect_state.zero with effect := effect } } := by
    unfold ftecff_upload_effect
    simp only []
    rw [if_neg (fun h => htype h.1), hid, if_neg (fun h => by
      have h1 := h.1
      revert h1
      decide)]
    simp only []
    rw [if_neg (by decide)]
    rfl
  refine ⟨hr, ?_, ?_⟩
  · rw [play_effect_slots, (upload_effect_slots _ _ _).1]
  · rw [hup]
    unfold ftecff_play_effect
    simp only []
    rw [if_pos (by decide)]
    simp only [Function.update_same]
    refine ⟨fun k hk => ?_, ?_⟩
    · simp only [Function.update_noteq hk]
      rfl
    · simp [ftecff_effect_state.zero, effect_flags.zero, to_u32]

theorem long_times_gain_zero (abi : Abi) : to_s32 (long_times_gain abi 0 0xffff) = 0 := by
  cases abi <;> decide

theorem long_times_gain_quarter (abi : Abi) :
    to_s32 (long_times_gain abi 0x4000 0xffff) = 0x4000 := by
  cases abi <;> decide

theorem armed_tick_early (abi : Abi) (fixp_sin32 : Int → Int) (effect : ff_effect)
    (t : Int) (drv : ftec_drv_data) (now : Int) (h : armed abi fixp_sin32 effect t drv)
    (hnow : is_ulong abi now) (hx : 0 ≤ to_long abi (now - t))
    (hearly : to_long abi (now - t) < effect.replay.delay) :
    armed abi fixp_sin32 effect t (ftecff_timer abi fixp_sin32 drv now).1 := by
  have hlevel := armed_aggregate_level abi fixp_sin32 effect t drv now h
  obtain ⟨hr, hslot, hothers, heff, hs, hp, hu, hst, hpa⟩ := h
  have hinv := reachable_entry_inv abi fixp_sin32 drv hr 0
  have hlen : 0 ≤ effect.replay.length := by
    have := hinv.1.2.2.1
    rw [heff] at this
    exact this.1
  obtain ⟨e1, e2, e3, e4, e5, e6, e7⟩ := timer_entry_armed abi fixp_sin32 now t (drv.states 0)
    hinv hs hp hu hst (by rw [heff]; exact hpa) hx
    (by rw [heff]; by_cases hl : effect.replay.length = 0
        · exact Or.inl hl
        · exact Or.inr (by omega))
  rw [heff] at e1 e6 e7
  have hnp : (timer_entry abi fixp_sin32 now (drv.states 0)).flags.playing = false := by
    by_contra hc
    have : (timer_entry abi fixp_sin32 now (drv.states 0)).flags.playing = true := by
      simpa using hc
    have := e7.1 this
    omega
  have hzero : ((timer_aggregate abi fixp_sin32 drv now).parameters 0).level = 0 := by
    rw [hlevel]
    unfold level_contribution
    rw [if_neg]
    rintro ⟨-, hc⟩
    rw [hnp] at hc
    exact absurd hc (by decide)
  refine ⟨Reachable.tick drv now hr hnow, ?_, fun k hk => ?_, ?_⟩
  · rw [(timer_slots_result abi fixp_sin32 drv now 0).1, hslot, update_slot_constant_idle]
    · decide
    · rw [timer_scale_level, hzero]
      exact long_times_gain_zero abi
  · rw [timer_states_eq_entry abi fixp_sin32 drv now hr k, if_neg]
    · exact hothers k hk
    · rw [hothers k hk]
      decide
  · rw [timer_states_eq_entry abi fixp_sin32 drv now hr 0, if_pos hs]
    exact ⟨e1, e2, hnp, e3, e5, fun _ => e6⟩

theorem armed_run_ticks (abi : Abi) (fixp_sin32 : Int → Int) (effect : ff_effect)
    (t : Int) (early : List Int) (drv : ftec_drv_data)
    (h : armed abi fixp_sin32 effect t drv)
    (hearly : ∀ x, x ∈ early →
      is_ulong abi x ∧ 0 ≤ to_long abi (x - t) ∧ to_long abi (x - t) < effect.replay.delay) :
    armed abi fixp_sin32 effect t (run_ticks abi fixp_sin32 drv early) := by
  induction early generalizing drv with
  | nil => exact h
  | cons x rest ih =>
    unfold run_ticks
    obtain ⟨h1, h2, h3⟩ := hearly x (List.mem_cons_self _ _)
    exact ih _ (armed_tick_early abi fixp_sin32 effect t drv x h h1 h2 h3)
      (fun y hy => hearly y (List.mem_cons_of_mem _ hy))

theorem armed_tick_due (abi : Abi) (fixp_sin32 : Int → Int) (effect : ff_effect)
    (t : Int) (drv : ftec_drv_data) (now : Int) (h : armed abi fixp_sin32 effect t drv)
    (htype : effect.type = FF_CONSTANT) (hlevel : effect.u.constant.level = 0x4000)
    (henv : effect.u.constant.envelope.attack_length = 0 ∧
      effect.u.constant.envelope.fade_length = 0)
    (hgain : direction_gain_of fixp_sin32 effect = 0x7fff)
    (hdue : effect.replay.delay ≤ to_long abi (now - t))
    (hwin : effect.replay.length = 0 ∨
      to_long abi (now - t) < effect.replay.delay + effect.replay.length) :
    ((ftecff_timer abi fixp_sin32 drv now).1.states 0).flags.playing = true ∧
    (0, ⟨0x01, 0x08, 0xC0, 0, 0, 0, 0⟩) ∈ (ftecff_timer abi fixp_sin32 drv now).2 ∧
    ((ftecff_timer abi fixp_sin32 drv now).1.slots 0).current_cmd =
      ⟨0x01, 0x08, 0xC0, 0, 0, 0, 0⟩ := by
  have hagg := armed_aggregate_level abi fixp_sin32 effect t drv now h
  obtain ⟨hr, hslot, hothers, heff, hs, hp, hu, hst, hpa⟩ := h
  have hinv := reachable_entry_inv abi fixp_sin32 drv hr 0
  have hdelay : 0 ≤ effect.replay.delay := by
    have := hinv.1.2.2.2.1
    rw [heff] at this
    exact this.1
  obtain ⟨-, -, -, -, -, -, e7⟩ := timer_entry_armed abi fixp_sin32 now t (drv.states 0)
    hinv hs hp hu hst (by rw [heff]; exact hpa) (by omega) (by rw [heff]; exact hwin)
  rw [heff] at e7
  have hplaying := e7.2 hdue
  have hval : ((timer_aggregate abi fixp_sin32 drv now).parameters 0).level = 0x4000 := by
    rw [hagg, constant_value_no_envelope abi fixp_sin32 now (drv.states 0) hinv hs
      (by rw [heff]; exact htype) (by rw [heff]; exact henv) hplaying, heff, hgain, hlevel]
    decide
  have hscaled : (timer_scale abi (timer_aggregate abi fixp_sin32 drv now).parameters 0).level
      = 0x4000 := by
    rw [timer_scale_level, hval]
    exact long_times_gain_quarter abi
  obtain ⟨hc, hd⟩ := update_slot_constant_quarter _ hscaled
  obtain ⟨r1, r2⟩ := timer_slots_result abi fixp_sin32 drv now 0
  rw [hslot] at r1 r2
  refine ⟨?_, ?_, ?_⟩
  · rw [timer_states_eq_entry abi fixp_sin32 drv now hr 0, if_pos hs]
    exact hplaying
  · rw [r2]
    exact ⟨hd, hc.symm⟩
  · rw [r1]
    exact hc

/-- C11 as stated fails: after initialisation, the upload of a Constant effect of level
`0x4000` with id 0 and direction `0x4000` and `play(0, 1)`, all at time 0, the tick at
time 0 transmits the command of slot 0 with byte 0 equal to `0x01`, not `0x11`, and byte 2
equal to `0xC0`; with direction 0 and a `fixp_sin32` that is 0 at 0 degrees the direction
gain is 0, the slot stays disabled with byte 0 equal to `0x03`, and the tick transmits
nothing. -/
theorem first_tick_constant_counterexample :
    (0, ⟨0x01, 0x08, 0xC0, 0, 0, 0, 0⟩) ∈
      (ftecff_timer Abi.ilp32 fixp_sin32_peak
        (started_engine (constant_effect 0 0x4000 0x4000)) 0).2 ∧
    ((ftecff_timer Abi.ilp32 fixp_sin32_peak
        (started_engine (constant_effect 0 0x4000 0x4000)) 0).1.slots 0).current_cmd.b0
      = 0x01 ∧
    ((ftecff_timer Abi.lp64 fixp_sin32_peak
        (started_engine (constant_effect 0 0x4000 0x4000)) 0).1.slots 0).current_cmd.b0
      = 0x01 ∧
    ((ftecff_timer Abi.ilp32 (fun _ => 0)
        (started_engine (constant_effect 0 0x4000 0)) 0).1.slots 0).current_cmd.b0 = 0x03 ∧
    (ftecff_timer Abi.ilp32 (fun _ => 0) (started_engine (constant_effect 0 0x4000 0)) 0).2
      = [] := by
  decide

/-- C11, amended: starting from an initialised engine, after the upload at `t0` of a
Constant effect with id 0, level `0x4000`, no attack and no fade, whose direction gives the
full gain `0x7fff`, and `play(0, 1)` at `t1`, and after any ticks at times from `t1` on
before the delay has elapsed, the first tick at or after `t1 + delay` and, for a bounded
effect, before `t1 + delay + length`, leaves effect 0 Playing, transmits the command of
slot 0 and leaves it as `01 08 C0 00 00 00 00`: byte 0 is `0x01`, byte 2 is `0xC0`. -/
theorem first_tick_constant (abi : Abi) (fixp_sin32 : Int → Int) (effect : ff_effect)
    (t0 t1 : Int) (early : List Int) (now : Int)
    (hwf : effect.wf) (hid : effect.id = 0) (htype : effect.type = FF_CONSTANT)
    (hlevel : effect.u.constant.level = 0x4000)
    (henv : effect.u.constant.envelope.attack_length = 0 ∧
      effect.u.constant.envelope.fade_length = 0)
    (hgain : direction_gain_of fixp_sin32 effect = 0x7fff)
    (ht0 : is_ulong abi t0) (ht1 : is_ulong abi t1)
    (hearly : ∀ x, x ∈ early →
      is_ulong abi x ∧ 0 ≤ to_long abi (x - t1) ∧ to_long abi (x - t1) < effect.replay.delay)
    (hdue : effect.replay.delay ≤ to_long abi (now - t1))
    (hwin : effect.replay.length = 0 ∨
      to_long abi (now - t1) < effect.replay.delay + effect.replay.length) :
    ((ftecff_timer abi fixp_sin32
      (run_ticks abi fixp_sin32
        (ftecff_play_effect (ftecff_upload_effect ftecff_init_slots.1 effect t0).2 0 1 t1)
        early) now).1.states 0).flags.playing = true ∧
    (0, ⟨0x01, 0x08, 0xC0, 0, 0, 0, 0⟩) ∈
      (ftecff_timer abi fixp_sin32
        (run_ticks abi fixp_sin32
          (ftecff_play_effect (ftecff_upload_effect ftecff_init_slots.1 effect t0).2 0 1 t1)
          early) now).2 ∧
    ((ftecff_timer abi fixp_sin32
      (run_ticks abi fixp_sin32
        (ftecff_play_effect (ftecff_upload_effect ftecff_init_slots.1 effect t0).2 0 1 t1)
        early) now).1.slots 0).current_cmd = ⟨0x01, 0x08, 0xC0, 0, 0, 0, 0⟩ :=
  armed_tick_due abi fixp_sin32 effect t1 _ now
    (armed_run_ticks abi fixp_sin32 effect t1 early _
      (armed_start abi fixp_sin32 effect t0 t1 hwf hid (by rw [htype]; decide) ht0 ht1) hearly)
    htype hlevel henv hgain hdue hwin

/-- Witness of C11, amended: a Constant effect of level `0x4000` with a delay of 20 ms,
uploaded at 5 ms and played at 10 ms, with ticks at 10 and 20 ms before the tick at
30 ms. -/
theorem first_tick_constant_witness :
    ((ftecff_timer Abi.ilp32 fixp_sin32_peak
      (run_ticks Abi.ilp32 fixp_sin32_peak
        (ftecff_play_effect (ftecff_upload_effect ftecff_init_slots.1
          { constant_effect 0 0x4000 0x4000 with replay := ⟨0, 20⟩ } 5).2 0 1 10)
        [10, 20]) 30).1.slots 0).current_cmd = ⟨0x01, 0x08, 0xC0, 0, 0, 0, 0⟩ :=
  (first_tick_constant Abi.ilp32 fixp_sin32_peak
    { constant_effect 0 0x4000 0x4000 with replay := ⟨0, 20⟩ } 5 10 [10, 20] 30
    (by decide) (by decide) (by decide) (by decide) (by decide) (by decide) (by decide)
    (by decide) (by decide) (by decide) (by decide)).2.2

/-! ## Size of the aggregated coefficients -/

theorem timer_accumulate_within (abi : Abi) (fixp_sin32 : Int → Int)
    (state : ftecff_effect_state) (parameters : Fin 4 → ftecff_effect_parameters)
    (bound : Int) (hwf : state.effect.wf) (h : coefficients_within bound parameters) :
    coefficients_within (bound + 32768)
      (timer_accumulate abi fixp_sin32 state parameters) := by
  obtain ⟨-, -, -, -, -, -, -, -, -, -, -, -, -, -, -, -, -, hr, hl, -, -⟩ := hwf
  unfold is_s16 at hr hl
  intro i
  obtain ⟨h1, h2, h3, h4⟩ := h i
  unfold timer_accumulate
  split_ifs
  · by_cases hi : i = 0
    · subst hi
      simp only [Function.update_same]
      omega
    · rw [Function.update_noteq hi]
      omega
  · by_cases hi : i = 1
    · subst hi
      simp only [Function.update_same, ftecff_calculate_spring]
      split_ifs <;> (try dsimp only) <;> omega
    · rw [Function.update_noteq hi]
      omega
  · by_cases hi : i = 2
    · subst hi
      simp only [Function.update_same, ftecff_calculate_resistance]
      omega
    · rw [Function.update_noteq hi]
      omega
  · by_cases hi : i = 0
    · subst hi
      simp only [Function.update_same]
      omega
    · rw [Function.update_noteq hi]
      omega
  · omega

theorem timer_walk_within (abi : Abi) (fixp_sin32 : Int → Int) (now : Int)
    (l : List (Fin FTECFF_MAX_EFFECTS)) (ws : timer_walk_state) (bound : Int)
    (hwf : ∀ k, (ws.states k).effect.wf) (h : coefficients_within bound ws.parameters) :
    coefficients_within (bound + 32768 * l.length)
      (timer_walk abi fixp_sin32 now l ws).parameters := by
  induction l generalizing ws bound with
  | nil => simpa using h
  | cons id rest ih =>
    have hmono : coefficients_within (bound + 32768 * ((id :: rest).length : Int))
        ws.parameters := by
      intro i
      obtain ⟨h1, h2, h3, h4⟩ := h i
      have : (0 : Int) ≤ ((id :: rest).length : Int) := Int.natCast_nonneg _
      refine ⟨?_, ?_, ?_, ?_⟩ <;> omega
    unfold timer_walk
    split_ifs
    · exact hmono
    · have hstep : coefficients_within (bound + 32768)
          (timer_visit abi fixp_sin32 now ws id).parameters := by
        by_cases hs : (ws.states id).flags.started = true
        · rw [(timer_visit_started abi fixp_sin32 now ws id hs).2.2]
          split_ifs
          · apply timer_accumulate_within abi fixp_sin32 _ _ _ _ h
            rw [timer_entry_effect]
            exact hwf id
          · intro i
            obtain ⟨h1, h2, h3, h4⟩ := h i
            refine ⟨?_, ?_, ?_, ?_⟩ <;> omega
        · have hs' : (ws.states id).flags.started = false := by simpa using hs
          rw [timer_visit_not_started abi fixp_sin32 now ws id hs']
          intro i
          obtain ⟨h1, h2, h3, h4⟩ := h i
          refine ⟨?_, ?_, ?_, ?_⟩ <;> omega
      have hwf2 : ∀ k, ((timer_visit abi fixp_sin32 now ws id).states k).effect.wf := by
        intro k
        rw [timer_visit_effect]
        exact hwf k
      have := ih _ (bound + 32768) hwf2 hstep
      have hlen : ((id :: rest).length : Int) = (rest.length : Int) + 1 := by
        simp
      rw [hlen]
      have he : bound + 32768 * ((rest.length : Int) + 1) =
          bound + 32768 + 32768 * (rest.length : Int) := by ring
      rw [he]
      exact this

theorem long_times_gain_small (abi : Abi) (x : Int) (h0 : -524288 ≤ x) (h1 : x ≤ 524288) :
    -524288 ≤ to_s32 (long_times_gain abi x 0xffff) ∧
      to_s32 (long_times_gain abi x 0xffff) ≤ 524288 := by
  cases abi
  · have hy0 : 0 ≤ to_ulong Abi.ilp32 (to_ulong Abi.ilp32 (to_long Abi.ilp32 x) * 0xffff) :=
      Int.emod_nonneg _ (by decide)
    have hy1 : to_ulong Abi.ilp32 (to_ulong Abi.ilp32 (to_long Abi.ilp32 x) * 0xffff) <
        4294967296 := Int.emod_lt_of_pos _ (by decide)
    have hv : long_times_gain Abi.ilp32 x 0xffff =
        to_ulong Abi.ilp32 (to_ulong Abi.ilp32 (to_long Abi.ilp32 x) * 0xffff) / 0xffff := rfl
    rw [hv]
    generalize to_ulong Abi.ilp32 (to_ulong Abi.ilp32 (to_long Abi.ilp32 x) * 0xffff) = y
      at hy0 hy1
    have hq0 : 0 ≤ y / 0xffff := Int.ediv_nonneg hy0 (by decide)
    have hq1 : y / 0xffff < 65538 := Int.ediv_lt_of_lt_mul (by decide) (by omega)
    unfold to_s32
    omega
  · have hx : to_long Abi.lp64 x = x := by
      unfold to_long
      simp only [Abi.long_half, Abi.ulong_modulus]
      omega
    have hxx : to_long Abi.lp64 (x * 0xffff) = x * 0xffff := by
      unfold to_long
      simp only [Abi.long_half, Abi.ulong_modulus]
      omega
    have hv : long_times_gain Abi.lp64 x 0xffff =
        Int.tdiv (to_long Abi.lp64 (to_long Abi.lp64 x * 0xffff)) 0xffff := rfl
    rw [hv, hx, hxx, Int.mul_tdiv_cancel _ (by decide)]
    unfold to_s32
    omega

/-- The coefficients that a tick of an engine whose stored effects are in the range of
their C types hands to the slot encoder have absolute value below `2^30`, and the clip it
hands over is not negative. -/
theorem timer_scaled_within (abi : Abi) (fixp_sin32 : Int → Int) (drv : ftec_drv_data)
    (now : Int) (hwf : ∀ k, (drv.states k).effect.wf) (i : Fin 4) :
    |(timer_scale abi (timer_aggregate abi fixp_sin32 drv now).parameters i).k1| < 2 ^ 30 ∧
    |(timer_scale abi (timer_aggregate abi fixp_sin32 drv now).parameters i).k2| < 2 ^ 30 ∧
    (i ≠ 0 → 0 ≤ (timer_scale abi (timer_aggregate abi fixp_sin32 drv now).parameters i).clip)
    := by
  have hw := timer_walk_within abi fixp_sin32 now (List.finRange FTECFF_MAX_EFFECTS)
    { states := drv.states, effects_used := drv.effects_used, count := drv.effects_used,
      parameters := fun _ => ftecff_effect_parameters.zero } 0 hwf
    (fun _ => by simp [ftecff_effect_parameters.zero])
  simp only [List.length_finRange, FTECFF_MAX_EFFECTS] at hw
  have hagg : ∀ j, -524288 ≤ ((timer_aggregate abi fixp_sin32 drv now).parameters j).k1 ∧
      ((timer_aggregate abi fixp_sin32 drv now).parameters j).k1 ≤ 524288 ∧
      -524288 ≤ ((timer_aggregate abi fixp_sin32 drv now).parameters j).k2 ∧
      ((timer_aggregate abi fixp_sin32 drv now).parameters j).k2 ≤ 524288 := by
    intro j
    have := hw j
    unfold timer_aggregate
    simp only [FTECFF_MAX_EFFECTS]
    norm_num at this ⊢
    exact this
  have hu : ∀ x : Int, 0 ≤ to_u32 x := fun x => Int.emod_nonneg _ (by decide)
  have key : ∀ p : ftecff_effect_parameters, -524288 ≤ p.k1 → p.k1 ≤ 524288 →
      -524288 ≤ p.k2 → p.k2 ≤ 524288 →
      |to_s32 (long_times_gain abi p.k1 0xffff)| < 2 ^ 30 ∧
        |to_s32 (long_times_gain abi p.k2 0xffff)| < 2 ^ 30 := by
    intro p a b c d
    obtain ⟨x1, x2⟩ := long_times_gain_small abi p.k1 a b
    obtain ⟨y1, y2⟩ := long_times_gain_small abi p.k2 c d
    rw [abs_lt, abs_lt]
    refine ⟨⟨?_, ?_⟩, ⟨?_, ?_⟩⟩ <;> norm_num <;> omega
  unfold timer_scale
  simp only []
  obtain ⟨a0, b0, c0, d0⟩ := hagg 0
  obtain ⟨a1, b1, c1, d1⟩ := hagg 1
  obtain ⟨a2, b2, c2, d2⟩ := hagg 2
  obtain ⟨a3, b3, c3, d3⟩ := hagg 3
  by_cases h0 : i = 0
  · subst h0
    simp only [if_true]
    refine ⟨?_, ?_, fun h => absurd rfl h⟩
    · rw [abs_lt]; norm_num; omega
    · rw [abs_lt]; norm_num; omega
  · rw [if_neg h0]
    by_cases h1 : i = 1
    · subst h1
      simp only [if_true]
      obtain ⟨k1, k2⟩ := key _ a1 b1 c1 d1
      exact ⟨k1, k2, fun _ => hu _⟩
    · rw [if_neg h1]
      by_cases h2 : i = 2
      · subst h2
        simp only [if_true]
        obtain ⟨k1, k2⟩ := key _ a2 b2 c2 d2
        exact ⟨k1, k2, fun _ => hu _⟩
      · rw [if_neg h2]
        obtain ⟨k1, k2⟩ := key _ a3 b3 c3 d3
        exact ⟨k1, k2, fun _ => hu _⟩

/-- On every reachable engine the aggregates that a tick hands to the slot encoder are in
the range where `SCALE_COEFF` does not wrap. -/
theorem reachable_scaled_within (abi : Abi) (fixp_sin32 : Int → Int) (drv : ftec_drv_data)
    (now : Int) (hr : Reachable abi fixp_sin32 drv) (i : Fin 4) :
    |(timer_scale abi (timer_aggregate abi fixp_sin32 drv now).parameters i).k1| < 2 ^ 30 ∧
    |(timer_scale abi (timer_aggregate abi fixp_sin32 drv now).parameters i).k2| < 2 ^ 30 ∧
    (i ≠ 0 → 0 ≤ (timer_scale abi (timer_aggregate abi fixp_sin32 drv now).parameters i).clip) :=
  timer_scaled_within abi fixp_sin32 drv now
    (fun k => (reachable_entry_inv abi fixp_sin32 drv hr k).1) i

/-! ## Byte 1 of the slot commands -/

theorem update_slot_b1 (slot : ftecff_slot) (parameters : ftecff_effect_parameters) :
    (ftecff_update_slot slot parameters).current_cmd.b1 = slot.current_cmd.b1 := by
  rw [update_slot_cmd]
  split_ifs
  · rfl
  · rw [encode_parameters_b1]

theorem reachable_slot_b1 (abi : Abi) (fixp_sin32 : Int → Int) (drv : ftec_drv_data)
    (h : Reachable abi fixp_sin32 drv) (i : Fin 4) :
    (drv.slots i).current_cmd.b1 = (init_slot i).current_cmd.b1 := by
  induction h with
  | init => revert i; decide
  | upload drv effect now _ _ _ ih => rw [(upload_effect_slots drv effect now).1]; exact ih
  | play drv effect_id value now _ _ _ ih => rw [play_effect_slots]; exact ih
  | tick drv now _ _ ih =>
    rw [(timer_slots_result abi fixp_sin32 drv now i).1]
    exact (update_slot_b1 _ _).trans ih

/-- C29: `ftecff_update_slot` leaves byte 1 of the command as it was, for every slot and
every aggregate, in the enabled and in the disabled encoding; so on every reachable engine
the four slots have byte 1 equal to `0x08`, `0x0b`, `0x0c` and `0x00`, and so has every
command that a tick transmits for them. -/
theorem update_slot_keeps_byte1 (abi : Abi) (fixp_sin32 : Int → Int) (drv : ftec_drv_data)
    (slot : ftecff_slot) (parameters : ftecff_effect_parameters)
    (hr : Reachable abi fixp_sin32 drv) :
    (ftecff_update_slot slot parameters).current_cmd.b1 = slot.current_cmd.b1 ∧
    (drv.slots 0).current_cmd.b1 = 0x08 ∧ (drv.slots 1).current_cmd.b1 = 0x0b ∧
    (drv.slots 2).current_cmd.b1 = 0x0c ∧ (drv.slots 3).current_cmd.b1 = 0x00 ∧
    (∀ now c, (0, c) ∈ (ftecff_timer abi fixp_sin32 drv now).2 → c.b1 = 0x08) ∧
    (∀ now c, (1, c) ∈ (ftecff_timer abi fixp_sin32 drv now).2 → c.b1 = 0x0b) ∧
    (∀ now c, (2, c) ∈ (ftecff_timer abi fixp_sin32 drv now).2 → c.b1 = 0x0c) ∧
    (∀ now c, (3, c) ∈ (ftecff_timer abi fixp_sin32 drv now).2 → c.b1 = 0x00) := by
  have hb := reachable_slot_b1 abi fixp_sin32 drv hr
  have hsent : ∀ (i : Fin 4) now c, (i, c) ∈ (ftecff_timer abi fixp_sin32 drv now).2 →
      c.b1 = (init_slot i).current_cmd.b1 := by
    intro i now c hc
    rw [((timer_slots_result abi fixp_sin32 drv now i).2 c).1 hc |>.2, update_slot_b1]
    exact hb i
  exact ⟨update_slot_b1 slot parameters, hb 0, hb 1, hb 2, hb 3, hsent 0, hsent 1, hsent 2,
    hsent 3⟩

/-- Witness of C29: the engine after a Constant effect was uploaded, played and ticked, and
the Spring slot with a non-zero clip. -/
theorem update_slot_keeps_byte1_witness :
    (ftecff_update_slot (ftecff_init_slots.1.slots 1)
        (coefficient_aggregate 0x2000 0)).current_cmd.b1 =
      (ftecff_init_slots.1.slots 1).current_cmd.b1 ∧
    ((constant_playing_engine Abi.ilp32).slots 0).current_cmd.b1 = 0x08 :=
  have h := update_slot_keeps_byte1 Abi.ilp32 fixp_sin32_peak (constant_playing_engine Abi.ilp32)
    (ftecff_init_slots.1.slots 1) (coefficient_aggregate 0x2000 0)
    (Reachable.tick _ 0
      (Reachable.play _ 0 1 0
        (Reachable.upload _ (constant_effect 0 0x4000 0x4000) 0 Reachable.init
          (by decide) (by decide))
        (by decide) (by decide))
      (by decide))
  ⟨h.1, h.2.1⟩

/-! ## The early exit of the walk -/

/-- C26: in every engine state in which `effects_used` equals the number of Started
entries, the walk of `ftecff_timer`, which stops once `effects_used` Started entries have
been visited, leaves the same effect table, the same `effects_used` and the same four
aggregates as the walk over every id from 0 to `FTECFF_MAX_EFFECTS - 1` without the early
exit; every entry that was Started is the result of one visit to it, and every other entry
is as it was. -/
theorem timer_walk_early_exit (abi : Abi) (fixp_sin32 : Int → Int) (drv : ftec_drv_data)
    (now : Int) (h : drv.effects_used = started_count drv.states) :
    timer_aggregate abi fixp_sin32 drv now =
      timer_walk_full abi fixp_sin32 now (List.finRange FTECFF_MAX_EFFECTS)
        { states := drv.states, effects_used := drv.effects_used, count := drv.effects_used,
          parameters := fun _ => ftecff_effect_parameters.zero } ∧
    (∀ k, (timer_aggregate abi fixp_sin32 drv now).states k =
      if (drv.states k).flags.started = true then
        timer_entry abi fixp_sin32 now (drv.states k)
      else drv.states k) ∧
    (ftecff_timer abi fixp_sin32 drv now).1.states =
      (timer_walk_full abi fixp_sin32 now (List.finRange FTECFF_MAX_EFFECTS)
        { states := drv.states, effects_used := drv.effects_used, count := drv.effects_used,
          parameters := fun _ => ftecff_effect_parameters.zero }).states := by
  have heq : timer_aggregate abi fixp_sin32 drv now =
      timer_walk_full abi fixp_sin32 now (List.finRange FTECFF_MAX_EFFECTS)
        { states := drv.states, effects_used := drv.effects_used, count := drv.effects_used,
          parameters := fun _ => ftecff_effect_parameters.zero } := by
    unfold timer_aggregate
    apply timer_walk_eq_full abi fixp_sin32 now _ (List.nodup_finRange _)
    simp only []
    rw [h, started_count_eq_started_in]
  refine ⟨heq, fun k => ?_, ?_⟩
  · rw [heq, timer_walk_full_states abi fixp_sin32 now _ (List.nodup_finRange _)]
    simp only [List.mem_finRange, true_and]
  · unfold ftecff_timer
    simp only []
    rw [heq]

/-- Witness of C26: the engine with two Constant effects Started. -/
theorem timer_walk_early_exit_witness :
    timer_aggregate Abi.ilp32 fixp_sin32_peak (two_constants_example 0x4000 0x4000) 0 =
      timer_walk_full Abi.ilp32 fixp_sin32_peak 0 (List.finRange FTECFF_MAX_EFFECTS)
        { states := (two_constants_example 0x4000 0x4000).states,
          effects_used := (two_constants_example 0x4000 0x4000).effects_used,
          count := (two_constants_example 0x4000 0x4000).effects_used,
          parameters := fun _ => ftecff_effect_parameters.zero } :=
  (timer_walk_early_exit Abi.ilp32 fixp_sin32_peak (two_constants_example 0x4000 0x4000) 0
    (by decide)).1

/-! ## The deadband of the Spring aggregate -/

theorem calculate_spring_deadband (state : ftecff_effect_state)
    (parameters : ftecff_effect_parameters) (h1 : parameters.d1 ≤ 0) (h2 : 0 ≤ parameters.d2) :
    (ftecff_calculate_spring state parameters).d1 ≤ 0 ∧
      0 ≤ (ftecff_calculate_spring state parameters).d2 := by
  unfold ftecff_calculate_spring
  simp only []
  split_ifs <;> (try dsimp only at *) <;> omega

theorem timer_accumulate_deadband (abi : Abi) (fixp_sin32 : Int → Int)
    (state : ftecff_effect_state) (parameters : Fin 4 → ftecff_effect_parameters)
    (h : (parameters 1).d1 ≤ 0 ∧ 0 ≤ (parameters 1).d2) :
    (timer_accumulate abi fixp_sin32 state parameters 1).d1 ≤ 0 ∧
      0 ≤ (timer_accumulate abi fixp_sin32 state parameters 1).d2 := by
  unfold timer_accumulate
  split_ifs
  · rw [Function.update_noteq (show (1 : Fin 4) ≠ 0 by decide)]
    exact h
  · rw [Function.update_same]
    exact calculate_spring_deadband state _ h.1 h.2
  · rw [Function.update_noteq (show (1 : Fin 4) ≠ 2 by decide)]
    exact h
  · rw [Function.update_noteq (show (1 : Fin 4) ≠ 0 by decide)]
    exact h
  · exact h

theorem timer_walk_deadband (abi : Abi) (fixp_sin32 : Int → Int) (now : Int)
    (l : List (Fin FTECFF_MAX_EFFECTS)) (ws : timer_walk_state)
    (h : (ws.parameters 1).d1 ≤ 0 ∧ 0 ≤ (ws.parameters 1).d2) :
    ((timer_walk abi fixp_sin32 now l ws).parameters 1).d1 ≤ 0 ∧
      0 ≤ ((timer_walk abi fixp_sin32 now l ws).parameters 1).d2 := by
  induction l generalizing ws with
  | nil => exact h
  | cons id rest ih =>
    unfold timer_walk
    split_ifs
    · exact h
    · apply ih
      by_cases hs : (ws.states id).flags.started = true
      · rw [(timer_visit_started abi fixp_sin32 now ws id hs).2.2]
        split_ifs
        · exact timer_accumulate_deadband abi fixp_sin32 _ _ h
        · exact h
      · have hs' : (ws.states id).flags.started = false := by simpa using hs
        rw [timer_visit_not_started abi fixp_sin32 now ws id hs']
        exact h

theorem timer_scale_deadband (abi : Abi) (parameters : Fin 4 → ftecff_effect_parameters) :
    (timer_scale abi parameters 1).d1 = (parameters 1).d1 ∧
      (timer_scale abi parameters 1).d2 = (parameters 1).d2 := by
  unfold timer_scale
  simp

theorem deadband_byte_order (d1 d2 : Int) (h1 : -0x8000 ≤ d1) (h2 : d1 ≤ 0) (h3 : 0 ≤ d2)
    (h4 : d2 ≤ 0x7fff) :
    spec_deadband_byte d1 ≤ 0x80 ∧ 0x80 ≤ spec_deadband_byte d2 := by
  unfold spec_deadband_byte
  have e1 : (d1 + 0x8000) % 65536 = d1 + 0x8000 := by omega
  have e2 : (d2 + 0x8000) % 65536 = d2 + 0x8000 := by omega
  rw [e1, e2]
  have n1 : (d1 + 0x8000).toNat ≤ 0x8000 := by omega
  have n2 : 0x8000 ≤ (d2 + 0x8000).toNat := by omega
  generalize (d1 + 0x8000).toNat = a at n1
  generalize (d2 + 0x8000).toNat = b at n2
  simp only [Nat.shiftRight_eq_div_pow]
  norm_num
  omega

/-- The deadband bytes wrap when a bound leaves the `__s16` range: a lower bound of -40000
encodes to `0xe3`, above the byte `0x80` of the zero position. -/
theorem deadband_byte_wraps : spec_deadband_byte (-40000) = 0xe3 ∧ spec_deadband_byte 0 = 0x80 := by
  decide

/-- C28 as stated fails for the encoded deadband.  A Spring effect in the range of its C
types with center -32768 and deadband 14464, played at time 0, is Playing at the tick at
time 0; the aggregate has `d1 == -40000 <= 0 <= d2 == 0`, but `(d1 + 0x8000) & 0xffff`
wraps, and the command the tick sends for the Spring slot has byte 2 equal to `0xe3`, above
byte 3 equal to `0x80`, the byte of the zero position. -/
theorem spring_deadband_byte_counterexample :
    (offset_spring (-32768) 14464).wf ∧
    ((ftecff_timer Abi.ilp32 fixp_sin32_peak
      (started_engine (offset_spring (-32768) 14464)) 0).1.states 0).flags.playing = true ∧
    ((timer_aggregate Abi.ilp32 fixp_sin32_peak
      (started_engine (offset_spring (-32768) 14464)) 0).parameters 1).d1 = -40000 ∧
    ((timer_aggregate Abi.ilp32 fixp_sin32_peak
      (started_engine (offset_spring (-32768) 14464)) 0).parameters 1).d2 = 0 ∧
    (ftecff_timer Abi.ilp32 fixp_sin32_peak
      (started_engine (offset_spring (-32768) 14464)) 0).2 =
        [(1, ⟨0x11, 0x0b, 0xe3, 0x80, 0, 0, 0x60⟩)] ∧
    (ftecff_timer Abi.lp64 fixp_sin32_peak
      (started_engine (offset_spring (-32768) 14464)) 0).2 =
        [(1, ⟨0x11, 0x0b, 0xe3, 0x80, 0, 0, 0x60⟩)] ∧
    0x80 < ((ftecff_timer Abi.ilp32 fixp_sin32_peak
      (started_engine (offset_spring (-32768) 14464)) 0).1.slots 1).current_cmd.b2 ∧
    ((ftecff_timer Abi.ilp32 fixp_sin32_peak
      (started_engine (offset_spring (-32768) 14464)) 0).1.slots 1).current_cmd.b3 = 0x80 := by
  decide

theorem timer_spring_deadband_bytes (abi : Abi) (fixp_sin32 : Int → Int)
    (drv : ftec_drv_data) (now : Int) (ht : (drv.slots 1).effect_type = FF_SPRING)
    (hc : (timer_scale abi (timer_aggregate abi fixp_sin32 drv now).parameters 1).clip ≠ 0) :
    ((ftecff_timer abi fixp_sin32 drv now).1.slots 1).current_cmd.b2 =
        spec_deadband_byte
          (timer_scale abi (timer_aggregate abi fixp_sin32 drv now).parameters 1).d1 ∧
      ((ftecff_timer abi fixp_sin32 drv now).1.slots 1).current_cmd.b3 =
        spec_deadband_byte
          (timer_scale abi (timer_aggregate abi fixp_sin32 drv now).parameters 1).d2 := by
  rw [(timer_slots_result abi fixp_sin32 drv now 1).1]
  simp only []
  rw [update_slot_enabled_cmd _ _ (by rw [ht]; decide) hc, ht]
  unfold encode_parameters
  rw [if_neg (by decide), if_pos rfl]
  simp only []
  exact ⟨deadband_byte_spec _, deadband_byte_spec _⟩

/-- C28, amended.  For every effect table, every value of `effects_used` and every tick, the
Spring aggregate has `d1 <= 0 <= d2`, as the walk leaves it and as the gain stage hands it
to the encoder: the aggregate starts at zero and folding only lowers `d1` and raises `d2`.
When the Spring slot is enabled (`clip != 0` after the gain stage), bytes 2 and 3 of its
command after the tick are `(((d + 0x8000) mod 2^16) >> 5) >> 3` of `d1` and of `d2`; they
are ordered around `0x80`, the byte of the zero position, when `-0x8000 <= d1` and
`d2 <= 0x7fff`. -/
theorem spring_deadband_contains_zero (abi : Abi) (fixp_sin32 : Int → Int)
    (drv : ftec_drv_data) (now : Int) :
    ((timer_aggregate abi fixp_sin32 drv now).parameters 1).d1 ≤ 0 ∧
    0 ≤ ((timer_aggregate abi fixp_sin32 drv now).parameters 1).d2 ∧
    (timer_scale abi (timer_aggregate abi fixp_sin32 drv now).parameters 1).d1 ≤ 0 ∧
    0 ≤ (timer_scale abi (timer_aggregate abi fixp_sin32 drv now).parameters 1).d2 ∧
    (-0x8000 ≤ (timer_scale abi (timer_aggregate abi fixp_sin32 drv now).parameters 1).d1 →
      (timer_scale abi (timer_aggregate abi fixp_sin32 drv now).parameters 1).d2 ≤ 0x7fff →
      spec_deadband_byte
          (timer_scale abi (timer_aggregate abi fixp_sin32 drv now).parameters 1).d1 ≤ 0x80 ∧
        0x80 ≤ spec_deadband_byte
          (timer_scale abi (timer_aggregate abi fixp_sin32 drv now).parameters 1).d2) ∧
    ((drv.slots 1).effect_type = FF_SPRING →
      (timer_scale abi (timer_aggregate abi fixp_sin32 drv now).parameters 1).clip ≠ 0 →
      ((ftecff_timer abi fixp_sin32 drv now).1.slots 1).current_cmd.b2 =
          spec_deadband_byte
            (timer_scale abi (timer_aggregate abi fixp_sin32 drv now).parameters 1).d1 ∧
        ((ftecff_timer abi fixp_sin32 drv now).1.slots 1).current_cmd.b3 =
          spec_deadband_byte
            (timer_scale abi (timer_aggregate abi fixp_sin32 drv now).parameters 1).d2 ∧
        (-0x8000 ≤ (timer_scale abi (timer_aggregate abi fixp_sin32 drv now).parameters 1).d1 →
          (timer_scale abi (timer_aggregate abi fixp_sin32 drv now).parameters 1).d2 ≤ 0x7fff →
          ((ftecff_timer abi fixp_sin32 drv now).1.slots 1).current_cmd.b2 ≤ 0x80 ∧
            0x80 ≤ ((ftecff_timer abi fixp_sin32 drv now).1.slots 1).current_cmd.b3)) := by
  have hw : ((timer_aggregate abi fixp_sin32 drv now).parameters 1).d1 ≤ 0 ∧
      0 ≤ ((timer_aggregate abi fixp_sin32 drv now).parameters 1).d2 := by
    unfold timer_aggregate
    apply timer_walk_deadband
    simp [ftecff_effect_parameters.zero]
  obtain ⟨s1, s2⟩ := timer_scale_deadband abi (timer_aggregate abi fixp_sin32 drv now).parameters
  refine ⟨hw.1, hw.2, ?_, ?_, fun h1 h4 => ?_, fun ht hc => ?_⟩
  · rw [s1]
    exact hw.1
  · rw [s2]
    exact hw.2
  · exact deadband_byte_order _ _ h1 (by rw [s1]; exact hw.1) (by rw [s2]; exact hw.2) h4
  · obtain ⟨b2, b3⟩ := timer_spring_deadband_bytes abi fixp_sin32 drv now ht hc
    refine ⟨b2, b3, fun h1 h4 => ?_⟩
    rw [b2, b3]
    exact deadband_byte_order _ _ h1 (by rw [s1]; exact hw.1) (by rw [s2]; exact hw.2) h4

/-- Witness of C28, amended: a Spring effect with center 1000 and deadband 400, whose
deadband `[800, 1200]` lies above zero, played and ticked at time 0, gives the Spring slot
byte 2 at most `0x80` and byte 3 at least `0x80`. -/
theorem spring_deadband_contains_zero_witness :
    ((ftecff_timer Abi.ilp32 fixp_sin32_peak
        (started_engine (offset_spring 1000 400)) 0).1.slots 1).current_cmd.b2 ≤ 0x80 ∧
      0x80 ≤ ((ftecff_timer Abi.ilp32 fixp_sin32_peak
        (started_engine (offset_spring 1000 400)) 0).1.slots 1).current_cmd.b3 :=
  ((spring_deadband_contains_zero Abi.ilp32 fixp_sin32_peak
    (started_engine (offset_spring 1000 400)) 0).2.2.2.2.2 (by decide) (by decide)).2.2
    (by decide) (by decide)

/-! ## The first recomputation of a freshly started effect -/

theorem timer_visit_idle (abi : Abi) (fixp_sin32 : Int → Int) (now : Int)
    (ws : timer_walk_state) (id : Fin FTECFF_MAX_EFFECTS)
    (hs : (ws.states id).flags.started = true)
    (hp : (timer_entry abi fixp_sin32 now (ws.states id)).flags.playing = false) :
    (timer_visit abi fixp_sin32 now ws id).parameters = ws.parameters := by
  rw [(timer_visit_started abi fixp_sin32 now ws id hs).2.2, if_neg]
  rw [hp]
  decide

theorem update_state_fresh (abi : Abi) (fixp_sin32 : Int → Int) (s : ftecff_effect_state)
    (now : Int) (hfresh : s.flags = ⟨true, false, false, false⟩) :
    (ftecff_update_state abi fixp_sin32 s now).play_at =
      to_ulong abi (s.start_at + s.effect.replay.delay) ∧
    (s.effect.replay.length ≠ 0 →
      (ftecff_update_state abi fixp_sin32 s now).stop_at =
        to_ulong abi ((ftecff_update_state abi fixp_sin32 s now).play_at +
          s.effect.replay.length)) ∧
    (ftecff_update_state abi fixp_sin32 s now).flags.started = true ∧
    (ftecff_update_state abi fixp_sin32 s now).flags.allset = true ∧
    (ftecff_update_state abi fixp_sin32 s now).flags.updating = false ∧
    ((ftecff_update_state abi fixp_sin32 s now).flags.playing = true ↔
      (time_after_eq abi now (ftecff_update_state abi fixp_sin32 s now).play_at = true ∧
        (s.effect.replay.length = 0 ∨
          time_before abi now (ftecff_update_state abi fixp_sin32 s now).stop_at = true))) ∧
    ((ftecff_update_state abi fixp_sin32 s now).flags.playing = true →
      (ftecff_update_state abi fixp_sin32 s now).time_playing =
        to_ulong abi (now - (ftecff_update_state abi fixp_sin32 s now).play_at)) := by
  have ha : s.flags.allset = false := by rw [hfresh]
  have hu : s.flags.updating = false := by rw [hfresh]
  have hp : s.flags.playing = false := by rw [hfresh]
  have hs : s.flags.started = true := by rw [hfresh]
  obtain ⟨-, y2, y3, y4, -, -, y7, -, y9⟩ := update_state_spec abi fixp_sin32 s now
    (fun h => by rw [ha] at h; exact absurd h (by decide))
    (fun h => by rw [ha] at h; exact absurd h (by decide))
    (fun h => by rw [hp] at h; exact absurd h (by decide))
  obtain ⟨-, -, f3, -, -, -, f7, -, -⟩ := update_state_frame abi fixp_sin32 s now
  refine ⟨?_, y7, by rw [y2, hs], y3, y4, ?_, y9⟩
  · rw [f3, if_neg]
    rintro ⟨h, -⟩
    rw [ha] at h
    exact absurd h (by decide)
  · rw [f7]
    unfold time_after_eq time_before
    simp only [decide_eq_true_eq]
    constructor
    · rintro (⟨h, -⟩ | h)
      · rw [hp] at h
        exact absurd h (by decide)
      · exact h
    · exact fun h => Or.inr h

theorem timer_entry_fresh (abi : Abi) (fixp_sin32 : Int → Int) (s : ftecff_effect_state)
    (now : Int) (hfresh : s.flags = ⟨true, false, false, false⟩) :
    timer_entry abi fixp_sin32 now s = ftecff_update_state abi fixp_sin32 s now := by
  unfold timer_entry
  rw [timer_expire_idle abi now s (fun h => by
    have h1 := h.1
    rw [hfresh] at h1
    exact absurd h1 (by decide))]
  simp

theorem time_compare_plain (abi : Abi) (a b : Int) (h1 : -abi.long_half ≤ a - b)
    (h2 : a - b < abi.long_half) :
    (time_after_eq abi a b = true ↔ b ≤ a) ∧ (time_before abi a b = true ↔ a < b) ∧
      (b ≤ a → to_ulong abi (a - b) = a - b) := by
  unfold time_after_eq time_before to_long to_ulong
  simp only [decide_eq_true_eq]
  cases abi <;> simp only [Abi.long_half, Abi.ulong_modulus] at h1 h2 ⊢ <;>
    refine ⟨?_, ?_, ?_⟩ <;> omega

/-- C22: for every freshly started effect, one with only Started set, `ftecff_update_state`
at time `now` sets `play_at = start_at + delay`, sets `stop_at = play_at + length` when
the length is not 0, both as `unsigned long` sums, and sets AllSet; it sets Playing exactly
when `time_after_eq(now, play_at)` and the length is 0 or `time_before(now, stop_at)`, and
then `time_playing = now - play_at`.  The visit of a tick to such an entry stores this
entry, and when `now` is before `play_at` it leaves every aggregate as it was.  Where the
sums do not wrap and `now` is within half the range of `unsigned long` of both times, the
two comparisons are the plain `play_at <= now` and `now < stop_at`. -/
theorem update_state_fresh_effect (abi : Abi) (fixp_sin32 : Int → Int)
    (s : ftecff_effect_state) (now : Int) (hfresh : s.flags = ⟨true, false, false, false⟩) :
    (ftecff_update_state abi fixp_sin32 s now).play_at =
      to_ulong abi (s.start_at + s.effect.replay.delay) ∧
    (s.effect.replay.length ≠ 0 →
      (ftecff_update_state abi fixp_sin32 s now).stop_at =
        to_ulong abi ((ftecff_update_state abi fixp_sin32 s now).play_at +
          s.effect.replay.length)) ∧
    (ftecff_update_state abi fixp_sin32 s now).flags.started = true ∧
    (ftecff_update_state abi fixp_sin32 s now).flags.allset = true ∧
    ((ftecff_update_state abi fixp_sin32 s now).flags.playing = true ↔
      (time_after_eq abi now (ftecff_update_state abi fixp_sin32 s now).play_at = true ∧
        (s.effect.replay.length = 0 ∨
          time_before abi now (ftecff_update_state abi fixp_sin32 s now).stop_at = true))) ∧
    ((ftecff_update_state abi fixp_sin32 s now).flags.playing = true →
      (ftecff_update_state abi fixp_sin32 s now).time_playing =
        to_ulong abi (now - (ftecff_update_state abi fixp_sin32 s now).play_at)) ∧
    (∀ (ws : timer_walk_state) (id : Fin FTECFF_MAX_EFFECTS), ws.states id = s →
      (timer_visit abi fixp_sin32 now ws id).states id =
          ftecff_update_state abi fixp_sin32 s now ∧
        (time_before abi now (to_ulong abi (s.start_at + s.effect.replay.delay)) = true →
          (timer_visit abi fixp_sin32 now ws id).parameters = ws.parameters)) ∧
    (0 ≤ s.start_at → 0 ≤ s.effect.replay.delay → 0 ≤ s.effect.replay.length →
      s.start_at + s.effect.replay.delay + s.effect.replay.length < abi.ulong_modulus →
      -abi.long_half ≤ now - (s.start_at + s.effect.replay.delay + s.effect.replay.length) →
      now - (s.start_at + s.effect.replay.delay) < abi.long_half →
      (ftecff_update_state abi fixp_sin32 s now).play_at =
          s.start_at + s.effect.replay.delay ∧
        (s.effect.replay.length ≠ 0 →
          (ftecff_update_state abi fixp_sin32 s now).stop_at =
            s.start_at + s.effect.replay.delay + s.effect.replay.length) ∧
        ((ftecff_update_state abi fixp_sin32 s now).flags.playing = true ↔
          (s.start_at + s.effect.replay.delay ≤ now ∧
            (s.effect.replay.length = 0 ∨
              now < s.start_at + s.effect.replay.delay + s.effect.replay.length))) ∧
        ((ftecff_update_state abi fixp_sin32 s now).flags.playing = true →
          (ftecff_update_state abi fixp_sin32 s now).time_playing =
            now - (s.start_at + s.effect.replay.delay))) := by
  obtain ⟨h1, h2, h3, h4, -, h6, h7⟩ := update_state_fresh abi fixp_sin32 s now hfresh
  have hs : s.flags.started = true := by rw [hfresh]
  refine ⟨h1, h2, h3, h4, h6, h7, fun ws id hws => ?_, fun a b c d e f => ?_⟩
  · have hst : (ws.states id).flags.started = true := by rw [hws]; exact hs
    have hen : timer_entry abi fixp_sin32 now (ws.states id) =
        ftecff_update_state abi fixp_sin32 s now := by
      rw [hws]
      exact timer_entry_fresh abi fixp_sin32 s now hfresh
    refine ⟨?_, fun hb => ?_⟩
    · rw [(timer_visit_started abi fixp_sin32 now ws id hst).1, Function.update_same, hen]
    · apply timer_visit_idle abi fixp_sin32 now ws id hst
      rw [hen]
      by_contra hc
      have hpl : (ftecff_update_state abi fixp_sin32 s now).flags.playing = true := by
        simpa using hc
      have hae := (h6.1 hpl).1
      rw [h1] at hae
      unfold time_after_eq at hae
      unfold time_before at hb
      simp only [decide_eq_true_eq] at hae hb
      omega
  · have p1 : to_ulong abi (s.start_at + s.effect.replay.delay) =
        s.start_at + s.effect.replay.delay := by
      unfold to_ulong
      exact Int.emod_eq_of_lt (by omega) (by omega)
    have p2 : to_ulong abi (s.start_at + s.effect.replay.delay + s.effect.replay.length) =
        s.start_at + s.effect.replay.delay + s.effect.replay.length := by
      unfold to_ulong
      exact Int.emod_eq_of_lt (by omega) (by omega)
    have hpa : (ftecff_update_state abi fixp_sin32 s now).play_at =
        s.start_at + s.effect.replay.delay := h1.trans p1
    have hso : s.effect.replay.length ≠ 0 →
        (ftecff_update_state abi fixp_sin32 s now).stop_at =
          s.start_at + s.effect.replay.delay + s.effect.replay.length := by
      intro hl
      rw [h2 hl, hpa, p2]
    obtain ⟨c1, -, c3⟩ := time_compare_plain abi now (s.start_at + s.effect.replay.delay)
      (by omega) f
    refine ⟨hpa, hso, ?_, fun hp => ?_⟩
    · rw [h6, hpa, c1]
      by_cases hl : s.effect.replay.length = 0
      · simp [hl]
      · rw [hso hl]
        obtain ⟨-, c2, -⟩ := time_compare_plain abi now
          (s.start_at + s.effect.replay.delay + s.effect.replay.length) e (by omega)
        rw [c2]
    · rw [h7 hp, hpa]
      apply c3
      have := (h6.1 hp).1
      rw [hpa, c1] at this
      exact this

/-- Witness of C22: the entry of the Constant effect played at time 0 on the initialised
engine. -/
theorem update_state_fresh_effect_witness :
    (ftecff_update_state Abi.ilp32 fixp_sin32_peak
      ((started_engine (constant_effect 0 0x4000 0x4000)).states 0) 7).flags.allset = true :=
  (update_state_fresh_effect Abi.ilp32 fixp_sin32_peak
    ((started_engine (constant_effect 0 0x4000 0x4000)).states 0) 7 (by decide)).2.2.2.1

/-! ## Expiry and repetition -/

theorem timer_expire_due (abi : Abi) (now : Int) (s : ftecff_effect_state)
    (ha : s.flags.allset = true) (hl : s.effect.replay.length ≠ 0)
    (hdue : 0 ≤ to_long abi (now - s.stop_at)) :
    timer_expire abi now s =
      if to_u32 (s.count - 1) = 0 then
        ({ s with flags := effect_flags.zero, count := to_u32 (s.count - 1) }, true)
      else
        ({ s with flags := ⟨true, false, false, false⟩, count := to_u32 (s.count - 1),
                  start_at := s.stop_at }, false) := by
  unfold timer_expire time_after_eq
  simp only []
  rw [if_pos (by simp [ha, hl, hdue])]
  split_ifs <;> simp [effect_flags.zero]

theorem timer_entry_count (abi : Abi) (fixp_sin32 : Int → Int) (now : Int)
    (e : ftecff_effect_state) (h : count_inv e) (hs : e.flags.started = true) :
    count_inv (timer_entry abi fixp_sin32 now e) := by
  obtain ⟨c1, c2⟩ := h hs
  unfold timer_entry
  by_cases hr : (timer_expire abi now e).2 = true
  · rw [if_pos hr]
    intro hst
    rw [timer_expire_stopped abi now e hr] at hst
    exact absurd hst (by decide)
  · rw [if_neg hr]
    intro _
    rw [(update_state_frame abi fixp_sin32 _ now).2.1]
    unfold timer_expire at hr ⊢
    simp only [] at hr ⊢
    split_ifs at hr ⊢ with h1 h2
    · simp at hr
    · simp only []
      simp only [] at h2
      unfold to_u32 at h2 ⊢
      omega
    · exact ⟨c1, c2⟩

theorem reachable_count_inv (abi : Abi) (fixp_sin32 : Int → Int) (drv : ftec_drv_data)
    (h : Reachable abi fixp_sin32 drv) (k : Fin FTECFF_MAX_EFFECTS) :
    count_inv (drv.states k) := by
  induction h generalizing k with
  | init =>
    show count_inv ftecff_effect_state.zero
    intro hs
    exact absurd hs (by decide)
  | upload drv effect now _ _ _ ih =>
    unfold ftecff_upload_effect
    simp only []
    split_ifs with h1 h2 h3
    · exact ih k
    · exact ih k
    · by_cases hk : k = effect.id
      · subst hk
        simp only [Function.update_same]
        intro _
        exact ih effect.id h3
      · simp only [Function.update_noteq hk]
        exact ih k
    · by_cases hk : k = effect.id
      · subst hk
        simp only [Function.update_same]
        intro hs
        exact absurd hs h3
      · simp only [Function.update_noteq hk]
        exact ih k
  | play drv effect_id value now _ hv _ ih =>
    unfold is_int at hv
    unfold ftecff_play_effect
    simp only []
    split_ifs with h1 h2 h3
    · by_cases hk : k = effect_id
      · subst hk
        simp only [Function.update_same]
        intro _
        unfold to_u32
        simp only []
        omega
      · simp only [Function.update_noteq hk]
        exact ih k
    · by_cases hk : k = effect_id
      · subst hk
        simp only [Function.update_same]
        intro _
        unfold to_u32
        simp only []
        omega
      · simp only [Function.update_noteq hk]
        exact ih k
    · by_cases hk : k = effect_id
      · subst hk
        simp only [Function.update_same]
        intro hs
        simp [effect_flags.zero] at hs
      · simp only [Function.update_noteq hk]
        exact ih k
    · exact ih k
  | tick drv now _ _ ih =>
    unfold ftecff_timer timer_aggregate
    exact timer_walk_preserves abi fixp_sin32 now count_inv
      (fun e he hs => timer_entry_count abi fixp_sin32 now e he hs) _ _ ih k

theorem timer_visit_due (abi : Abi) (fixp_sin32 : Int → Int) (now : Int)
    (ws : timer_walk_state) (id : Fin FTECFF_MAX_EFFECTS)
    (hs : (ws.states id).flags.started = true) (ha : (ws.states id).flags.allset = true)
    (hl : (ws.states id).effect.replay.length ≠ 0)
    (hdue : 0 ≤ to_long abi (now - (ws.states id).stop_at))
    (hc : 1 ≤ (ws.states id).count ∧ (ws.states id).count < 4294967296) :
    ((ws.states id).count = 1 →
      timer_visit abi fixp_sin32 now ws id =
        { ws with
          states := Function.update ws.states id
            { ws.states id with flags := effect_flags.zero, count := 0 },
          effects_used := ws.effects_used - 1, count := ws.count - 1 }) ∧
    ((ws.states id).count ≠ 1 →
      (timer_visit abi fixp_sin32 now ws id).states =
        Function.update ws.states id
          (ftecff_update_state abi fixp_sin32
            { ws.states id with
              flags := ⟨true, false, false, false⟩, count := (ws.states id).count - 1,
              start_at := (ws.states id).stop_at } now) ∧
      (timer_visit abi fixp_sin32 now ws id).effects_used = ws.effects_used) := by
  have hexp := timer_expire_due abi now (ws.states id) ha hl hdue
  have hcount : to_u32 ((ws.states id).count - 1) = (ws.states id).count - 1 := by
    unfold to_u32
    omega
  rw [hcount] at hexp
  constructor
  · intro h1
    rw [if_pos (by omega)] at hexp
    unfold timer_visit
    simp only [hs, if_true, hexp]
    rw [h1]
    rfl
  · intro h1
    rw [if_neg (by omega)] at hexp
    unfold timer_visit timer_run_effect
    simp only [hs, if_true, hexp, Bool.false_eq_true, if_false]
    split_ifs <;> exact ⟨rfl, rfl⟩

/-- C23: when a tick at time `now` visits a Playing entry of a reachable engine whose
effect has a bounded duration and `time_after_eq(now, stop_at)` holds, the repeat count is
lowered by exactly one.  If it reaches zero, all four flags of the entry are cleared,
`effects_used` is lowered by one and the aggregates are left as they were.  Otherwise the
entry is re-armed, with only Started set and `start_at` equal to the previous `stop_at`,
and recomputed by `ftecff_update_state` in the same visit: it stays Started, keeps that
`start_at`, and its `play_at` is the previous `stop_at` plus the delay, whatever `now` is;
`effects_used` is left as it was.  No other entry is touched. -/
theorem timer_visit_expiry (abi : Abi) (fixp_sin32 : Int → Int) (drv : ftec_drv_data)
    (now : Int) (ws : timer_walk_state) (id : Fin FTECFF_MAX_EFFECTS)
    (hr : Reachable abi fixp_sin32 drv) (hws : ws.states id = drv.states id)
    (hp : (drv.states id).flags.playing = true)
    (hl : (drv.states id).effect.replay.length ≠ 0)
    (hdue : time_after_eq abi now (drv.states id).stop_at = true) :
    ((timer_visit abi fixp_sin32 now ws id).states id).count = (drv.states id).count - 1 ∧
    ((drv.states id).count = 1 →
      ((timer_visit abi fixp_sin32 now ws id).states id).flags =
        ⟨false, false, false, false⟩ ∧
      (timer_visit abi fixp_sin32 now ws id).effects_used = ws.effects_used - 1 ∧
      (timer_visit abi fixp_sin32 now ws id).parameters = ws.parameters) ∧
    ((drv.states id).count ≠ 1 →
      (timer_visit abi fixp_sin32 now ws id).states id =
        ftecff_update_state abi fixp_sin32
          { drv.states id with
            flags := ⟨true, false, false, false⟩, count := (drv.states id).count - 1,
            start_at := (drv.states id).stop_at } now ∧
      ((timer_visit abi fixp_sin32 now ws id).states id).flags.started = true ∧
      ((timer_visit abi fixp_sin32 now ws id).states id).start_at = (drv.states id).stop_at ∧
      ((timer_visit abi fixp_sin32 now ws id).states id).play_at =
        to_ulong abi ((drv.states id).stop_at + (drv.states id).effect.replay.delay) ∧
      (timer_visit abi fixp_sin32 now ws id).effects_used = ws.effects_used) ∧
    (∀ k, k ≠ id → (timer_visit abi fixp_sin32 now ws id).states k = ws.states k) := by
  obtain ⟨-, k2, k3, -, -⟩ := reachable_entry_inv abi fixp_sin32 drv hr id
  have hs : (drv.states id).flags.started = true := by
    by_contra hn
    have hz := k2 (by simpa using hn)
    rw [hz] at hp
    exact absurd hp (by decide)
  have hc := reachable_count_inv abi fixp_sin32 drv hr id hs
  unfold time_after_eq at hdue
  simp only [decide_eq_true_eq] at hdue
  obtain ⟨v1, v2⟩ := timer_visit_due abi fixp_sin32 now ws id (by rw [hws]; exact hs)
    (by rw [hws]; exact k3 hp) (by rw [hws]; exact hl) (by rw [hws]; exact hdue)
    (by rw [hws]; exact hc)
  rw [hws] at v1 v2
  have hother : ∀ k, k ≠ id → (timer_visit abi fixp_sin32 now ws id).states k = ws.states k := by
    intro k hk
    rw [(timer_visit_started abi fixp_sin32 now ws id (by rw [hws]; exact hs)).1,
      Function.update_noteq hk]
  by_cases h1 : (drv.states id).count = 1
  · have hv := v1 h1
    refine ⟨?_, fun _ => ?_, fun h => absurd h1 h, hother⟩
    · rw [hv]
      simp only [Function.update_same]
      omega
    · rw [hv]
      refine ⟨?_, ?_, ?_⟩ <;> simp [effect_flags.zero]
  · obtain ⟨hv, hu⟩ := v2 h1
    have hentry : (timer_visit abi fixp_sin32 now ws id).states id =
        ftecff_update_state abi fixp_sin32
          { drv.states id with
            flags := ⟨true, false, false, false⟩, count := (drv.states id).count - 1,
            start_at := (drv.states id).stop_at } now := by
      rw [hv, Function.update_same]
    obtain ⟨f1, f2, -⟩ := update_state_frame abi fixp_sin32
      { drv.states id with
        flags := ⟨true, false, false, false⟩, count := (drv.states id).count - 1,
        start_at := (drv.states id).stop_at } now
    obtain ⟨g1, -, g3, -⟩ := update_state_fresh abi fixp_sin32
      { drv.states id with
        flags := ⟨true, false, false, false⟩, count := (drv.states id).count - 1,
        start_at := (drv.states id).stop_at } now rfl
    refine ⟨?_, fun h => absurd h h1, fun _ => ⟨hentry, ?_, ?_, ?_, hu⟩, hother⟩
    · rw [hentry, f2]
    · rw [hentry]
      exact g3
    · rw [hentry, f1]
    · rw [hentry, g1]

/-- Witness of C23: a Constant effect of length 10 ms played twice at time 0, Playing after
the tick at time 0, visited by the tick at 10 ms. -/
theorem timer_visit_expiry_witness :
    ((timer_visit Abi.ilp32 fixp_sin32_peak 10
      { states := (bounded_playing_engine 2).states, effects_used := 1, count := 1,
        parameters := fun _ => ftecff_effect_parameters.zero } 0).states 0).count =
      ((bounded_playing_engine 2).states 0).count - 1 :=
  (timer_visit_expiry Abi.ilp32 fixp_sin32_peak (bounded_playing_engine 2) 10
    { states := (bounded_playing_engine 2).states, effects_used := 1, count := 1,
      parameters := fun _ => ftecff_effect_parameters.zero } 0
    (Reachable.tick _ 0
      (Reachable.play _ 0 2 0
        (Reachable.upload _ { constant_effect 0 0x4000 0x4000 with replay := ⟨10, 0⟩ } 0
          Reachable.init (by decide) (by decide))
        (by decide) (by decide))
      (by decide))
    rfl (by decide) (by decide) (by decide)).1

/-! ## Divisions of the envelope shaping -/

theorem constant_shaped_level_plain (abi : Abi) (state : ftecff_effect_state)
    (h1 : ¬ attack_division state) (h2 : ¬ fade_division abi state) :
    constant_shaped_level abi state = state.effect.u.constant.level := by
  unfold attack_division at h1
  unfold fade_division at h2
  unfold constant_shaped_level
  simp only []
  rw [if_neg h1]
  by_cases h3 : state.effect.replay.length ≠ 0
  · rw [if_pos h3, if_neg (fun h4 => h2 ⟨h1, h3, h4⟩)]
  · rw [if_neg h3]

theorem periodic_shaped_magnitude_plain (abi : Abi) (state : ftecff_effect_state)
    (h1 : ¬ attack_division state) (h2 : ¬ fade_division abi state) :
    periodic_shaped_magnitude abi state = state.effect.u.periodic.magnitude := by
  unfold attack_division at h1
  unfold fade_division at h2
  unfold periodic_shaped_magnitude
  simp only []
  rw [if_neg h1]
  by_cases h3 : state.effect.replay.length ≠ 0
  · rw [if_pos h3, if_neg (fun h4 => h2 ⟨h1, h3, h4⟩)]
  · rw [if_neg h3]

theorem env_fade_length_nonneg (e : ftecff_effect_state) (hwf : e.effect.wf) :
    0 ≤ e.env.fade_length := by
  obtain ⟨-, -, -, -, -, hc, -, -, hr, -, -, -, -, -, hp, -⟩ := hwf
  unfold ftecff_effect_state.env
  cases e.envelope
  · exact le_refl _
  · exact hc.2.2.1.1
  · exact hr.2.2.1.1
  · exact hp.2.2.1.1

theorem timer_playing_entry (abi : Abi) (fixp_sin32 : Int → Int) (drv : ftec_drv_data)
    (now : Int) (k : Fin FTECFF_MAX_EFFECTS) (hr : Reachable abi fixp_sin32 drv)
    (hp : ((ftecff_timer abi fixp_sin32 drv now).1.states k).flags.playing = true) :
    (drv.states k).flags.started = true ∧
    (ftecff_timer abi fixp_sin32 drv now).1.states k =
      timer_entry abi fixp_sin32 now (drv.states k) := by
  have he := timer_states_eq_entry abi fixp_sin32 drv now hr k
  by_cases hs : (drv.states k).flags.started = true
  · rw [if_pos hs] at he
    exact ⟨hs, he⟩
  · rw [if_neg hs] at he
    rw [he, (reachable_entry_inv abi fixp_sin32 drv hr k).2.1 (by simpa using hs)] at hp
    exact absurd hp (by decide)

theorem timer_shaping_safe (abi : Abi) (fixp_sin32 : Int → Int) (drv : ftec_drv_data)
    (now : Int) (k : Fin FTECFF_MAX_EFFECTS) (hr : Reachable abi fixp_sin32 drv)
    (hp : ((ftecff_timer abi fixp_sin32 drv now).1.states k).flags.playing = true) :
    (((ftecff_timer abi fixp_sin32 drv now).1.states k).effect.replay.length ≠ 0 →
      to_long abi (((ftecff_timer abi fixp_sin32 drv now).1.states k).time_playing -
        ((ftecff_timer abi fixp_sin32 drv now).1.states k).effect.replay.length) < 0 ∧
      (0 ≤ to_long abi (now - ((ftecff_timer abi fixp_sin32 drv now).1.states k).play_at) →
        ((ftecff_timer abi fixp_sin32 drv now).1.states k).time_playing <
          ((ftecff_timer abi fixp_sin32 drv now).1.states k).effect.replay.length)) ∧
    (attack_division ((ftecff_timer abi fixp_sin32 drv now).1.states k) →
      0 < ((ftecff_timer abi fixp_sin32 drv now).1.states k).env.attack_length) ∧
    (fade_division abi ((ftecff_timer abi fixp_sin32 drv now).1.states k) →
      0 < ((ftecff_timer abi fixp_sin32 drv now).1.states k).env.fade_length) := by
  obtain ⟨hs, he⟩ := timer_playing_entry abi fixp_sin32 drv now k hr hp
  have hinv := reachable_entry_inv abi fixp_sin32 drv hr k
  obtain ⟨hinv2, heff, hplay⟩ := timer_entry_spec abi fixp_sin32 now (drv.states k) hinv hs
  rw [he] at hp ⊢
  obtain ⟨-, -, htp, hstop⟩ := hplay hp
  have hwf := hinv2.1
  have hlen : is_u16 (timer_entry abi fixp_sin32 now (drv.states k)).effect.replay.length :=
    hwf.2.2.1
  have hsigned : (timer_entry abi fixp_sin32 now (drv.states k)).effect.replay.length ≠ 0 →
      to_long abi ((timer_entry abi fixp_sin32 now (drv.states k)).time_playing -
        (timer_entry abi fixp_sin32 now (drv.states k)).effect.replay.length + 0) < 0 := by
    intro hl
    rw [heff] at hl ⊢
    obtain ⟨hlt, hst⟩ := hstop hl
    rw [htp, to_long_time_playing, ← hst]
    exact hlt
  refine ⟨fun hl => ⟨?_, fun hge => ?_⟩, fun ha => ?_, fun hf => ?_⟩
  · have := hsigned hl
    rwa [add_zero] at this
  · have h1 := hsigned hl
    rw [add_zero, htp] at h1
    rw [htp]
    unfold is_u16 at hlen
    revert h1 hge
    generalize (timer_entry abi fixp_sin32 now (drv.states k)).effect.replay.length = len
      at hlen ⊢
    generalize (timer_entry abi fixp_sin32 now (drv.states k)).play_at = pa
    unfold to_long to_ulong
    cases abi <;> simp only [Abi.long_half, Abi.ulong_modulus] <;> omega
  · unfold attack_division at ha
    rw [htp] at ha
    have := to_ulong_nonneg abi (now - (timer_entry abi fixp_sin32 now (drv.states k)).play_at)
    omega
  · obtain ⟨-, hl, ht⟩ := hf
    have h0 := env_fade_length_nonneg _ hwf
    by_contra hn
    have hz : (timer_entry abi fixp_sin32 now (drv.states k)).env.fade_length = 0 := by omega
    rw [hz] at ht
    have := hsigned hl
    omega

/-- C27 as stated fails: `JIFFIES2MS(jiffies)` is not monotonic.  A Constant effect of
length 1000 ms played at 42949660 ms is Playing after the tick at 42949670 ms; at the next
tick the clock reads 7 ms, the entry stays Playing, the tick passes it to
`ftecff_calculate_constant`, and its `time_playing` is `7 - 42949660` as an `unsigned long`,
4252017643, not below the length.  Neither division is evaluated. -/
theorem time_playing_exceeds_length_counterexample :
    (clock_wrap_engine.states 0).flags.playing = true ∧
    (clock_wrap_engine.states 0).effect.type = FF_CONSTANT ∧
    (clock_wrap_engine.states 0).effect.replay.length = 1000 ∧
    (clock_wrap_engine.states 0).time_playing = 4252017643 ∧
    ¬ attack_division (clock_wrap_engine.states 0) ∧
    ¬ fade_division Abi.ilp32 (clock_wrap_engine.states 0) := by
  decide

/-- C27, amended: on every engine reachable from initialisation, every entry that a tick
leaves Playing, which are the entries it passes to `ftecff_calculate_constant` and
`ftecff_calculate_periodic`, satisfies `(long)(time_playing - length) < 0` when its length
is bounded, and `time_playing < length` when moreover `now` is not before its `play_at`;
the division by `attack_length` is evaluated only with `attack_length > 0` and the
division by `fade_length` only with `fade_length > 0`. -/
theorem timer_shaping_divisions (abi : Abi) (fixp_sin32 : Int → Int) (drv : ftec_drv_data)
    (now : Int) (k : Fin FTECFF_MAX_EFFECTS) (hr : Reachable abi fixp_sin32 drv)
    (hp : ((ftecff_timer abi fixp_sin32 drv now).1.states k).flags.playing = true) :
    (((ftecff_timer abi fixp_sin32 drv now).1.states k).effect.replay.length ≠ 0 →
      to_long abi (((ftecff_timer abi fixp_sin32 drv now).1.states k).time_playing -
        ((ftecff_timer abi fixp_sin32 drv now).1.states k).effect.replay.length) < 0 ∧
      (0 ≤ to_long abi (now - ((ftecff_timer abi fixp_sin32 drv now).1.states k).play_at) →
        ((ftecff_timer abi fixp_sin32 drv now).1.states k).time_playing <
          ((ftecff_timer abi fixp_sin32 drv now).1.states k).effect.replay.length)) ∧
    (attack_division ((ftecff_timer abi fixp_sin32 drv now).1.states k) →
      0 < ((ftecff_timer abi fixp_sin32 drv now).1.states k).env.attack_length) ∧
    (fade_division abi ((ftecff_timer abi fixp_sin32 drv now).1.states k) →
      0 < ((ftecff_timer abi fixp_sin32 drv now).1.states k).env.fade_length) :=
  timer_shaping_safe abi fixp_sin32 drv now k hr hp

/-- Witness of C27, amended: the Constant effect of length 10 ms, Playing after the tick at
time 0, at the tick at 5 ms. -/
theorem timer_shaping_divisions_witness :
    ((ftecff_timer Abi.ilp32 fixp_sin32_peak (bounded_playing_engine 2) 5).1.states 0
      ).time_playing <
    ((ftecff_timer Abi.ilp32 fixp_sin32_peak (bounded_playing_engine 2) 5).1.states 0
      ).effect.replay.length :=
  ((timer_shaping_divisions Abi.ilp32 fixp_sin32_peak (bounded_playing_engine 2) 5 0
    (Reachable.tick _ 0
      (Reachable.play _ 0 2 0
        (Reachable.upload _ { constant_effect 0 0x4000 0x4000 with replay := ⟨10, 0⟩ } 0
          Reachable.init (by decide) (by decide))
        (by decide) (by decide))
      (by decide))
    (by decide)).1 (by decide)).2 (by decide)

/-! ## Waveforms of a Periodic effect -/

theorem fixp_sin16_cases (fixp_sin32 : Int → Int) (v : Int) :
    (Int.tmod v 360 > 180 →
      fixp_sin16 fixp_sin32 v =
        -(to_s32 (fixp_sin32 (to_s32 (Int.tmod v 360 - 180))) >>> (16 : Nat))) ∧
    (Int.tmod v 360 ≤ 180 →
      fixp_sin16 fixp_sin32 v = to_s32 (fixp_sin32 (to_s32 v)) >>> (16 : Nat)) ∧
    -32768 ≤ fixp_sin16 fixp_sin32 v ∧ fixp_sin16 fixp_sin32 v ≤ 32768 := by
  refine ⟨fun h => ?_, fun h => ?_, ?_⟩
  · unfold fixp_sin16
    rw [if_pos h]
  · unfold fixp_sin16
    rw [if_neg (by omega)]
  · unfold fixp_sin16 to_s32
    split_ifs <;> rw [Int.shiftRight_eq_div_pow] <;> norm_num <;> omega

theorem scale_back_0x7fff (x : Int) (h0 : -32768 ≤ x) (h1 : x ≤ 32768) :
    Int.tdiv (to_s32 (x * 0x7fff)) 0x7fff = x := by
  have : to_s32 (x * 0x7fff) = x * 0x7fff := by
    unfold to_s32
    omega
  rw [this, Int.mul_tdiv_cancel _ (by decide)]

theorem sine_term_full_scale (fixp_sin32 : Int → Int) (phase : Int) :
    waveform_term fixp_sin32 FF_SINE phase 0x7fff = fixp_sin16 fixp_sin32 phase := by
  obtain ⟨-, -, h0, h1⟩ := fixp_sin16_cases fixp_sin32 phase
  unfold waveform_term
  rw [if_pos rfl]
  exact scale_back_0x7fff _ h0 h1


/-- The Sine effect of the scenario, uploaded and played at time 0 and recomputed by the
tick at 90 ms, is Playing with phase 90 and shaped magnitude `0x7fff`, and its value is
`direction_gain * fixp_sin16(90) / 0x7fff`. -/
theorem sine_scenario_tick (abi : Abi) (fixp_sin32 : Int → Int) :
    ((ftecff_timer abi fixp_sin32 (started_engine sine_scenario_effect) 90).1.states 0
      ).flags.playing = true ∧
    ((ftecff_timer abi fixp_sin32 (started_engine sine_scenario_effect) 90).1.states 0
      ).phase = 90 ∧
    periodic_shaped_magnitude abi
      ((ftecff_timer abi fixp_sin32 (started_engine sine_scenario_effect) 90).1.states 0)
      = 0x7fff ∧
    ftecff_calculate_periodic abi fixp_sin32
      ((ftecff_timer abi fixp_sin32 (started_engine sine_scenario_effect) 90).1.states 0) =
      Int.tdiv (to_s32 (direction_gain_of fixp_sin32 sine_scenario_effect *
        fixp_sin16 fixp_sin32 90)) 0x7fff := by
  have hr : Reachable abi fixp_sin32 (started_engine sine_scenario_effect) := by
    have hnow : is_ulong abi 0 := by
      unfold is_ulong
      cases abi <;> simp [Abi.ulong_modulus]
    exact Reachable.play _ 0 1 0
      (Reachable.upload _ sine_scenario_effect 0 Reachable.init (by decide) hnow)
      (by decide) hnow
  have hfresh : ((started_engine sine_scenario_effect).states 0).flags =
      ⟨true, false, false, false⟩ := by decide
  have heff0 : ((started_engine sine_scenario_effect).states 0).effect =
      sine_scenario_effect := by decide
  have hentry : (ftecff_timer abi fixp_sin32 (started_engine sine_scenario_effect) 90).1.states 0
      = ftecff_update_state abi fixp_sin32
          ((started_engine sine_scenario_effect).states 0) 90 := by
    rw [timer_states_eq_entry abi fixp_sin32 _ 90 hr 0, if_pos (by rw [hfresh]),
      timer_entry_fresh abi fixp_sin32 _ 90 hfresh]
  rw [hentry]
  generalize hs : (started_engine sine_scenario_effect).states 0 = s at hfresh heff0
  obtain ⟨g1, -, -, -, -, g6, g7⟩ := update_state_fresh abi fixp_sin32 s 90 hfresh
  obtain ⟨y1, -, -, -, y5, y6, -, -, -⟩ := update_state_spec abi fixp_sin32 s 90
    (fun h => by rw [hfresh] at h; exact absurd h (by decide))
    (fun h => by rw [hfresh] at h; exact absurd h (by decide))
    (fun h => by rw [hfresh] at h; exact absurd h (by decide))
  obtain ⟨-, -, -, f4, f5, -, -, f8, -⟩ := update_state_frame abi fixp_sin32 s 90
  have hstart : s.start_at = 0 := by rw [← hs]; decide
  have hplay : (ftecff_update_state abi fixp_sin32 s 90).play_at = 0 := by
    rw [g1, heff0, hstart]
    cases abi <;> decide
  have hupd : (ftecff_update_state abi fixp_sin32 s 90).updated_at = 0 := by
    rw [f4, if_neg (by rw [hfresh]; decide), heff0, hstart]
    cases abi <;> decide
  have hadj : (ftecff_update_state abi fixp_sin32 s 90).phase_adj = 0 := by
    rw [f5, if_pos (by rw [heff0]; decide), if_neg (by rw [hfresh]; decide),
      if_neg (by rw [hfresh]; decide), heff0]
    decide
  have hp : (ftecff_update_state abi fixp_sin32 s 90).flags.playing = true := by
    rw [g6, hplay]
    refine ⟨?_, Or.inl (by rw [heff0]; decide)⟩
    cases abi <;> decide
  have hphase : (ftecff_update_state abi fixp_sin32 s 90).phase = 90 := by
    rw [f8, if_pos ⟨hp, by rw [heff0]; decide⟩, hupd, hadj, heff0]
    cases abi <;> decide
  have htp : (ftecff_update_state abi fixp_sin32 s 90).time_playing = 90 := by
    rw [g7 hp, hplay]
    cases abi <;> decide
  have henv : (ftecff_update_state abi fixp_sin32 s 90).env = ff_envelope.zero := by
    unfold ftecff_effect_state.env
    rw [y5, y1, heff0]
    decide
  have hmag : periodic_shaped_magnitude abi (ftecff_update_state abi fixp_sin32 s 90)
      = 0x7fff := by
    unfold periodic_shaped_magnitude
    simp only []
    rw [henv, htp, y1, heff0]
    cases abi <;> decide
  refine ⟨hp, hphase, hmag, ?_⟩
  unfold ftecff_calculate_periodic
  simp only []
  rw [hmag, hphase, y6, y1, heff0]
  have hw : sine_scenario_effect.u.periodic.waveform = FF_SINE := by decide
  have ho : sine_scenario_effect.u.periodic.offset = 0 := by decide
  rw [hw, ho, sine_term_full_scale, zero_add]
  obtain ⟨-, -, h0, h1⟩ := fixp_sin16_cases fixp_sin32 90
  have : to_s32 (fixp_sin16 fixp_sin32 90) = fixp_sin16 fixp_sin32 90 := by
    unfold to_s32
    omega
  rw [this]

/-- C21: for every `fixp_sin32`, the waveform term that `ftecff_calculate_periodic`
computes for a Sine effect of magnitude `0x7fff` at phase 90,
`fixp_sin16(90) * magnitude / 0x7fff`, is `fixp_sin16(90)`, which is `fixp_sin32(90) >> 16`;
it differs from the magnitude by `0x7fff - (fixp_sin32(90) >> 16)`, the error of the sine at
its peak, and equals the magnitude when `fixp_sin32(90)` is `0x7fffffff`.  The redefined
`fixp_sin16(v)` is `-(fixp_sin32((v % 360) - 180) >> 16)` when `v % 360 > 180` and
`fixp_sin32(v) >> 16` otherwise, and lies in `[-0x8000, 0x8000]`.  The effect of the
scenario, played at time 0, has phase 90 at the tick at 90 ms, and its value there is
`direction_gain * fixp_sin16(90) / 0x7fff`. -/
theorem sine_peak_term (fixp_sin32 : Int → Int) :
    waveform_term fixp_sin32 FF_SINE 90 0x7fff = fixp_sin16 fixp_sin32 90 ∧
    fixp_sin16 fixp_sin32 90 = to_s32 (fixp_sin32 90) >>> (16 : Nat) ∧
    0x7fff - waveform_term fixp_sin32 FF_SINE 90 0x7fff =
      0x7fff - (to_s32 (fixp_sin32 90) >>> (16 : Nat)) ∧
    (fixp_sin32 90 = 0x7fffffff → waveform_term fixp_sin32 FF_SINE 90 0x7fff = 0x7fff) ∧
    (∀ v, (Int.tmod v 360 > 180 →
        fixp_sin16 fixp_sin32 v =
          -(to_s32 (fixp_sin32 (to_s32 (Int.tmod v 360 - 180))) >>> (16 : Nat))) ∧
      (Int.tmod v 360 ≤ 180 →
        fixp_sin16 fixp_sin32 v = to_s32 (fixp_sin32 (to_s32 v)) >>> (16 : Nat)) ∧
      -32768 ≤ fixp_sin16 fixp_sin32 v ∧ fixp_sin16 fixp_sin32 v ≤ 32768) ∧
    (∀ abi,
      ((ftecff_timer abi fixp_sin32 (started_engine sine_scenario_effect) 90).1.states 0
        ).phase = 90 ∧
      ftecff_calculate_periodic abi fixp_sin32
        ((ftecff_timer abi fixp_sin32 (started_engine sine_scenario_effect) 90).1.states 0) =
        Int.tdiv (to_s32 (direction_gain_of fixp_sin32 sine_scenario_effect *
          fixp_sin16 fixp_sin32 90)) 0x7fff) := by
  have h1 := sine_term_full_scale fixp_sin32 90
  have h2 : fixp_sin16 fixp_sin32 90 = to_s32 (fixp_sin32 90) >>> (16 : Nat) :=
    (fixp_sin16_cases fixp_sin32 90).2.1 (by decide)
  refine ⟨h1, h2, by rw [h1, h2], fun h => ?_, fun v => fixp_sin16_cases fixp_sin32 v,
    fun abi => ⟨(sine_scenario_tick abi fixp_sin32).2.1,
      (sine_scenario_tick abi fixp_sin32).2.2.2⟩⟩
  rw [h1, h2, h]
  decide

theorem product_fits_int (g l : Int) (hg0 : -32768 ≤ g) (hg1 : g ≤ 32768)
    (hl0 : -65535 ≤ l) (hl1 : l ≤ 65535) : to_s32 (g * l) = g * l := by
  have h1 : 0 ≤ (g + 32768) * (l + 65535) := mul_nonneg (by omega) (by omega)
  have h2 : 0 ≤ (32768 - g) * (65535 - l) := mul_nonneg (by omega) (by omega)
  have h3 : 0 ≤ (g + 32768) * (65535 - l) := mul_nonneg (by omega) (by omega)
  have h4 : 0 ≤ (32768 - g) * (l + 65535) := mul_nonneg (by omega) (by omega)
  have b1 : -2147483648 ≤ g * l := by nlinarith
  have b2 : g * l < 2147483648 := by nlinarith
  unfold to_s32
  omega

/-- With a magnitude in `[0, 0x7fff]`, a phase in `[0, 718]` and an `__s16` offset, the
`level` that `ftecff_calculate_periodic` computes for the Square, Triangle, Sawtooth-up and
Sawtooth-down waveforms is the offset plus the waveform of the specification. -/
theorem periodic_level_nonneg (fixp_sin32 : Int → Int) (waveform : Nat) (p m o : Int)
    (hw : waveform = FF_SQUARE ∨ waveform = FF_TRIANGLE ∨ waveform = FF_SAW_UP ∨
      waveform = FF_SAW_DOWN)
    (hp0 : 0 ≤ p) (hp1 : p ≤ 718) (hm0 : 0 ≤ m) (hm1 : m ≤ 0x7fff) (ho : is_s16 o) :
    to_s32 (o + waveform_term fixp_sin32 waveform p m) = o + spec_waveform waveform p m := by
  unfold is_s16 at ho
  have hm : to_u32 m = m := by
    unfold to_u32
    omega
  have hx0 : 0 ≤ p * m := mul_nonneg hp0 hm0
  have hx1 : p * m ≤ 718 * 32767 := by nlinarith
  have hq : Int.tdiv (p * m * 2) 360 = p * m * 2 / 360 :=
    Int.tdiv_eq_ediv (by omega) (by decide)
  have hramp : phase_ramp p m = p * m * 2 / 360 := by
    unfold phase_ramp
    rw [hm]
    unfold to_u32
    omega
  have hq0 : 0 ≤ p * m * 2 / 360 := Int.ediv_nonneg (by omega) (by decide)
  have hq1 : p * m * 2 / 360 ≤ 131000 := by omega
  unfold waveform_term spec_waveform
  rcases hw with h | h | h | h
  · rw [h]
    simp only [show ¬ (FF_SQUARE = FF_SINE) by decide, if_false, if_true]
    unfold to_s32
    split_ifs <;> omega
  · rw [h]
    simp only [show ¬ (FF_TRIANGLE = FF_SINE) by decide,
      show ¬ (FF_TRIANGLE = FF_SQUARE) by decide, if_false, if_true]
    rw [hramp, hq]
    generalize p * m * 2 / 360 = q at hq0 hq1
    unfold abs_int to_s32 to_u32
    rcases abs_cases (q - m) with ⟨he, _⟩ | ⟨he, _⟩ <;> rw [he] <;> split_ifs <;> omega
  · rw [h]
    simp only [show ¬ (FF_SAW_UP = FF_SINE) by decide,
      show ¬ (FF_SAW_UP = FF_SQUARE) by decide, show ¬ (FF_SAW_UP = FF_TRIANGLE) by decide,
      if_false, if_true]
    rw [hramp, hq]
    generalize p * m * 2 / 360 = q at hq0 hq1
    unfold to_s32 to_u32
    omega
  · rw [h]
    simp only [show ¬ (FF_SAW_DOWN = FF_SINE) by decide,
      show ¬ (FF_SAW_DOWN = FF_SQUARE) by decide, show ¬ (FF_SAW_DOWN = FF_TRIANGLE) by decide,
      show ¬ (FF_SAW_DOWN = FF_SAW_UP) by decide, if_false, if_true]
    rw [hramp, hq]
    generalize p * m * 2 / 360 = q at hq0 hq1
    unfold to_s32 to_u32
    omega

/-- With a shaped magnitude in `[0, 0x7fff]`, a phase in `[0, 360)`, an `__s16` offset and a
direction gain in the range of `fixp_sin16`, `ftecff_calculate_periodic` returns the value
of the specification for the Square, Triangle, Sawtooth-up and Sawtooth-down waveforms. -/
theorem calculate_periodic_nonneg (abi : Abi) (fixp_sin32 : Int → Int)
    (state : ftecff_effect_state)
    (hw : state.effect.u.periodic.waveform = FF_SQUARE ∨
      state.effect.u.periodic.waveform = FF_TRIANGLE ∨
      state.effect.u.periodic.waveform = FF_SAW_UP ∨
      state.effect.u.periodic.waveform = FF_SAW_DOWN)
    (hp0 : 0 ≤ state.phase) (hp1 : state.phase < 360)
    (hm0 : 0 ≤ periodic_shaped_magnitude abi state)
    (hm1 : periodic_shaped_magnitude abi state ≤ 0x7fff)
    (ho : is_s16 state.effect.u.periodic.offset)
    (hg0 : -32768 ≤ state.direction_gain) (hg1 : state.direction_gain ≤ 32768) :
    ftecff_calculate_periodic abi fixp_sin32 state =
      spec_periodic_value state.effect.u.periodic.waveform state.phase
        (periodic_shaped_magnitude abi state) state.effect.u.periodic.offset
        state.direction_gain := by
  have hlevel := periodic_level_nonneg fixp_sin32 state.effect.u.periodic.waveform state.phase
    (periodic_shaped_magnitude abi state) state.effect.u.periodic.offset hw hp0 (by omega)
    hm0 hm1 ho
  unfold ftecff_calculate_periodic spec_periodic_value
  simp only []
  rw [hlevel]
  congr 1
  unfold is_s16 at ho
  generalize periodic_shaped_magnitude abi state = m at hm0 hm1
  generalize state.phase = p at hp0 hp1
  have hx0 : 0 ≤ p * m := mul_nonneg hp0 hm0
  have hx1 : p * m ≤ 359 * m := by nlinarith
  have hq : Int.tdiv (p * m * 2) 360 = p * m * 2 / 360 :=
    Int.tdiv_eq_ediv (by omega) (by decide)
  have hq0 : 0 ≤ p * m * 2 / 360 := Int.ediv_nonneg (by omega) (by decide)
  have hq1 : p * m * 2 / 360 ≤ 2 * m := by omega
  apply product_fits_int _ _ hg0 hg1
  · unfold spec_waveform
    rw [hq]
    generalize p * m * 2 / 360 = q at hq0 hq1
    rcases abs_cases (q - m) with ⟨he, _⟩ | ⟨he, _⟩ <;> rw [he] <;> split_ifs <;> omega
  · unfold spec_waveform
    rw [hq]
    generalize p * m * 2 / 360 = q at hq0 hq1
    rcases abs_cases (q - m) with ⟨he, _⟩ | ⟨he, _⟩ <;> rw [he] <;> split_ifs <;> omega

/-- C24, the code at the failing input: for a Sawtooth-up effect of magnitude -1000 with
offset 0, no envelope and direction gain `0x7fff`, at phase 90, `ftecff_calculate_periodic`
returns 3047 where the formula gives 500; for Sawtooth-down it returns -3047 where the
formula gives -500, and for Triangle 7095 where the formula gives 2000; with a 32-bit and
with a 64-bit `long` alike.  The product `state->phase * magnitude` is an `unsigned int`
operation, so the waveform term of the Sawtooth-up effect is 11930964.  The same value,
3047, is the Constant aggregate of the tick at 90 ms after the Sawtooth-up effect with
period 360 was uploaded and played on the initialised engine. -/
theorem calculate_periodic_negative_magnitude :
    periodic_shaped_magnitude Abi.ilp32 (periodic_example FF_SAW_UP (-1000) 90) = -1000 ∧
    waveform_term fixp_sin32_peak FF_SAW_UP 90 (-1000) = 11930964 ∧
    ftecff_calculate_periodic Abi.ilp32 fixp_sin32_peak
      (periodic_example FF_SAW_UP (-1000) 90) = 3047 ∧
    ftecff_calculate_periodic Abi.lp64 fixp_sin32_peak
      (periodic_example FF_SAW_UP (-1000) 90) = 3047 ∧
    spec_periodic_value FF_SAW_UP 90 (-1000) 0 0x7fff = 500 ∧
    ftecff_calculate_periodic Abi.ilp32 fixp_sin32_peak
      (periodic_example FF_SAW_DOWN (-1000) 90) = -3047 ∧
    spec_periodic_value FF_SAW_DOWN 90 (-1000) 0 0x7fff = -500 ∧
    ftecff_calculate_periodic Abi.ilp32 fixp_sin32_peak
      (periodic_example FF_TRIANGLE (-1000) 90) = 7095 ∧
    spec_periodic_value FF_TRIANGLE 90 (-1000) 0 0x7fff = 2000 ∧
    ((ftecff_timer Abi.ilp32 fixp_sin32_peak
      (started_engine (periodic_example FF_SAW_UP (-1000) 0).effect) 90).1.states 0).phase
      = 90 ∧
    ((timer_aggregate Abi.ilp32 fixp_sin32_peak
      (started_engine (periodic_example FF_SAW_UP (-1000) 0).effect) 90).parameters 0).level
      = 3047 ∧
    ((timer_aggregate Abi.lp64 fixp_sin32_peak
      (started_engine (periodic_example FF_SAW_UP (-1000) 0).effect) 90).parameters 0).level
      = 3047 := by
  decide

/-! ## Folding of Spring and Damper effects -/

theorem timer_visit_parameters (abi : Abi) (fixp_sin32 : Int → Int) (now : Int)
    (ws : timer_walk_state) (id : Fin FTECFF_MAX_EFFECTS) :
    (timer_visit abi fixp_sin32 now ws id).parameters =
      visit_parameters abi fixp_sin32 now (ws.states id) ws.parameters := by
  unfold visit_parameters
  by_cases hs : (ws.states id).flags.started = true
  · rw [(timer_visit_started abi fixp_sin32 now ws id hs).2.2]
    by_cases hp : (timer_entry abi fixp_sin32 now (ws.states id)).flags.playing = true
    · rw [if_pos hp, if_pos ⟨hs, hp⟩]
    · rw [if_neg hp, if_neg (fun h => hp h.2)]
  · have hs' : (ws.states id).flags.started = false := by simpa using hs
    rw [timer_visit_not_started abi fixp_sin32 now ws id hs', if_neg (fun h => hs h.1)]

theorem timer_visit_other (abi : Abi) (fixp_sin32 : Int → Int) (now : Int)
    (ws : timer_walk_state) (id k : Fin FTECFF_MAX_EFFECTS) (hk : k ≠ id) :
    (timer_visit abi fixp_sin32 now ws id).states k = ws.states k := by
  by_cases hs : (ws.states id).flags.started = true
  · rw [(timer_visit_started abi fixp_sin32 now ws id hs).1, Function.update_noteq hk]
  · have hs' : (ws.states id).flags.started = false := by simpa using hs
    rw [timer_visit_not_started abi fixp_sin32 now ws id hs']

/-- The aggregates after the walk over every id of a list without repetition are the
aggregates before it, folded with the contribution of each entry as the walk found it. -/
theorem timer_walk_full_parameters (abi : Abi) (fixp_sin32 : Int → Int) (now : Int)
    (l : List (Fin FTECFF_MAX_EFFECTS)) (hl : l.Nodup) (ws : timer_walk_state) :
    (timer_walk_full abi fixp_sin32 now l ws).parameters =
      l.foldl (fun p k => visit_parameters abi fixp_sin32 now (ws.states k) p)
        ws.parameters := by
  induction l generalizing ws with
  | nil => rfl
  | cons id rest ih =>
    have hid : id ∉ rest := (List.nodup_cons.1 hl).1
    have hrest : rest.Nodup := (List.nodup_cons.1 hl).2
    rw [timer_walk_full_cons, ih hrest, timer_visit_parameters, List.foldl_cons]
    apply List.foldl_ext
    intro p k hk
    have hne : k ≠ id := fun he => hid (he ▸ hk)
    rw [timer_visit_other abi fixp_sin32 now ws id k hne]

theorem calculate_spring_fold (state : ftecff_effect_state)
    (parameters : ftecff_effect_parameters) :
    (ftecff_calculate_spring state parameters).k1 =
      parameters.k1 + state.effect.u.condition.left_coeff ∧
    (ftecff_calculate_spring state parameters).k2 =
      parameters.k2 + state.effect.u.condition.right_coeff ∧
    (ftecff_calculate_spring state parameters).d1 =
      min parameters.d1
        (state.effect.u.condition.center - Int.tdiv state.effect.u.condition.deadband 2) ∧
    (ftecff_calculate_spring state parameters).d2 =
      max parameters.d2
        (state.effect.u.condition.center + Int.tdiv state.effect.u.condition.deadband 2) ∧
    (ftecff_calculate_spring state parameters).clip =
      max parameters.clip
        (max state.effect.u.condition.left_saturation
          state.effect.u.condition.right_saturation) ∧
    (ftecff_calculate_spring state parameters).level = parameters.level := by
  unfold ftecff_calculate_spring cmax
  simp only []
  refine ⟨?_, ?_, ?_, ?_, ?_, ?_⟩
  · split_ifs <;> rfl
  · split_ifs <;> rfl
  · split_ifs <;> (try dsimp only at *) <;> omega
  · split_ifs <;> (try dsimp only at *) <;> omega
  · split_ifs <;> (try dsimp only at *) <;> omega
  · split_ifs <;> rfl

theorem calculate_resistance_fold (state : ftecff_effect_state)
    (parameters : ftecff_effect_parameters) :
    (ftecff_calculate_resistance state parameters).k1 =
      parameters.k1 + state.effect.u.condition.left_coeff ∧
    (ftecff_calculate_resistance state parameters).k2 =
      parameters.k2 + state.effect.u.condition.right_coeff ∧
    (ftecff_calculate_resistance state parameters).d1 = parameters.d1 ∧
    (ftecff_calculate_resistance state parameters).d2 = parameters.d2 ∧
    (ftecff_calculate_resistance state parameters).clip =
      max parameters.clip
        (max state.effect.u.condition.left_saturation
          state.effect.u.condition.right_saturation) ∧
    (ftecff_calculate_resistance state parameters).level = parameters.level := by
  unfold ftecff_calculate_resistance cmax
  simp only []
  refine ⟨trivial, trivial, trivial, trivial, ?_, trivial⟩
  split_ifs <;> omega

theorem visit_parameters_spring (abi : Abi) (fixp_sin32 : Int → Int) (now : Int)
    (e : ftecff_effect_state) (p : Fin 4 → ftecff_effect_parameters) :
    visit_parameters abi fixp_sin32 now e p 1 =
      if contributes abi fixp_sin32 now FF_SPRING e then
        ftecff_calculate_spring (timer_entry abi fixp_sin32 now e) (p 1)
      else p 1 := by
  have heff := timer_entry_effect abi fixp_sin32 now e
  unfold visit_parameters contributes
  by_cases hsp : e.flags.started = true ∧
      (timer_entry abi fixp_sin32 now e).flags.playing = true
  · rw [if_pos hsp]
    unfold timer_accumulate
    rw [heff]
    by_cases h2 : e.effect.type = FF_SPRING
    · have h1 : ¬ e.effect.type = FF_CONSTANT := by rw [h2]; decide
      rw [if_neg h1, if_pos h2, Function.update_same, if_pos ⟨hsp.1, hsp.2, h2⟩]
    · have hc : ¬ (e.flags.started = true ∧
          (timer_entry abi fixp_sin32 now e).flags.playing = true ∧
          e.effect.type = FF_SPRING) := fun h => h2 h.2.2
      rw [if_neg hc]
      split_ifs
      · exact Function.update_noteq (show (1 : Fin 4) ≠ 0 by decide) _ _
      · exact Function.update_noteq (show (1 : Fin 4) ≠ 2 by decide) _ _
      · exact Function.update_noteq (show (1 : Fin 4) ≠ 0 by decide) _ _
      · rfl
  · have hc : ¬ (e.flags.started = true ∧
        (timer_entry abi fixp_sin32 now e).flags.playing = true ∧
        e.effect.type = FF_SPRING) := fun h => hsp ⟨h.1, h.2.1⟩
    rw [if_neg hsp, if_neg hc]

theorem visit_parameters_damper (abi : Abi) (fixp_sin32 : Int → Int) (now : Int)
    (e : ftecff_effect_state) (p : Fin 4 → ftecff_effect_parameters) :
    visit_parameters abi fixp_sin32 now e p 2 =
      if contributes abi fixp_sin32 now FF_DAMPER e then
        ftecff_calculate_resistance (timer_entry abi fixp_sin32 now e) (p 2)
      else p 2 := by
  have heff := timer_entry_effect abi fixp_sin32 now e
  unfold visit_parameters contributes
  by_cases hsp : e.flags.started = true ∧
      (timer_entry abi fixp_sin32 now e).flags.playing = true
  · rw [if_pos hsp]
    unfold timer_accumulate
    rw [heff]
    by_cases h3 : e.effect.type = FF_DAMPER
    · have h1 : ¬ e.effect.type = FF_CONSTANT := by rw [h3]; decide
      have h2 : ¬ e.effect.type = FF_SPRING := by rw [h3]; decide
      rw [if_neg h1, if_neg h2, if_pos h3, Function.update_same, if_pos ⟨hsp.1, hsp.2, h3⟩]
    · have hc : ¬ (e.flags.started = true ∧
          (timer_entry abi fixp_sin32 now e).flags.playing = true ∧
          e.effect.type = FF_DAMPER) := fun h => h3 h.2.2
      rw [if_neg hc]
      split_ifs
      · exact Function.update_noteq (show (2 : Fin 4) ≠ 0 by decide) _ _
      · exact Function.update_noteq (show (2 : Fin 4) ≠ 1 by decide) _ _
      · exact Function.update_noteq (show (2 : Fin 4) ≠ 0 by decide) _ _
      · rfl
  · have hc : ¬ (e.flags.started = true ∧
        (timer_entry abi fixp_sin32 now e).flags.playing = true ∧
        e.effect.type = FF_DAMPER) := fun h => hsp ⟨h.1, h.2.1⟩
    rw [if_neg hsp, if_neg hc]

theorem visit_parameters_condition (abi : Abi) (fixp_sin32 : Int → Int) (now : Int)
    (i : Fin 4) (type : Nat) (hcat : condition_category i type) (e : ftecff_effect_state)
    (p : Fin 4 → ftecff_effect_parameters) :
    (visit_parameters abi fixp_sin32 now e p i).k1 =
      (p i).k1 + (if contributes abi fixp_sin32 now type e then
        e.effect.u.condition.left_coeff else 0) ∧
    (visit_parameters abi fixp_sin32 now e p i).k2 =
      (p i).k2 + (if contributes abi fixp_sin32 now type e then
        e.effect.u.condition.right_coeff else 0) ∧
    (visit_parameters abi fixp_sin32 now e p i).clip =
      (if contributes abi fixp_sin32 now type e then max (p i).clip (saturation e)
       else (p i).clip) := by
  have heff := timer_entry_effect abi fixp_sin32 now e
  obtain ⟨s1, s2, -, -, s5, -⟩ := calculate_spring_fold (timer_entry abi fixp_sin32 now e) (p 1)
  obtain ⟨r1, r2, -, -, r5, -⟩ :=
    calculate_resistance_fold (timer_entry abi fixp_sin32 now e) (p 2)
  rw [heff] at s1 s2 s5 r1 r2 r5
  have hsat : saturation e = max e.effect.u.condition.left_saturation
      e.effect.u.condition.right_saturation := by
    unfold saturation cmax
    rw [max_def]
    split_ifs <;> omega
  rw [hsat]
  rcases hcat with ⟨hi, ht⟩ | ⟨hi, ht⟩
  · subst hi ht
    rw [visit_parameters_spring]
    by_cases hc : contributes abi fixp_sin32 now FF_SPRING e
    · simp only [if_pos hc]
      exact ⟨s1, s2, s5⟩
    · simp only [if_neg hc, add_zero, and_self]
  · subst hi ht
    rw [visit_parameters_damper]
    by_cases hc : contributes abi fixp_sin32 now FF_DAMPER e
    · simp only [if_pos hc]
      exact ⟨r1, r2, r5⟩
    · simp only [if_neg hc, add_zero, and_self]

theorem fold_condition (abi : Abi) (fixp_sin32 : Int → Int) (now : Int)
    (i : Fin 4) (type : Nat) (hcat : condition_category i type)
    (states : Fin FTECFF_MAX_EFFECTS → ftecff_effect_state)
    (l : List (Fin FTECFF_MAX_EFFECTS)) (p : Fin 4 → ftecff_effect_parameters) :
    ((l.foldl (fun p k => visit_parameters abi fixp_sin32 now (states k) p) p) i).k1 =
      (p i).k1 + (l.map (fun k => if contributes abi fixp_sin32 now type (states k) then
        (states k).effect.u.condition.left_coeff else 0)).sum ∧
    ((l.foldl (fun p k => visit_parameters abi fixp_sin32 now (states k) p) p) i).k2 =
      (p i).k2 + (l.map (fun k => if contributes abi fixp_sin32 now type (states k) then
        (states k).effect.u.condition.right_coeff else 0)).sum ∧
    (p i).clip ≤
      ((l.foldl (fun p k => visit_parameters abi fixp_sin32 now (states k) p) p) i).clip ∧
    (∀ k, k ∈ l → contributes abi fixp_sin32 now type (states k) →
      saturation (states k) ≤
        ((l.foldl (fun p k => visit_parameters abi fixp_sin32 now (states k) p) p) i).clip) ∧
    (((l.foldl (fun p k => visit_parameters abi fixp_sin32 now (states k) p) p) i).clip =
        (p i).clip ∨
      ∃ k, k ∈ l ∧ contributes abi fixp_sin32 now type (states k) ∧
        ((l.foldl (fun p k => visit_parameters abi fixp_sin32 now (states k) p) p) i).clip =
          saturation (states k)) := by
  induction l generalizing p with
  | nil =>
    simp
  | cons id rest ih =>
    obtain ⟨v1, v2, v3⟩ := visit_parameters_condition abi fixp_sin32 now i type hcat
      (states id) p
    obtain ⟨i1, i2, i3, i4, i5⟩ := ih (visit_parameters abi fixp_sin32 now (states id) p)
    simp only [List.foldl_cons, List.map_cons, List.sum_cons]
    have hge : (p i).clip ≤ (visit_parameters abi fixp_sin32 now (states id) p i).clip := by
      rw [v3]
      split_ifs
      · exact le_max_left _ _
      · exact le_refl _
    refine ⟨?_, ?_, le_trans hge i3, ?_, ?_⟩
    · rw [i1, v1]
      ring
    · rw [i2, v2]
      ring
    · intro k hk hc
      rcases List.mem_cons.1 hk with h | h
      · subst h
        refine le_trans ?_ i3
        rw [v3, if_pos hc]
        exact le_max_right _ _
      · exact i4 k h hc
    · rcases i5 with h | ⟨k, hk, hc, he⟩
      · rw [h, v3]
        by_cases hc : contributes abi fixp_sin32 now type (states id)
        · rw [if_pos hc]
          rcases max_choice (p i).clip (saturation (states id)) with hm | hm
          · exact Or.inl hm
          · exact Or.inr ⟨id, List.mem_cons_self _ _, hc, hm⟩
        · rw [if_neg hc]
          exact Or.inl rfl
      · exact Or.inr ⟨k, List.mem_cons_of_mem _ hk, hc, he⟩

theorem contributes_iff_playing (abi : Abi) (fixp_sin32 : Int → Int) (drv : ftec_drv_data)
    (now : Int) (hr : Reachable abi fixp_sin32 drv) (type : Nat)
    (k : Fin FTECFF_MAX_EFFECTS) :
    contributes abi fixp_sin32 now type (drv.states k) ↔
      (((ftecff_timer abi fixp_sin32 drv now).1.states k).flags.playing = true ∧
        (drv.states k).effect.type = type) := by
  unfold contributes
  constructor
  · rintro ⟨hs, hp, ht⟩
    rw [timer_states_eq_entry abi fixp_sin32 drv now hr k, if_pos hs]
    exact ⟨hp, ht⟩
  · rintro ⟨hp, ht⟩
    obtain ⟨hs, he⟩ := timer_playing_entry abi fixp_sin32 drv now k hr hp
    rw [he] at hp
    exact ⟨hs, hp, ht⟩

theorem timer_aggregate_fold (abi : Abi) (fixp_sin32 : Int → Int) (drv : ftec_drv_data)
    (now : Int) (hr : Reachable abi fixp_sin32 drv) (i : Fin 4) (type : Nat)
    (hcat : condition_category i type) :
    aggregate_is_fold abi fixp_sin32 drv now i type := by
  have hpar : (timer_aggregate abi fixp_sin32 drv now).parameters =
      (List.finRange FTECFF_MAX_EFFECTS).foldl
        (fun p k => visit_parameters abi fixp_sin32 now (drv.states k) p)
        (fun _ => ftecff_effect_parameters.zero) := by
    rw [timer_aggregate_eq_full abi fixp_sin32 drv now hr,
      timer_walk_full_parameters abi fixp_sin32 now _ (List.nodup_finRange _)]
  obtain ⟨f1, f2, -, f4, f5⟩ := fold_condition abi fixp_sin32 now i type hcat drv.states
    (List.finRange FTECFF_MAX_EFFECTS) (fun _ => ftecff_effect_parameters.zero)
  have hfilter : tick_playing abi fixp_sin32 drv now type =
      Finset.univ.filter (fun k => contributes abi fixp_sin32 now type (drv.states k)) := by
    unfold tick_playing
    apply Finset.filter_congr
    intro k _
    exact (contributes_iff_playing abi fixp_sin32 drv now hr type k).symm
  unfold aggregate_is_fold
  rw [hpar, hfilter]
  refine ⟨?_, ?_, fun k hk => ?_, ?_⟩
  · rw [f1, Finset.sum_filter, Fin.sum_univ_def]
    simp [ftecff_effect_parameters.zero]
  · rw [f2, Finset.sum_filter, Fin.sum_univ_def]
    simp [ftecff_effect_parameters.zero]
  · exact f4 k (List.mem_finRange k) (Finset.mem_filter.1 hk).2
  · rcases f5 with h | ⟨k, -, hc, he⟩
    · exact Or.inl h
    · exact Or.inr ⟨k, Finset.mem_filter.2 ⟨Finset.mem_univ k, hc⟩, he⟩

/-- C25: folding one Spring effect with center `c`, deadband `db`, coefficients `lc`, `rc`
and saturations `ls`, `rs` into an aggregate gives `k1 + lc`, `k2 + rc`,
`min(d1, c - db/2)`, `max(d2, c + db/2)` and `max(clip, max(ls, rs))`; folding a Damper
effect gives the same `k1`, `k2` and `clip` and leaves `d1`, `d2` as they were.  On every
reachable engine the Spring and the Damper aggregate that the walk of a tick leaves have
`k1` and `k2` equal to the sums of the coefficients, and `clip` equal to the largest
saturation, of the effects of the category that the tick leaves Playing: sums and a
maximum over a set of ids, in which the order of the ids does not enter. -/
theorem condition_folding (abi : Abi) (fixp_sin32 : Int → Int) (drv : ftec_drv_data)
    (now : Int) (hr : Reachable abi fixp_sin32 drv) :
    (∀ (state : ftecff_effect_state) (parameters : ftecff_effect_parameters),
      (ftecff_calculate_spring state parameters).k1 =
        parameters.k1 + state.effect.u.condition.left_coeff ∧
      (ftecff_calculate_spring state parameters).k2 =
        parameters.k2 + state.effect.u.condition.right_coeff ∧
      (ftecff_calculate_spring state parameters).d1 =
        min parameters.d1
          (state.effect.u.condition.center - Int.tdiv state.effect.u.condition.deadband 2) ∧
      (ftecff_calculate_spring state parameters).d2 =
        max parameters.d2
          (state.effect.u.condition.center + Int.tdiv state.effect.u.condition.deadband 2) ∧
      (ftecff_calculate_spring state parameters).clip =
        max parameters.clip
          (max state.effect.u.condition.left_saturation
            state.effect.u.condition.right_saturation)) ∧
    (∀ (state : ftecff_effect_state) (parameters : ftecff_effect_parameters),
      (ftecff_calculate_resistance state parameters).k1 =
        parameters.k1 + state.effect.u.condition.left_coeff ∧
      (ftecff_calculate_resistance state parameters).k2 =
        parameters.k2 + state.effect.u.condition.right_coeff ∧
      (ftecff_calculate_resistance state parameters).d1 = parameters.d1 ∧
      (ftecff_calculate_resistance state parameters).d2 = parameters.d2 ∧
      (ftecff_calculate_resistance state parameters).clip =
        max parameters.clip
          (max state.effect.u.condition.left_saturation
            state.effect.u.condition.right_saturation)) ∧
    aggregate_is_fold abi fixp_sin32 drv now 1 FF_SPRING ∧
    aggregate_is_fold abi fixp_sin32 drv now 2 FF_DAMPER := by
  refine ⟨fun state parameters => ?_, fun state parameters => ?_,
    timer_aggregate_fold abi fixp_sin32 drv now hr 1 FF_SPRING (Or.inl ⟨rfl, rfl⟩),
    timer_aggregate_fold abi fixp_sin32 drv now hr 2 FF_DAMPER (Or.inr ⟨rfl, rfl⟩)⟩
  · obtain ⟨h1, h2, h3, h4, h5, -⟩ := calculate_spring_fold state parameters
    exact ⟨h1, h2, h3, h4, h5⟩
  · obtain ⟨h1, h2, h3, h4, h5, -⟩ := calculate_resistance_fold state parameters
    exact ⟨h1, h2, h3, h4, h5⟩

/-- Witness of C25: two Spring effects with left coefficients 100 and 30, uploaded and
played on the initialised engine. -/
theorem condition_folding_witness :
    aggregate_is_fold Abi.ilp32 fixp_sin32_peak two_springs_engine 0 1 FF_SPRING :=
  (condition_folding Abi.ilp32 fixp_sin32_peak two_springs_engine 0
    (Reachable.play _ 1 1 0
      (Reachable.upload _ (condition_effect FF_SPRING 1 30 40) 0
        (Reachable.play _ 0 1 0
          (Reachable.upload _ (condition_effect FF_SPRING 0 100 200) 0 Reachable.init
            (by decide) (by decide))
          (by decide) (by decide))
        (by decide) (by decide))
      (by decide) (by decide))).2.2.1

/-- The two Spring effects of the witness of C25 are both Playing after the tick at time 0,
and the Spring aggregate has `k1 == 130`, `k2 == 240` and `clip == 0x6000`. -/
theorem two_springs_aggregate :
    tick_playing Abi.ilp32 fixp_sin32_peak two_springs_engine 0 FF_SPRING = {0, 1} ∧
    ((timer_aggregate Abi.ilp32 fixp_sin32_peak two_springs_engine 0).parameters 1).k1
      = 130 ∧
    ((timer_aggregate Abi.ilp32 fixp_sin32_peak two_springs_engine 0).parameters 1).k2
      = 240 ∧
    ((timer_aggregate Abi.ilp32 fixp_sin32_peak two_springs_engine 0).parameters 1).clip
      = 0x6000 := by
  decide

end Ftecff
